import Mathlib

/-!
Door locker security system: the control node and its sequencers.

A shallow embedding of `Control_ECU/MC2.c`, `Control_ECU/timer1.c`,
`Control_ECU/DC_Motor.c` and `Control_ECU/buzzer.c`.

Conventions of the embedding.
* A `uint8 *` buffer is a function from the index to the byte (`Buffer`).
* Machine integers are natural numbers; an increment that can wrap is
  written with its modulus (`% 256` for `uint8`, `% 65536` for `uint16`).
* A `for` loop over `PASSWORD_SIZE` elements is a recursion on the number of
  iterations still to run, carrying the loop variable.
* The state of the node is passed explicitly (`Ctrl`); every call of a driver
  is appended to the log of the state, which the theorems read.
* A piece of the main flow ends in an `Outcome`: it returns, or it waits
  forever for a byte or for a timer tick.
-/

namespace DoorLocker

/-! ## Definitions of MC2.c -/

def MC1_READY : Nat := 0x10
def MC2_READY : Nat := 0x20
def OPEN_DOOR : Nat := 0x30
def CHANGE_PASSWORD : Nat := 0x40
def WRONG_PASSWORD : Nat := 0x50
def PASSWORD_ADDRESS : Nat := 0x0310
def SAME : Nat := 1
def NOT_SAME : Nat := 0
def MATCHED : Nat := 1
def NOT_MATCHED : Nat := 0
def PASSWORD_SIZE : Nat := 5
def MAX_TRIALS : Nat := 3
def DC_MOTOR_FINISHED : Nat := 7
def BUZZER_FINISHED : Nat := 10

/-- A byte buffer reached through a `uint8 *`: index to byte. -/
abbrev Buffer := Nat → Nat

/-- The store `p[i] = v`. -/
def Buffer.write (p : Buffer) (i v : Nat) : Buffer :=
  fun j => if j = i then v else p j

/-- The five bytes of a password buffer, in order. -/
def Buffer.bytes (p : Buffer) : List Nat := (List.range PASSWORD_SIZE).map p

/-- The buffer holding the given bytes (zero past the end). -/
def Buffer.ofList (l : List Nat) : Buffer := fun i => l.getD i 0

/-! ## External EEPROM -/

/-- Modelled from the spec: `external_eeprom.c` is not among the sources. The
non-volatile storage is a byte store indexed by the 16-bit address. -/
abbrev EEPROM := Nat → Nat

/-- Modelled from the spec: `EEPROM_writeByte` of the missing
`external_eeprom.c`; the byte at `addr` becomes `data`, every other byte is
kept (storage I/O always succeeds). -/
def EEPROM_writeByte (mem : EEPROM) (addr data : Nat) : EEPROM :=
  fun a => if a = addr then data else mem a

/-- Modelled from the spec: `EEPROM_readByte` of the missing
`external_eeprom.c`; it yields the last byte written to `addr` and leaves the
store as it was. -/
def EEPROM_readByte (mem : EEPROM) (addr : Nat) : EEPROM × Nat :=
  (mem, mem addr)

/-! ## Password functions of MC2.c -/

/-- The loop of `checkSamePasswords`; `n` iterations remain, `i` is the loop
variable. -/
def checkSamePasswords.loop (password_1 password_2 : Buffer) : Nat → Nat → Nat
  | 0, _ => SAME
  | n + 1, i =>
    if password_1 i ≠ password_2 i then NOT_SAME
    else checkSamePasswords.loop password_1 password_2 n (i + 1)

/-- `uint8 checkSamePasswords(uint8 *password_1, uint8 *password_2)`. -/
def checkSamePasswords (password_1 password_2 : Buffer) : Nat :=
  checkSamePasswords.loop password_1 password_2 PASSWORD_SIZE 0

/-- The loop of `savePasswordInEEPROM`: write `password[i]`, then
`EEPROM_location += 1` on a `uint16`. -/
def savePasswordInEEPROM.loop (password : Buffer) : Nat → Nat → Nat → EEPROM → EEPROM
  | 0, _, _, mem => mem
  | n + 1, i, EEPROM_location, mem =>
    savePasswordInEEPROM.loop password n (i + 1) ((EEPROM_location + 1) % 65536)
      (EEPROM_writeByte mem EEPROM_location (password i))

/-- `void savePasswordInEEPROM(uint16 EEPROM_location, uint8 *password)` on the
store. -/
def savePasswordInEEPROM (mem : EEPROM) (EEPROM_location : Nat) (password : Buffer) : EEPROM :=
  savePasswordInEEPROM.loop password PASSWORD_SIZE 0 EEPROM_location mem

/-- The first loop of `checkOnPassword`: read `savedPassword[i]`, then
`EEPROM_location += 1` on a `uint16`. -/
def checkOnPassword.read : Nat → Nat → Nat → EEPROM → Buffer → EEPROM × Buffer
  | 0, _, _, mem, savedPassword => (mem, savedPassword)
  | n + 1, i, EEPROM_location, mem, savedPassword =>
    let r := EEPROM_readByte mem EEPROM_location
    checkOnPassword.read n (i + 1) ((EEPROM_location + 1) % 65536) r.1
      (savedPassword.write i r.2)

/-- The second loop of `checkOnPassword`. -/
def checkOnPassword.compare (HMI_password savedPassword : Buffer) : Nat → Nat → Nat
  | 0, _ => MATCHED
  | n + 1, i =>
    if HMI_password i ≠ savedPassword i then NOT_MATCHED
    else checkOnPassword.compare HMI_password savedPassword n (i + 1)

/-- `uint8 checkOnPassword(uint16 EEPROM_location, uint8 *HMI_password)`: the
store after the call and the value returned. The local array `savedPassword`
is written in full before it is read; it starts as zeros here. -/
def checkOnPassword (mem : EEPROM) (EEPROM_location : Nat) (HMI_password : Buffer) :
    EEPROM × Nat :=
  let r := checkOnPassword.read PASSWORD_SIZE 0 EEPROM_location mem (fun _ => 0)
  (r.1, checkOnPassword.compare HMI_password r.2 PASSWORD_SIZE 0)

/-! ## Timer1 driver (timer1.c) -/

/-- Bit numbers of the registers of Timer1, as `avr/io.h` gives them for the
ATmega16/32. -/
def TOIE1 : Nat := 2
def OCIE1B : Nat := 3
def OCIE1A : Nat := 4
def TICIE1 : Nat := 5
def FOC1B : Nat := 2
def FOC1A : Nat := 3

/-- `SET_BIT(REG,BIT)`: `REG |= (1<<BIT)`. -/
def SET_BIT (REG BIT : Nat) : Nat := REG ||| (1 <<< BIT)

/-- `CLEAR_BIT(REG,BIT)`: `REG &= ~(1<<BIT)` on an 8-bit register. -/
def CLEAR_BIT (REG BIT : Nat) : Nat := REG &&& (0xFF ^^^ (1 <<< BIT))

/-- `Timer1_Prescaler`, by value. -/
def NO_CLOCK_SOURCE : Nat := 0
def F_CPU_DIVIDE_1 : Nat := 1
def F_CPU_DIVIDE_8 : Nat := 2
def F_CPU_DIVIDE_64 : Nat := 3
def F_CPU_DIVIDE_256 : Nat := 4
def F_CPU_DIVIDE_1024 : Nat := 5

/-- `Timer1_Mode`, by value (the two modes MC1.c and MC2.c name). -/
def NORMAL : Nat := 0
def CTC_OCR1A : Nat := 4

/-- `Timer1_ConfigType`. -/
structure Timer1_ConfigType where
  initial_value : Nat
  compare_value : Nat
  prescaler : Nat
  mode : Nat
  deriving DecidableEq, Repr

/-- The registers of Timer1 and the static `g_callBackPtr` of timer1.c. A
function pointer is the name of the function it points to, `none` is
`NULL_PTR`. -/
structure Timer1 (F : Type) where
  TCCR1A : Nat
  TCCR1B : Nat
  TCNT1 : Nat
  ICR1 : Nat
  OCR1A : Nat
  OCR1B : Nat
  TIMSK : Nat
  g_callBackPtr : Option F
  deriving DecidableEq, Repr

/-- Modelled from the spec: `Control_ECU/timer1.h` is not among the sources.
Its configuration macros are taken as `HMI_ECU/timer1.h` sets them, which
gives the periodic compare interrupt the spec describes: `COMPARE_MODE_A` is
defined, the other six are not. A macro is `true` when it is defined. -/
def NORMAL_MODE : Bool := false
def COMPARE_MODE_A : Bool := true
def COMPARE_MODE_B : Bool := false
def PWM_MODE_A : Bool := false
def PWM_MODE_B : Bool := false
def COMPARE_OUTPUT_MODE_A : Bool := false
def COMPARE_OUTPUT_MODE_B : Bool := false

/-- `COM1A` and `COM1B` of timer1.h. -/
def COM1A : Nat := 0b00
def COM1B : Nat := 0b00

/-- `void Timer1_init(const Timer1_ConfigType * Config_Ptr)`, each `#ifdef` a
test of its macro. The pins OC1A and OC1B that the compare output modes set
up are not part of the state. -/
def Timer1_init {F : Type} (Config_Ptr : Timer1_ConfigType) (t : Timer1 F) : Timer1 F :=
  let TCCR1A := (t.TCCR1A &&& 0xFC) ||| (Config_Ptr.mode &&& 0x03)
  let TCCR1A := if PWM_MODE_A then CLEAR_BIT TCCR1A FOC1A else SET_BIT TCCR1A FOC1A
  let TCCR1A := if PWM_MODE_B then CLEAR_BIT TCCR1A FOC1B else SET_BIT TCCR1A FOC1B
  let TCCR1A :=
    if COMPARE_OUTPUT_MODE_A then TCCR1A ||| ((TCCR1A &&& 0x3F) ||| (COM1A <<< 6)) else TCCR1A
  let TCCR1A :=
    if COMPARE_OUTPUT_MODE_B then TCCR1A ||| ((TCCR1A &&& 0xCF) ||| (COM1B <<< 4)) else TCCR1A
  let TCCR1B := (t.TCCR1B &&& 0xE7) ||| ((Config_Ptr.mode &&& 0x0C) <<< 1)
    ||| (t.TCCR1B &&& 0xF8) ||| Config_Ptr.prescaler
  let TIMSK := if NORMAL_MODE then t.TIMSK ||| (1 <<< TOIE1) else t.TIMSK
  let OCR1A := if COMPARE_MODE_A then Config_Ptr.compare_value else t.OCR1A
  let TIMSK := if COMPARE_MODE_A then TIMSK ||| (1 <<< OCIE1A) else TIMSK
  let OCR1B := if COMPARE_MODE_B then Config_Ptr.compare_value else t.OCR1B
  let TIMSK := if COMPARE_MODE_B then TIMSK ||| (1 <<< OCIE1B) else TIMSK
  { t with
    TCCR1A := TCCR1A
    TCCR1B := TCCR1B
    TCNT1 := Config_Ptr.initial_value
    OCR1A := OCR1A
    OCR1B := OCR1B
    TIMSK := TIMSK }

/-- `void Timer1_deInit(void)`. -/
def Timer1_deInit {F : Type} (t : Timer1 F) : Timer1 F :=
  { TCCR1A := 0
    TCCR1B := 0
    TCNT1 := 0
    ICR1 := 0
    OCR1A := 0
    OCR1B := 0
    TIMSK := CLEAR_BIT (CLEAR_BIT (CLEAR_BIT (CLEAR_BIT t.TIMSK TOIE1) OCIE1A) OCIE1B) TICIE1
    g_callBackPtr := none }

/-- `void Timer1_setCallBack(void(*a_ptr)(void))`. -/
def Timer1_setCallBack {F : Type} (a_ptr : F) (t : Timer1 F) : Timer1 F :=
  { t with g_callBackPtr := some a_ptr }

/-- The timer raises compare-match-A interrupts: the interrupt is enabled in
TIMSK and the counter has a clock (the clock-select bits of TCCR1B are not
zero). Interrupts are enabled globally: `main` sets bit 7 of SREG before
anything else. -/
def Timer1.armed {F : Type} (t : Timer1 F) : Prop :=
  Nat.testBit t.TIMSK OCIE1A = true ∧ t.TCCR1B % 8 ≠ 0

instance {F : Type} (t : Timer1 F) : Decidable t.armed :=
  inferInstanceAs (Decidable (Nat.testBit t.TIMSK OCIE1A = true ∧ t.TCCR1B % 8 ≠ 0))

/-! ## State of the control node -/

/-- `DcMotor_State` of DC_Motor.h. -/
inductive DcMotor_State
  | STOP
  | CLOCKWISE
  | ANTI_CLOCKWISE
  deriving DecidableEq, Repr

/-- The value of the enumerator. -/
def DcMotor_State.val : DcMotor_State → Nat
  | .STOP => 0
  | .CLOCKWISE => 1
  | .ANTI_CLOCKWISE => 2

/-- The two timer call-back functions of MC2.c. -/
inductive CtrlFn
  | APP_DcMotor
  | APP_buzzer
  deriving DecidableEq, Repr

/-- What the control node does that is visible from outside, in the order it
does it. -/
inductive Event
  | invoked (f : CtrlFn)
  | DcMotor_Rotate (state : DcMotor_State) (speed : Nat)
  | Buzzer_on
  | Buzzer_off
  | Timer1_deInit
  | startTimer1 (TCNT_value OCR_value prescaler mode : Nat) (f : CtrlFn)
  | UART_sendByte (data : Nat)
  | UART_recieveByte (data : Nat)
  | savePasswordInEEPROM (EEPROM_location : Nat) (password : List Nat)
  deriving DecidableEq, Repr

/-- The control node: the two globals of MC2.c, the timer, the pins of the
motor (PC2, PC3) and of the buzzer, the EEPROM, the bytes the peer still
sends, and the log of events. -/
structure Ctrl where
  g_ticks_DCMotor : Nat
  g_ticks_buzzer : Nat
  timer : Timer1 CtrlFn
  motorPin1 : Nat
  motorPin2 : Nat
  buzzerPin : Nat
  eeprom : EEPROM
  rx : List Nat
  log : List Event

/-! ## Motor and buzzer drivers -/

/-- `void DcMotor_Rotate(DcMotor_State state, uint8 speed)`: the two direction
pins take bit 0 and bit 1 of the state. The duty cycle handed to the PWM
driver is computed from `TOP` of `pwm.h`, which is not among the sources; the
requested speed is kept in the log. -/
def DcMotor_Rotate (state : DcMotor_State) (speed : Nat) (s : Ctrl) : Ctrl :=
  { s with
    motorPin1 := state.val &&& 0x01
    motorPin2 := (state.val >>> 1) &&& 0x01
    log := s.log ++ [.DcMotor_Rotate state speed] }

/-- `void DcMotor_Init(void)`: both pins low. -/
def DcMotor_Init (s : Ctrl) : Ctrl := { s with motorPin1 := 0, motorPin2 := 0 }

/-- `void Buzzer_init(void)`: pin low. -/
def Buzzer_init (s : Ctrl) : Ctrl := { s with buzzerPin := 0 }

/-- `void Buzzer_on(void)`: pin high. -/
def Buzzer_on (s : Ctrl) : Ctrl := { s with buzzerPin := 1, log := s.log ++ [.Buzzer_on] }

/-- `void Buzzer_off(void)`: pin low. -/
def Buzzer_off (s : Ctrl) : Ctrl := { s with buzzerPin := 0, log := s.log ++ [.Buzzer_off] }

/-! ## Sequencers of MC2.c -/

/-- The call `Timer1_deInit();` made from MC2.c. -/
def call_Timer1_deInit (s : Ctrl) : Ctrl :=
  { s with timer := Timer1_deInit s.timer, log := s.log ++ [.Timer1_deInit] }

/-- `void startTimer1(uint16 TCNT_value, uint16 OCR_value, Timer1_Prescaler
prescaler, Timer1_Mode mode, void(*callBackFunctionAddress)(void))`. -/
def startTimer1 (TCNT_value OCR_value prescaler mode : Nat)
    (callBackFunctionAddress : CtrlFn) (s : Ctrl) : Ctrl :=
  let Timer1_Configuration : Timer1_ConfigType :=
    { initial_value := TCNT_value
      compare_value := OCR_value
      prescaler := prescaler
      mode := mode }
  { s with
    timer := Timer1_init Timer1_Configuration
      (Timer1_setCallBack callBackFunctionAddress s.timer)
    log := s.log ++
      [.startTimer1 TCNT_value OCR_value prescaler mode callBackFunctionAddress] }

/-- `void APP_DcMotor(void)`. -/
def APP_DcMotor (s0 : Ctrl) : Ctrl :=
  let s := { s0 with
    g_ticks_DCMotor := (s0.g_ticks_DCMotor + 1) % 256
    log := s0.log ++ [.invoked .APP_DcMotor] }
  if s.g_ticks_DCMotor = 1 then
    s |> call_Timer1_deInit
      |> startTimer1 0x00 62500 F_CPU_DIVIDE_1024 CTC_OCR1A .APP_DcMotor
      |> DcMotor_Rotate .CLOCKWISE 100
  else if s.g_ticks_DCMotor = 2 then
    s |> call_Timer1_deInit
      |> startTimer1 0x00 54687 F_CPU_DIVIDE_1024 CTC_OCR1A .APP_DcMotor
  else if s.g_ticks_DCMotor = 3 then
    s |> call_Timer1_deInit
      |> startTimer1 0x00 23437 F_CPU_DIVIDE_1024 CTC_OCR1A .APP_DcMotor
      |> DcMotor_Rotate .STOP 100
  else if s.g_ticks_DCMotor = 4 then
    s |> startTimer1 0x00 62500 F_CPU_DIVIDE_1024 CTC_OCR1A .APP_DcMotor
      |> DcMotor_Rotate .ANTI_CLOCKWISE 100
  else if s.g_ticks_DCMotor = 5 then
    s |> call_Timer1_deInit
      |> startTimer1 0x00 54687 F_CPU_DIVIDE_1024 CTC_OCR1A .APP_DcMotor
  else if s.g_ticks_DCMotor = 6 then
    s |> DcMotor_Rotate .STOP 100
      |> call_Timer1_deInit
  else s

/-- `void APP_buzzer(void)`. -/
def APP_buzzer (s0 : Ctrl) : Ctrl :=
  let s := { s0 with
    g_ticks_buzzer := (s0.g_ticks_buzzer + 1) % 256
    log := s0.log ++ [.invoked .APP_buzzer] }
  if s.g_ticks_buzzer = 1 then
    s |> Buzzer_on
      |> call_Timer1_deInit
      |> startTimer1 0x00 62500 F_CPU_DIVIDE_1024 CTC_OCR1A .APP_buzzer
  else if s.g_ticks_buzzer = 2 then
    s |> call_Timer1_deInit
      |> startTimer1 0x00 62500 F_CPU_DIVIDE_1024 CTC_OCR1A .APP_buzzer
  else if s.g_ticks_buzzer = 3 then
    s |> call_Timer1_deInit
      |> startTimer1 0x00 62500 F_CPU_DIVIDE_1024 CTC_OCR1A .APP_buzzer
  else if s.g_ticks_buzzer = 4 then
    s |> call_Timer1_deInit
      |> startTimer1 0x00 62500 F_CPU_DIVIDE_1024 CTC_OCR1A .APP_buzzer
  else if s.g_ticks_buzzer = 5 then
    s |> call_Timer1_deInit
      |> startTimer1 0x00 62500 F_CPU_DIVIDE_1024 CTC_OCR1A .APP_buzzer
  else if s.g_ticks_buzzer = 6 then
    s |> call_Timer1_deInit
      |> startTimer1 0x00 62500 F_CPU_DIVIDE_1024 CTC_OCR1A .APP_buzzer
  else if s.g_ticks_buzzer = 7 then
    s |> call_Timer1_deInit
      |> startTimer1 0x00 62500 F_CPU_DIVIDE_1024 CTC_OCR1A .APP_buzzer
  else if s.g_ticks_buzzer = 8 then
    s |> call_Timer1_deInit
      |> startTimer1 0x00 3125 F_CPU_DIVIDE_1024 CTC_OCR1A .APP_buzzer
  else if s.g_ticks_buzzer = 9 then
    s |> Buzzer_off
  else s

/-- The call through a function pointer of the control node. -/
def callBack : CtrlFn → Ctrl → Ctrl
  | .APP_DcMotor => APP_DcMotor
  | .APP_buzzer => APP_buzzer

/-- `ISR(TIMER1_COMPA_vect)` of timer1.c, the interrupt routine compiled in
under `COMPARE_MODE_A`. -/
def TIMER1_COMPA_vect (s : Ctrl) : Ctrl :=
  match s.timer.g_callBackPtr with
  | none => s
  | some f => callBack f s

/-- One compare match of the hardware: the interrupt routine runs when the
timer is armed; a disarmed timer raises no interrupt. -/
def compareMatch (s : Ctrl) : Option Ctrl :=
  if s.timer.armed then some (TIMER1_COMPA_vect s) else none

/-- The state after up to `n` compare matches, no interrupt lost: the
interrupt routine runs once per compare match for as long as the timer is
armed. -/
def compareMatches : Nat → Ctrl → Ctrl
  | 0, s => s
  | n + 1, s =>
    match compareMatch s with
    | none => s
    | some s1 => compareMatches n s1

/-! ## The main flow of MC2.c -/

/-- How a piece of the main flow ends: it returns a value, or it never
returns because `UART_recieveByte` waits for a byte the peer never sends
(`blocked`), or because a wait loop polls a tick counter while the timer is
disarmed, so that no interrupt will ever change it (`spinning`). `outOfFuel`
is the model running out of steps. Every case keeps the state reached. -/
inductive Outcome (α : Type)
  | returned (a : α) (s : Ctrl)
  | blocked (s : Ctrl)
  | spinning (s : Ctrl)
  | outOfFuel (s : Ctrl)

/-- The state an outcome was reached in. -/
def Outcome.state {α : Type} : Outcome α → Ctrl
  | .returned _ s => s
  | .blocked s => s
  | .spinning s => s
  | .outOfFuel s => s

/-- Sequencing: the rest of the flow runs only after a return. -/
def Outcome.bind {α β : Type} (o : Outcome α) (f : α → Ctrl → Outcome β) : Outcome β :=
  match o with
  | .returned a s => f a s
  | .blocked s => .blocked s
  | .spinning s => .spinning s
  | .outOfFuel s => .outOfFuel s

/-- Modelled from the spec: `UART_sendByte` of the missing `uart.c`; the byte
goes out on the link. -/
def UART_sendByte (data : Nat) (s : Ctrl) : Ctrl :=
  { s with log := s.log ++ [.UART_sendByte data] }

/-- Modelled from the spec: `UART_recieveByte` of the missing `uart.c`; it
blocks until a byte has arrived and returns the bytes of the peer in the order
they were sent. -/
def UART_recieveByte (s : Ctrl) : Outcome Nat :=
  match s.rx with
  | [] => .blocked s
  | b :: rest => .returned b { s with rx := rest, log := s.log ++ [.UART_recieveByte b] }

/-- The bytes left after `while(UART_recieveByte() != code);`, when the loop
ends. -/
def dropUntil (code : Nat) : List Nat → Option (List Nat)
  | [] => none
  | b :: rest => if b ≠ code then dropUntil code rest else some rest

/-- The bytes that `while(UART_recieveByte() != code);` reads: up to and
including the first `code`, all of them when there is none. -/
def readUntil (code : Nat) : List Nat → List Nat
  | [] => []
  | b :: rest => if b ≠ code then b :: readUntil code rest else [b]

/-- `while(UART_recieveByte() != code);`. -/
def awaitByte (code : Nat) (s : Ctrl) : Outcome Unit :=
  match dropUntil code s.rx with
  | none =>
    .blocked { s with rx := [], log := s.log ++ (readUntil code s.rx).map .UART_recieveByte }
  | some rest =>
    .returned () { s with rx := rest, log := s.log ++ (readUntil code s.rx).map .UART_recieveByte }

/-- The loop of `receivePasswordFrom_HMI_ECU` (and each of the two loops of
`receiveTwoPasswordsFrom_HMI_ECU`). -/
def receivePasswordFrom_HMI_ECU.loop : Nat → Nat → Buffer → Ctrl → Outcome Buffer
  | 0, _, password, s => .returned password s
  | n + 1, i, password, s =>
    (UART_recieveByte (UART_sendByte MC2_READY s)).bind fun b s1 =>
      receivePasswordFrom_HMI_ECU.loop n (i + 1) (password.write i b) s1

/-- `void receivePasswordFrom_HMI_ECU(uint8 *password)`. -/
def receivePasswordFrom_HMI_ECU (password : Buffer) (s : Ctrl) : Outcome Buffer :=
  receivePasswordFrom_HMI_ECU.loop PASSWORD_SIZE 0 password s

/-- `void receiveTwoPasswordsFrom_HMI_ECU(uint8 *password_1, uint8
*password_2)`. -/
def receiveTwoPasswordsFrom_HMI_ECU (password_1 password_2 : Buffer) (s : Ctrl) :
    Outcome (Buffer × Buffer) :=
  (receivePasswordFrom_HMI_ECU.loop PASSWORD_SIZE 0 password_1 s).bind fun p1 s1 =>
    (receivePasswordFrom_HMI_ECU.loop PASSWORD_SIZE 0 password_2 s1).bind fun p2 s2 =>
      .returned (p1, p2) s2

/-- The call `savePasswordInEEPROM(EEPROM_location, password)` made from
`main`. -/
def call_savePasswordInEEPROM (EEPROM_location : Nat) (password : Buffer) (s : Ctrl) : Ctrl :=
  { s with
    eeprom := savePasswordInEEPROM s.eeprom EEPROM_location password
    log := s.log ++ [.savePasswordInEEPROM EEPROM_location password.bytes] }

/-- The call `checkOnPassword(EEPROM_location, HMI_password)` made from
`main`. -/
def call_checkOnPassword (EEPROM_location : Nat) (HMI_password : Buffer) (s : Ctrl) :
    Nat × Ctrl :=
  let r := checkOnPassword s.eeprom EEPROM_location HMI_password
  (r.2, { s with eeprom := r.1 })

/-- The wait loops `while(g_ticks != FINISHED);` of `main`. The loop reads the
tick counter; between two reads the only thing that can change it is a
compare-match interrupt. -/
def waitUntil (g_ticks : Ctrl → Nat) (FINISHED : Nat) : Nat → Ctrl → Outcome Unit
  | 0, s => .outOfFuel s
  | fuel + 1, s =>
    if g_ticks s ≠ FINISHED then
      match compareMatch s with
      | none => .spinning s
      | some s1 => waitUntil g_ticks FINISHED fuel s1
    else .returned () s

/-- The local variables of `main`. -/
structure Locals where
  firstPassword : Buffer
  secondPassword : Buffer
  doorPassword : Buffer
  samePasswordFlag : Nat
  wrongPasswordCounter : Nat
  option : Nat

/-- The local variables of `main` before anything is stored in them. -/
def Locals.start : Locals :=
  { firstPassword := fun _ => 0
    secondPassword := fun _ => 0
    doorPassword := fun _ => 0
    samePasswordFlag := 0
    wrongPasswordCounter := 0
    option := 0 }

/-- The `do ... while(NOT_SAME == checkSamePasswords(...))` loop of `main`
(lines 131-140 and 193-202), entered with `samePasswordFlag` already set. -/
def setPassword.loop : Nat → Locals → Ctrl → Outcome Locals
  | 0, _, s => .outOfFuel s
  | fuel + 1, l, s =>
    (if l.samePasswordFlag ≠ SAME then
        (awaitByte MC1_READY s).bind fun _ s1 => .returned () (UART_sendByte NOT_SAME s1)
      else .returned () s).bind fun _ s2 =>
    (receiveTwoPasswordsFrom_HMI_ECU l.firstPassword l.secondPassword s2).bind fun p s3 =>
      let l1 := { l with
        firstPassword := p.1
        secondPassword := p.2
        samePasswordFlag := (l.samePasswordFlag + 1) % 256 }
      if NOT_SAME = checkSamePasswords l1.firstPassword l1.secondPassword then
        setPassword.loop fuel l1 s3
      else .returned l1 s3

/-- The password set-up of `main`: lines 130-145, and again lines 192-207. -/
def setPassword (fuel : Nat) (l : Locals) (s : Ctrl) : Outcome Locals :=
  (setPassword.loop fuel { l with samePasswordFlag := SAME } s).bind fun l1 s1 =>
    (awaitByte MC1_READY s1).bind fun _ s2 =>
      .returned l1
        (call_savePasswordInEEPROM PASSWORD_ADDRESS l1.firstPassword (UART_sendByte SAME s2))

/-- The verification loop of `main`, lines 150-165:
`while(wrongPasswordCounter < MAX_TRIALS)` with its `break`. -/
def verifyLoop : Nat → Locals → Ctrl → Outcome Locals
  | 0, _, s => .outOfFuel s
  | fuel + 1, l, s =>
    if l.wrongPasswordCounter < MAX_TRIALS then
      (receivePasswordFrom_HMI_ECU l.doorPassword s).bind fun p s1 =>
        let l1 := { l with doorPassword := p }
        let r := call_checkOnPassword PASSWORD_ADDRESS l1.doorPassword s1
        if MATCHED = r.1 then
          (awaitByte MC1_READY r.2).bind fun _ s2 =>
            .returned l1 (UART_sendByte MATCHED s2)
        else
          (awaitByte MC1_READY r.2).bind fun _ s2 =>
            verifyLoop fuel { l1 with wrongPasswordCounter := l1.wrongPasswordCounter + 1 }
              (UART_sendByte NOT_MATCHED s2)
    else .returned l s

/-- The dispatch of `main`, lines 167-209, after the verification loop. -/
def dispatch (fuel : Nat) (l : Locals) (s : Ctrl) : Outcome Locals :=
  if l.wrongPasswordCounter = MAX_TRIALS then
    (UART_recieveByte (UART_sendByte MC2_READY s)).bind fun b s1 =>
      let l1 := { l with option := b }
      if WRONG_PASSWORD = l1.option then
        (waitUntil (fun t => t.g_ticks_buzzer) BUZZER_FINISHED fuel
          (APP_buzzer { s1 with g_ticks_buzzer := 0 })).bind fun _ s2 => .returned l1 s2
      else .returned l1 s1
  else
    (UART_recieveByte (UART_sendByte MC2_READY s)).bind fun b s1 =>
      let l1 := { l with option := b }
      if OPEN_DOOR = l1.option then
        (waitUntil (fun t => t.g_ticks_DCMotor) DC_MOTOR_FINISHED fuel
          (APP_DcMotor { s1 with g_ticks_DCMotor := 0 })).bind fun _ s2 => .returned l1 s2
      else if CHANGE_PASSWORD = l1.option then
        setPassword fuel l1 s1
      else .returned l1 s1

/-- The verification round of `main`, lines 149-165: `wrongPasswordCounter =
0;` and the verification loop. The loop runs at most `MAX_TRIALS` times, so
`MAX_TRIALS + 1` steps suffice for it. -/
def verifyRound (l : Locals) (s : Ctrl) : Outcome Locals :=
  verifyLoop (MAX_TRIALS + 1) { l with wrongPasswordCounter := 0 } s

/-- One round of the `while(1)` of `main`, lines 149-209. -/
def mainRound (fuel : Nat) (l : Locals) (s : Ctrl) : Outcome Locals :=
  (verifyRound l s).bind fun l1 s1 => dispatch fuel l1 s1

/-- The `while(1)` of `main`: `rounds` rounds, one after the other. -/
def mainLoop (fuel : Nat) : Nat → Locals → Ctrl → Outcome Locals
  | 0, l, s => .returned l s
  | rounds + 1, l, s => (mainRound fuel l s).bind fun l1 s1 => mainLoop fuel rounds l1 s1

/-- `int main(void)` of MC2.c, up to the given number of rounds of its
`while(1)`. The set-up of the two-wire bus and of the UART changes nothing of
the state kept here. -/
def main (fuel rounds : Nat) (l : Locals) (s : Ctrl) : Outcome Locals :=
  (setPassword fuel l (Buzzer_init (DcMotor_Init s))).bind fun l1 s1 =>
    mainLoop fuel rounds l1 s1

/-! ## Reading a log -/

/-- The control node after reset: counters and registers zero, pins low, an
erased EEPROM, nothing received, nothing logged. -/
def powerOn : Ctrl :=
  { g_ticks_DCMotor := 0
    g_ticks_buzzer := 0
    timer :=
      { TCCR1A := 0, TCCR1B := 0, TCNT1 := 0, ICR1 := 0, OCR1A := 0, OCR1B := 0, TIMSK := 0,
        g_callBackPtr := none }
    motorPin1 := 0
    motorPin2 := 0
    buzzerPin := 0
    eeprom := fun _ => 0xFF
    rx := []
    log := [] }

/-- The events before the first call-back invocation of a log, and the events
of each invocation, in order. -/
def splitInvocations : List Event → List Event × List (List Event)
  | [] => ([], [])
  | .invoked _ :: rest => ([], (splitInvocations rest).1 :: (splitInvocations rest).2)
  | e :: rest => (e :: (splitInvocations rest).1, (splitInvocations rest).2)

/-- The events of each call-back invocation of a log, one list per
invocation. -/
def invocations (log : List Event) : List (List Event) := (splitInvocations log).2

/-- An actuator action: a motor or a buzzer call. -/
def Event.isActuator : Event → Bool
  | .DcMotor_Rotate _ _ => true
  | .Buzzer_on => true
  | .Buzzer_off => true
  | _ => false

/-- The compare threshold an event arms the timer with, if it arms it. -/
def Event.threshold : Event → Option Nat
  | .startTimer1 _ OCR_value _ _ _ => some OCR_value
  | _ => none

/-- The actuator actions of each invocation of a log. -/
def actuatorActions (log : List Event) : List (List Event) :=
  (invocations log).map (List.filter Event.isActuator)

/-- The compare thresholds armed by each invocation of a log. -/
def thresholds (log : List Event) : List (List Nat) :=
  (invocations log).map (List.filterMap Event.threshold)

/-- The number of call-back invocations of a log. -/
def invocationCount (log : List Event) : Nat := (invocations log).length

/-- The number of timer ticks in a duration of `seconds`, at the rate MC2.c
states: a compare threshold of 62500 is 8 seconds. -/
def ticksOfSeconds (seconds : Nat) : Nat := seconds * 62500 / 8

/-- The bytes sent on the link, in order. -/
def sentBytes (log : List Event) : List Nat :=
  log.filterMap fun e =>
    match e with
    | .UART_sendByte data => some data
    | _ => none

/-- An event is part of a door-open sequence or is a password overwrite: an
invocation of `APP_DcMotor`, a motor call, the timer started with
`APP_DcMotor` as its call-back, or a call of `savePasswordInEEPROM`. -/
def Event.isDoorOrSave : Event → Bool
  | .invoked .APP_DcMotor => true
  | .DcMotor_Rotate _ _ => true
  | .startTimer1 _ _ _ _ .APP_DcMotor => true
  | .savePasswordInEEPROM _ _ => true
  | _ => false

/-- No event of the log is part of a door-open sequence or a password
overwrite. -/
def quietLog (log : List Event) : Bool := log.all fun e => !e.isDoorOrSave

/-- The password stored at PASSWORD_ADDRESS. -/
def storedPassword (mem : EEPROM) : Buffer :=
  fun i => mem ((PASSWORD_ADDRESS + i) % 65536)

/-- Two password buffers agree on their five bytes. -/
def Buffer.agree (p q : Buffer) : Prop := ∀ i, i < 5 → p i = q i

instance (p q : Buffer) : Decidable (p.agree q) :=
  inferInstanceAs (Decidable (∀ i, i < 5 → p i = q i))

/-- What the peer sends for one verification trial: the five bytes of the
candidate, answered one by one, then any bytes other than MC1_READY, then
MC1_READY. -/
def frame (c : Buffer) (junk : List Nat) : List Nat := c.bytes ++ (junk ++ [MC1_READY])

/-- The bytes the control node sends in one verification trial: MC2_READY
before each byte of the candidate, then the reply. -/
def trialBytes (reply : Nat) : List Nat := List.replicate PASSWORD_SIZE MC2_READY ++ [reply]

/-- The receive buffer after a candidate has been received into it. -/
def Buffer.received (old c : Buffer) : Buffer :=
  fun j => if j < PASSWORD_SIZE then c j else old j

/-- The log of a transfer of the bytes `bs` to the control node: MC2_READY is
sent, then a byte is received, for each byte. -/
def exchange : List Nat → List Event
  | [] => []
  | b :: bs => .UART_sendByte MC2_READY :: .UART_recieveByte b :: exchange bs

/-- The log of one verification trial: the candidate is transferred, bytes
are read up to MC1_READY, the reply is sent. -/
def trialLog (c : Buffer) (junk : List Nat) (reply : Nat) : List Event :=
  exchange c.bytes ++ ((junk ++ [MC1_READY]).map .UART_recieveByte ++ [.UART_sendByte reply])

/-- The state after one verification trial: the frame of the trial is
consumed and the bytes of the trial are sent. -/
def afterTrial (c : Buffer) (junk : List Nat) (reply : Nat) (tail : List Nat) (s : Ctrl) :
    Ctrl :=
  { s with
    rx := tail
    log := s.log ++ trialLog c junk reply }

/-! ## Password creation rounds -/

/-- What the HMI node sends for one creation round: the five bytes of the
first entry, the five bytes of the second, then MC1_READY to ask for the
answer. -/
def roundBytes (r : Buffer × Buffer) : List Nat := r.1.bytes ++ (r.2.bytes ++ [MC1_READY])

/-- What the HMI node sends for a sequence of creation rounds. -/
def roundsStream : List (Buffer × Buffer) → List Nat
  | [] => []
  | r :: rs => roundBytes r ++ roundsStream rs

/-- The replies of a log: the bytes sent other than MC2_READY, in order. -/
def replies (log : List Event) : List Nat :=
  (sentBytes log).filter fun b => decide (b ≠ MC2_READY)

/-- The calls of `savePasswordInEEPROM` of a log: address and bytes. -/
def saves (log : List Event) : List (Nat × List Nat) :=
  log.filterMap fun e =>
    match e with
    | .savePasswordInEEPROM a p => some (a, p)
    | _ => none

/-- The local variables after a creation round has been received. -/
def Locals.afterRound (l : Locals) (A B : Buffer) : Locals :=
  { l with
    firstPassword := l.firstPassword.received A
    secondPassword := l.secondPassword.received B
    samePasswordFlag := (l.samePasswordFlag + 1) % 256 }

/-- The state after a creation round has been received: `pre` is what the
round logged before the transfer of the two entries. -/
def afterRound (pre : List Event) (A B : Buffer) (tail : List Nat) (s : Ctrl) : Ctrl :=
  { s with
    rx := tail
    log := s.log ++ (pre ++ (exchange A.bytes ++ exchange B.bytes)) }

/-! ## The HMI node (MC1.c)

MC1.c defines the same protocol constants as MC2.c, with the same values; the
definitions above are used for both nodes. -/

/-- `#define LCD_FINISHED_OPEN_DOOR 6` of MC1.c. -/
def LCD_FINISHED_OPEN_DOOR : Nat := 6

/-- `#define LCD_FINISHED_WRONG_PASSWORD 9` of MC1.c. -/
def LCD_FINISHED_WRONG_PASSWORD : Nat := 9

/-- The two timer call-back functions of MC1.c. -/
inductive HmiFn
  | APP_openDoor
  | APP_wrongPassword
  deriving DecidableEq, Repr

/-- What the HMI node does that is visible from outside, in the order it does
it. -/
inductive HmiEvent
  | invoked (f : HmiFn)
  | LCD_clearScreen
  | LCD_displayStringRowColumn (row col : Nat) (str : String)
  | LCD_displayString (str : String)
  | LCD_moveCursor (row col : Nat)
  | LCD_displayCharacter (data : Nat)
  | KEYPAD_getPressedKey (key : Nat)
  | Timer1_deInit
  | startTimer1 (TCNT_value OCR_value prescaler mode : Nat) (f : HmiFn)
  | UART_sendByte (data : Nat)
  | UART_recieveByte (data : Nat)
  deriving DecidableEq, Repr

/-- The HMI node: the global of MC1.c, the timer, the bytes the peer still
sends, the keys the keypad still returns, and the log of events. -/
structure Hmi where
  g_ticks_LCD : Nat
  timer : Timer1 HmiFn
  rx : List Nat
  keys : List Nat
  log : List HmiEvent

/-- How a piece of the main flow of MC1.c ends: as `Outcome`, for the HMI
node; `blocked` is also a keypad that returns no further key. -/
inductive HmiOutcome (α : Type)
  | returned (a : α) (h : Hmi)
  | blocked (h : Hmi)
  | spinning (h : Hmi)
  | outOfFuel (h : Hmi)

/-- The state an outcome was reached in. -/
def HmiOutcome.state {α : Type} : HmiOutcome α → Hmi
  | .returned _ h => h
  | .blocked h => h
  | .spinning h => h
  | .outOfFuel h => h

/-- Sequencing: the rest of the flow runs only after a return. -/
def HmiOutcome.bind {α β : Type} (o : HmiOutcome α) (f : α → Hmi → HmiOutcome β) :
    HmiOutcome β :=
  match o with
  | .returned a h => f a h
  | .blocked h => .blocked h
  | .spinning h => .spinning h
  | .outOfFuel h => .outOfFuel h

/-! ### Collaborators of MC1.c -/

/-- Modelled from the spec: `LCD_clearScreen` of the missing `lcd.c`; the call
is logged. -/
def HMI.LCD_clearScreen (h : Hmi) : Hmi := { h with log := h.log ++ [.LCD_clearScreen] }

/-- Modelled from the spec: `LCD_displayStringRowColumn` of the missing
`lcd.c`; the call is logged with its text. -/
def HMI.LCD_displayStringRowColumn (row col : Nat) (str : String) (h : Hmi) : Hmi :=
  { h with log := h.log ++ [.LCD_displayStringRowColumn row col str] }

/-- Modelled from the spec: `LCD_displayString` of the missing `lcd.c`; the
call is logged with its text. -/
def HMI.LCD_displayString (str : String) (h : Hmi) : Hmi :=
  { h with log := h.log ++ [.LCD_displayString str] }

/-- Modelled from the spec: `LCD_moveCursor` of the missing `lcd.c`; the call
is logged. -/
def HMI.LCD_moveCursor (row col : Nat) (h : Hmi) : Hmi :=
  { h with log := h.log ++ [.LCD_moveCursor row col] }

/-- Modelled from the spec: `LCD_displayCharacter` of the missing `lcd.c`; the
call is logged with the character. -/
def HMI.LCD_displayCharacter (data : Nat) (h : Hmi) : Hmi :=
  { h with log := h.log ++ [.LCD_displayCharacter data] }

/-- Modelled from the spec: `KEYPAD_getPressedKey` of the missing `keypad.c`;
it waits for a key and returns it. -/
def HMI.KEYPAD_getPressedKey (h : Hmi) : HmiOutcome Nat :=
  match h.keys with
  | [] => .blocked h
  | key :: rest =>
    .returned key { h with keys := rest, log := h.log ++ [.KEYPAD_getPressedKey key] }

/-- Modelled from the spec: `UART_sendByte` of the missing `uart.c`. -/
def HMI.UART_sendByte (data : Nat) (h : Hmi) : Hmi :=
  { h with log := h.log ++ [.UART_sendByte data] }

/-- Modelled from the spec: `UART_recieveByte` of the missing `uart.c`; it
blocks until a byte has arrived. -/
def HMI.UART_recieveByte (h : Hmi) : HmiOutcome Nat :=
  match h.rx with
  | [] => .blocked h
  | b :: rest => .returned b { h with rx := rest, log := h.log ++ [.UART_recieveByte b] }

/-- `while(UART_recieveByte() != code);` in MC1.c. -/
def HMI.awaitByte (code : Nat) (h : Hmi) : HmiOutcome Unit :=
  match dropUntil code h.rx with
  | none =>
    .blocked { h with rx := [], log := h.log ++ (readUntil code h.rx).map .UART_recieveByte }
  | some rest =>
    .returned ()
      { h with rx := rest, log := h.log ++ (readUntil code h.rx).map .UART_recieveByte }

/-- The key a keypad loop ends with and the keys left after it: the loop calls
`KEYPAD_getPressedKey` until the key it returns satisfies `stop`. -/
def HMI.dropTo (stop : Nat → Bool) : List Nat → Option (Nat × List Nat)
  | [] => none
  | key :: rest => if stop key then some (key, rest) else HMI.dropTo stop rest

/-- The keys a keypad loop reads: up to and including the first key that
satisfies `stop`, all of them when there is none. -/
def HMI.readTo (stop : Nat → Bool) : List Nat → List Nat
  | [] => []
  | key :: rest => if stop key then [key] else key :: HMI.readTo stop rest

/-- A loop that calls `KEYPAD_getPressedKey` until the key satisfies `stop`. -/
def HMI.pollKeypad (stop : Nat → Bool) (h : Hmi) : HmiOutcome Nat :=
  match HMI.dropTo stop h.keys with
  | none =>
    .blocked
      { h with keys := [], log := h.log ++ (HMI.readTo stop h.keys).map .KEYPAD_getPressedKey }
  | some (key, rest) =>
    .returned key
      { h with
        keys := rest
        log := h.log ++ (HMI.readTo stop h.keys).map .KEYPAD_getPressedKey }

/-- `do { key = KEYPAD_getPressedKey(); } while(!((key >= 0) && (key <=
9)));` (`key` is a `uint8`). -/
def HMI.getDigit (h : Hmi) : HmiOutcome Nat :=
  HMI.pollKeypad (fun key => decide (0 ≤ key ∧ key ≤ 9)) h

/-- `while(13 != KEYPAD_getPressedKey());`. -/
def HMI.awaitEnter (h : Hmi) : HmiOutcome Unit :=
  (HMI.pollKeypad (fun key => decide (¬ 13 ≠ key)) h).bind fun _ h1 => .returned () h1

/-- `do { key = KEYPAD_getPressedKey(); } while((key != '+') && (key !=
'-'));`. -/
def HMI.getOption (h : Hmi) : HmiOutcome Nat :=
  HMI.pollKeypad (fun key => decide (¬ (key ≠ '+'.toNat ∧ key ≠ '-'.toNat))) h

/-! ### Functions of MC1.c -/

/-- The loop `for(i = 0; i < PASSWORD_SIZE; i++)` of `createPassword` (twice)
and of `userWritePassword`: a digit is read, stored at `i`, and a star is
displayed. -/
def HMI.enterDigits : Nat → Nat → Buffer → Hmi → HmiOutcome Buffer
  | 0, _, password, h => .returned password h
  | n + 1, i, password, h =>
    (HMI.getDigit h).bind fun key h1 =>
      HMI.enterDigits n (i + 1) (password.write i key) (HMI.LCD_displayCharacter '*'.toNat h1)

/-- `void createPassword(uint8 *password_1, uint8 *password_2)`. -/
def HMI.createPassword (password_1 password_2 : Buffer) (h : Hmi) :
    HmiOutcome (Buffer × Buffer) :=
  let h := h |> HMI.LCD_clearScreen
    |> HMI.LCD_displayStringRowColumn 0 0 "plz enter pass:"
    |> HMI.LCD_moveCursor 1 0
  (HMI.enterDigits PASSWORD_SIZE 0 password_1 h).bind fun p1 h1 =>
    (HMI.awaitEnter h1).bind fun _ h2 =>
      let h3 := h2 |> HMI.LCD_clearScreen
        |> HMI.LCD_displayStringRowColumn 0 0 "plz re-enter the"
        |> HMI.LCD_displayStringRowColumn 1 0 "same pass: "
      (HMI.enterDigits PASSWORD_SIZE 0 password_2 h3).bind fun p2 h4 =>
        (HMI.awaitEnter h4).bind fun _ h5 =>
          .returned (p1, p2) (h5 |> HMI.LCD_clearScreen |> HMI.LCD_moveCursor 0 0)

/-- `void userWritePassword(uint8 *doorPassword)`. -/
def HMI.userWritePassword (doorPassword : Buffer) (h : Hmi) : HmiOutcome Buffer :=
  let h := h |> HMI.LCD_clearScreen
    |> HMI.LCD_displayStringRowColumn 0 0 "plz enter pass:"
    |> HMI.LCD_moveCursor 1 0
  (HMI.enterDigits PASSWORD_SIZE 0 doorPassword h).bind fun p h1 =>
    (HMI.awaitEnter h1).bind fun _ h2 =>
      .returned p (h2 |> HMI.LCD_clearScreen |> HMI.LCD_moveCursor 0 0)

/-- The loop `for(i = 0; i < PASSWORD_SIZE; i++)` of
`checkPasswordInControlECU` and of `checkSamePasswordsInControlECU` (twice):
wait for MC2_READY, then send the byte at `i`. -/
def HMI.sendDigits : Nat → Nat → Buffer → Hmi → HmiOutcome Unit
  | 0, _, _, h => .returned () h
  | n + 1, i, password, h =>
    (HMI.awaitByte MC2_READY h).bind fun _ h1 =>
      HMI.sendDigits n (i + 1) password (HMI.UART_sendByte (password i) h1)

/-- `uint8 checkSamePasswordsInControlECU(uint8 *password_1, uint8
*password_2)`. -/
def HMI.checkSamePasswordsInControlECU (password_1 password_2 : Buffer) (h : Hmi) :
    HmiOutcome Nat :=
  (HMI.sendDigits PASSWORD_SIZE 0 password_1 h).bind fun _ h1 =>
    (HMI.sendDigits PASSWORD_SIZE 0 password_2 h1).bind fun _ h2 =>
      HMI.UART_recieveByte (HMI.UART_sendByte MC1_READY h2)

/-- `uint8 checkPasswordInControlECU(uint8 *password)`. -/
def HMI.checkPasswordInControlECU (password : Buffer) (h : Hmi) : HmiOutcome Nat :=
  (HMI.sendDigits PASSWORD_SIZE 0 password h).bind fun _ h1 =>
    HMI.UART_recieveByte (HMI.UART_sendByte MC1_READY h1)

/-- The call `Timer1_deInit();` made from MC1.c. Modelled from the spec:
`HMI_ECU/timer1.c` is not among the sources; the driver of the control node,
which implements the same `timer1.h`, is used for both nodes. -/
def HMI.call_Timer1_deInit (h : Hmi) : Hmi :=
  { h with timer := Timer1_deInit h.timer, log := h.log ++ [.Timer1_deInit] }

/-- `void startTimer1(uint16 TCNT_value, uint16 OCR_value, Timer1_Prescaler
prescaler, Timer1_Mode mode, void(*callBackFunctionAddress)(void))` of
MC1.c. -/
def HMI.startTimer1 (TCNT_value OCR_value prescaler mode : Nat)
    (callBackFunctionAddress : HmiFn) (h : Hmi) : Hmi :=
  let Timer1_Configurations : Timer1_ConfigType :=
    { initial_value := TCNT_value
      compare_value := OCR_value
      prescaler := prescaler
      mode := mode }
  { h with
    timer := Timer1_init Timer1_Configurations
      (Timer1_setCallBack callBackFunctionAddress h.timer)
    log := h.log ++
      [.startTimer1 TCNT_value OCR_value prescaler mode callBackFunctionAddress] }

/-- `void APP_openDoor(void)`. -/
def HMI.APP_openDoor (h0 : Hmi) : Hmi :=
  let h := { h0 with
    g_ticks_LCD := (h0.g_ticks_LCD + 1) % 256
    log := h0.log ++ [.invoked .APP_openDoor] }
  if h.g_ticks_LCD = 1 then
    h |> HMI.LCD_clearScreen
      |> HMI.LCD_displayStringRowColumn 0 4 "Door is"
      |> HMI.LCD_displayStringRowColumn 1 3 "Unlocking"
      |> HMI.call_Timer1_deInit
      |> HMI.startTimer1 0x00 62500 F_CPU_DIVIDE_1024 CTC_OCR1A .APP_openDoor
  else if h.g_ticks_LCD = 2 then
    h |> HMI.call_Timer1_deInit
      |> HMI.startTimer1 0x00 54687 F_CPU_DIVIDE_1024 CTC_OCR1A .APP_openDoor
  else if h.g_ticks_LCD = 3 then
    h |> HMI.LCD_clearScreen
      |> HMI.call_Timer1_deInit
      |> HMI.startTimer1 0x00 23437 F_CPU_DIVIDE_1024 CTC_OCR1A .APP_openDoor
  else if h.g_ticks_LCD = 4 then
    h |> HMI.LCD_displayString ("Door is Locking")
      |> HMI.call_Timer1_deInit
      |> HMI.startTimer1 0x00 62500 F_CPU_DIVIDE_1024 CTC_OCR1A .APP_openDoor
  else if h.g_ticks_LCD = 5 then
    h |> HMI.call_Timer1_deInit
      |> HMI.startTimer1 0x00 54687 F_CPU_DIVIDE_1024 CTC_OCR1A .APP_openDoor
  else h

/-- `void APP_wrongPassword(void)`. -/
def HMI.APP_wrongPassword (h0 : Hmi) : Hmi :=
  let h := { h0 with
    g_ticks_LCD := (h0.g_ticks_LCD + 1) % 256
    log := h0.log ++ [.invoked .APP_wrongPassword] }
  if h.g_ticks_LCD = 1 then
    h |> HMI.LCD_clearScreen
      |> HMI.LCD_displayStringRowColumn 0 5 "ERROR"
      |> HMI.call_Timer1_deInit
      |> HMI.startTimer1 0x00 62500 F_CPU_DIVIDE_1024 CTC_OCR1A .APP_wrongPassword
  else if h.g_ticks_LCD = 2 then
    h |> HMI.call_Timer1_deInit
      |> HMI.startTimer1 0x00 62500 F_CPU_DIVIDE_1024 CTC_OCR1A .APP_wrongPassword
  else if h.g_ticks_LCD = 3 then
    h |> HMI.call_Timer1_deInit
      |> HMI.startTimer1 0x00 62500 F_CPU_DIVIDE_1024 CTC_OCR1A .APP_wrongPassword
  else if h.g_ticks_LCD = 4 then
    h |> HMI.call_Timer1_deInit
      |> HMI.startTimer1 0x00 62500 F_CPU_DIVIDE_1024 CTC_OCR1A .APP_wrongPassword
  else if h.g_ticks_LCD = 5 then
    h |> HMI.call_Timer1_deInit
      |> HMI.startTimer1 0x00 62500 F_CPU_DIVIDE_1024 CTC_OCR1A .APP_wrongPassword
  else if h.g_ticks_LCD = 6 then
    h |> HMI.call_Timer1_deInit
      |> HMI.startTimer1 0x00 62500 F_CPU_DIVIDE_1024 CTC_OCR1A .APP_wrongPassword
  else if h.g_ticks_LCD = 7 then
    h |> HMI.call_Timer1_deInit
      |> HMI.startTimer1 0x00 62500 F_CPU_DIVIDE_1024 CTC_OCR1A .APP_wrongPassword
  else if h.g_ticks_LCD = 8 then
    h |> HMI.call_Timer1_deInit
      |> HMI.startTimer1 0x00 3125 F_CPU_DIVIDE_1024 CTC_OCR1A .APP_wrongPassword
  else h

/-- The call through a function pointer of the HMI node. -/
def HMI.callBack : HmiFn → Hmi → Hmi
  | .APP_openDoor => HMI.APP_openDoor
  | .APP_wrongPassword => HMI.APP_wrongPassword

/-- `ISR(TIMER1_COMPA_vect)` of the timer driver, on the HMI node. -/
def HMI.TIMER1_COMPA_vect (h : Hmi) : Hmi :=
  match h.timer.g_callBackPtr with
  | none => h
  | some f => HMI.callBack f h

/-- One compare match of the hardware of the HMI node: the interrupt routine
runs when the timer is armed; a disarmed timer raises no interrupt. -/
def HMI.compareMatch (h : Hmi) : Option Hmi :=
  if h.timer.armed then some (HMI.TIMER1_COMPA_vect h) else none

/-- The state of the HMI node after up to `n` compare matches, no interrupt
lost. -/
def HMI.compareMatches : Nat → Hmi → Hmi
  | 0, h => h
  | n + 1, h =>
    match HMI.compareMatch h with
    | none => h
    | some h1 => HMI.compareMatches n h1

/-- The wait loops `while(g_ticks_LCD != FINISHED);` of `main` in MC1.c. -/
def HMI.waitUntil (FINISHED : Nat) : Nat → Hmi → HmiOutcome Unit
  | 0, h => .outOfFuel h
  | fuel + 1, h =>
    if h.g_ticks_LCD ≠ FINISHED then
      match HMI.compareMatch h with
      | none => .spinning h
      | some h1 => HMI.waitUntil FINISHED fuel h1
    else .returned () h

/-- The local variables of `main` in MC1.c. -/
structure HmiLocals where
  key : Nat
  firstPassword : Buffer
  secondPassword : Buffer
  doorPassword : Buffer
  wrongPasswordCounter : Nat

/-- The local variables of `main` in MC1.c before anything is stored in
them. -/
def HmiLocals.start : HmiLocals :=
  { key := 0
    firstPassword := fun _ => 0
    secondPassword := fun _ => 0
    doorPassword := fun _ => 0
    wrongPasswordCounter := 0 }

/-- The loop `do { createPassword(...); } while(NOT_SAME ==
checkSamePasswordsInControlECU(...));` of `main` (lines 114-117 and
173-176). -/
def HMI.newPassword : Nat → HmiLocals → Hmi → HmiOutcome HmiLocals
  | 0, _, h => .outOfFuel h
  | fuel + 1, l, h =>
    (HMI.createPassword l.firstPassword l.secondPassword h).bind fun p h1 =>
      let l1 := { l with firstPassword := p.1, secondPassword := p.2 }
      (HMI.checkSamePasswordsInControlECU l1.firstPassword l1.secondPassword h1).bind
        fun sameFlag h2 =>
          if NOT_SAME = sameFlag then HMI.newPassword fuel l1 h2 else .returned l1 h2

/-- The loop `while(wrongPasswordCounter < MAX_TRIALS)` of the branch `key ==
'+'` of `main`, lines 134-150. -/
def HMI.openDoorTrials (fuel : Nat) : Nat → HmiLocals → Hmi → HmiOutcome HmiLocals
  | 0, _, h => .outOfFuel h
  | n + 1, l, h =>
    if l.wrongPasswordCounter < MAX_TRIALS then
      (HMI.userWritePassword l.doorPassword h).bind fun p h1 =>
        let l1 := { l with doorPassword := p }
        (HMI.checkPasswordInControlECU l1.doorPassword h1).bind fun matchedFlag h2 =>
          if MATCHED = matchedFlag then
            (HMI.awaitByte MC2_READY { h2 with g_ticks_LCD := 0 }).bind fun _ h3 =>
              (HMI.waitUntil LCD_FINISHED_OPEN_DOOR fuel
                (HMI.APP_openDoor (HMI.UART_sendByte OPEN_DOOR h3))).bind fun _ h4 =>
                  .returned l1 h4
          else
            HMI.openDoorTrials fuel n
              { l1 with wrongPasswordCounter := (l1.wrongPasswordCounter + 1) % 256 } h2
    else .returned l h

/-- The loop `while(wrongPasswordCounter < MAX_TRIALS)` of the branch `key ==
'-'` of `main`, lines 165-183. -/
def HMI.changePasswordTrials (fuel : Nat) : Nat → HmiLocals → Hmi → HmiOutcome HmiLocals
  | 0, _, h => .outOfFuel h
  | n + 1, l, h =>
    if l.wrongPasswordCounter < MAX_TRIALS then
      (HMI.userWritePassword l.doorPassword h).bind fun p h1 =>
        let l1 := { l with doorPassword := p }
        (HMI.checkPasswordInControlECU l1.doorPassword h1).bind fun matchedFlag h2 =>
          if MATCHED = matchedFlag then
            (HMI.awaitByte MC2_READY h2).bind fun _ h3 =>
              HMI.newPassword fuel l1 (HMI.UART_sendByte CHANGE_PASSWORD h3)
          else
            HMI.changePasswordTrials fuel n
              { l1 with wrongPasswordCounter := (l1.wrongPasswordCounter + 1) % 256 } h2
    else .returned l h

/-- The lock-out `if(wrongPasswordCounter == MAX_TRIALS)` of `main`, lines
152-160 and 185-193. -/
def HMI.lockOut (fuel : Nat) (l : HmiLocals) (h : Hmi) : HmiOutcome HmiLocals :=
  if l.wrongPasswordCounter = MAX_TRIALS then
    (HMI.awaitByte MC2_READY h).bind fun _ h1 =>
      (HMI.waitUntil LCD_FINISHED_WRONG_PASSWORD fuel
        (HMI.APP_wrongPassword
          { HMI.UART_sendByte WRONG_PASSWORD h1 with g_ticks_LCD := 0 })).bind fun _ h2 =>
            .returned l h2
  else .returned l h

/-- One round of the `while(1)` of `main` in MC1.c, lines 121-194. The trial
loops run at most `MAX_TRIALS` times, so `MAX_TRIALS + 1` steps suffice for
them. -/
def HMI.mainRound (fuel : Nat) (l : HmiLocals) (h : Hmi) : HmiOutcome HmiLocals :=
  let h := h |> HMI.LCD_clearScreen
    |> HMI.LCD_displayStringRowColumn 0 0 "+ : Open Door"
    |> HMI.LCD_displayStringRowColumn 1 0 "- : Change Pass"
  (HMI.getOption h).bind fun key h1 =>
    let l1 := { l with key := key }
    if l1.key = '+'.toNat then
      (HMI.openDoorTrials fuel (MAX_TRIALS + 1) { l1 with wrongPasswordCounter := 0 } h1).bind
        fun l2 h2 => HMI.lockOut fuel l2 h2
    else if l1.key = '-'.toNat then
      (HMI.changePasswordTrials fuel (MAX_TRIALS + 1)
        { l1 with wrongPasswordCounter := 0 } h1).bind
        fun l2 h2 => HMI.lockOut fuel l2 h2
    else .returned l1 h1

/-- The `while(1)` of `main` in MC1.c: `rounds` rounds, one after the other. -/
def HMI.mainLoop (fuel : Nat) : Nat → HmiLocals → Hmi → HmiOutcome HmiLocals
  | 0, l, h => .returned l h
  | rounds + 1, l, h =>
    (HMI.mainRound fuel l h).bind fun l1 h1 => HMI.mainLoop fuel rounds l1 h1

/-- `int main(void)` of MC1.c, up to the given number of rounds of its
`while(1)`. The set-up of the UART and of the LCD changes nothing of the state
kept here. -/
def HMI.main (fuel rounds : Nat) (l : HmiLocals) (h : Hmi) : HmiOutcome HmiLocals :=
  (HMI.newPassword fuel l h).bind fun l1 h1 => HMI.mainLoop fuel rounds l1 h1

/-- The HMI node after reset: counter and registers zero, nothing received, no
key pressed, nothing logged. -/
def HMI.powerOn : Hmi :=
  { g_ticks_LCD := 0
    timer :=
      { TCCR1A := 0, TCCR1B := 0, TCNT1 := 0, ICR1 := 0, OCR1A := 0, OCR1B := 0, TIMSK := 0,
        g_callBackPtr := none }
    rx := []
    keys := []
    log := [] }

/-! ## Reading the sequences of both nodes -/

/-- The compare thresholds the control node arms the timer with, in order. -/
def armedThresholds (log : List Event) : List Nat := log.filterMap Event.threshold

/-- The compare threshold an event of the HMI node arms the timer with, if it
arms it. -/
def HmiEvent.threshold : HmiEvent → Option Nat
  | .startTimer1 _ OCR_value _ _ _ => some OCR_value
  | _ => none

/-- The compare thresholds the HMI node arms the timer with, in order. -/
def HMI.armedThresholds (log : List HmiEvent) : List Nat := log.filterMap HmiEvent.threshold

/-- An event of the HMI node is a call-back invocation. -/
def HmiEvent.isInvoked : HmiEvent → Bool
  | .invoked _ => true
  | _ => false

/-- The number of call-back invocations of a log of the HMI node. -/
def HMI.invocationCount (log : List HmiEvent) : Nat := log.countP HmiEvent.isInvoked

/-- What the HMI node puts on the display, in order. -/
def HmiEvent.isDisplay : HmiEvent → Bool
  | .LCD_clearScreen => true
  | .LCD_displayStringRowColumn _ _ _ => true
  | .LCD_displayString _ => true
  | .LCD_displayCharacter _ => true
  | _ => false

/-! ## Keypad entry, as the specification states it -/

/-- Spec-side: the value of a key is in 0..9. -/
def isDigitKey (key : Nat) : Bool := decide (key ≤ 9)

/-- Spec-side: the first `n` keys of a stream whose value is in 0..9, in
order. -/
def firstDigits (n : Nat) (keys : List Nat) : List Nat := (keys.filter isDigitKey).take n

/-- Spec-side: the keys that follow the `n`-th key whose value is in 0..9. -/
def afterDigits : Nat → List Nat → List Nat
  | 0, keys => keys
  | _ + 1, [] => []
  | n + 1, key :: rest => if key ≤ 9 then afterDigits n rest else afterDigits (n + 1) rest

/-- Spec-side: the keys that follow the first enter key (13). -/
def afterEnter (keys : List Nat) : List Nat := (keys.dropWhile fun key => key != 13).drop 1

/-- Spec-side: the two entries of `createPassword` on a stream of keys, and
the keys left after it. Entry 1 is the first five keys in 0..9; keys are then
skipped until an enter key; entry 2 is the next five keys in 0..9; keys are
skipped until a second enter key. There is no result when the stream ends
before that. -/
def createPassword_spec (keys : List Nat) : Option (List Nat × List Nat × List Nat) :=
  let r1 := afterDigits 5 keys
  let r2 := afterEnter r1
  let r3 := afterDigits 5 r2
  if 5 ≤ (keys.filter isDigitKey).length ∧ 13 ∈ r1 ∧
      5 ≤ (r2.filter isDigitKey).length ∧ 13 ∈ r3 then
    some (firstDigits 5 keys, firstDigits 5 r2, afterEnter r3)
  else none

/-- The keypad and display events of an entry of `n` digits on a stream of
keys: every key is read, and a star follows each key in 0..9. -/
def entryLog : Nat → List Nat → List HmiEvent
  | 0, _ => []
  | _ + 1, [] => []
  | n + 1, key :: rest =>
    if key ≤ 9 then
      .KEYPAD_getPressedKey key :: .LCD_displayCharacter '*'.toNat :: entryLog n rest
    else .KEYPAD_getPressedKey key :: entryLog (n + 1) rest

/-- The keypad events of a wait for the enter key on a stream of keys. -/
def enterLog (keys : List Nat) : List HmiEvent :=
  (HMI.readTo (fun key => decide (¬ 13 ≠ key)) keys).map .KEYPAD_getPressedKey

/-- What the display shows, in order: the display events of a log. -/
def displayed (log : List HmiEvent) : List HmiEvent := log.filter HmiEvent.isDisplay

/-- A stream of keys in which each digit is followed by its own enter key. -/
def enterAfterEach (digits : List Nat) : List Nat := digits.flatMap fun d => [d, 13]

/-- The log of a complete run of `createPassword` on a stream of keys. -/
def createLog (keys : List Nat) : List HmiEvent :=
  [.LCD_clearScreen, .LCD_displayStringRowColumn 0 0 "plz enter pass:", .LCD_moveCursor 1 0]
    ++ entryLog 5 keys ++ enterLog (afterDigits 5 keys)
    ++ [.LCD_clearScreen, .LCD_displayStringRowColumn 0 0 "plz re-enter the",
        .LCD_displayStringRowColumn 1 0 "same pass: "]
    ++ entryLog 5 (afterEnter (afterDigits 5 keys))
    ++ enterLog (afterDigits 5 (afterEnter (afterDigits 5 keys)))
    ++ [.LCD_clearScreen, .LCD_moveCursor 0 0]

/-- An event shows nothing that depends on a key: it is no display event, or
it clears the screen, or it shows one of the three texts of `createPassword`,
or it shows a star. -/
def HmiEvent.showsNoKey : HmiEvent → Bool
  | .LCD_displayStringRowColumn row col str =>
    (row, col, str) == (0, 0, "plz enter pass:") ||
    (row, col, str) == (0, 0, "plz re-enter the") ||
    (row, col, str) == (1, 0, "same pass: ")
  | .LCD_displayString _ => false
  | .LCD_displayCharacter data => data == '*'.toNat
  | _ => true

/-! ## The link, as each node sees it -/

/-- A byte on the link from the point of view of a node: sent or received. -/
inductive Wire
  | tx (data : Nat)
  | rx (data : Nat)
  deriving DecidableEq, Repr

/-- The link event of an event of the control node, if it is one. -/
def Event.wire : Event → Option Wire
  | .UART_sendByte data => some (.tx data)
  | .UART_recieveByte data => some (.rx data)
  | _ => none

/-- The link event of an event of the HMI node, if it is one. -/
def HmiEvent.wire : HmiEvent → Option Wire
  | .UART_sendByte data => some (.tx data)
  | .UART_recieveByte data => some (.rx data)
  | _ => none

/-- The link events of a log of the control node, in order. -/
def wire (log : List Event) : List Wire := log.filterMap Event.wire

/-- The link events of a log of the HMI node, in order. -/
def HMI.wire (log : List HmiEvent) : List Wire := log.filterMap HmiEvent.wire

/-- Ready-poll gating of a link trace: every byte sent, other than the byte
`free`, comes immediately after the byte `ready` was received. `prev` is the
link event before the trace, if there is one. -/
def gated (ready free : Nat) : Option Wire → List Wire → Bool
  | _, [] => true
  | prev, .tx b :: rest =>
    (b == free || prev == some (.rx ready)) && gated ready free (some (.tx b)) rest
  | _, .rx b :: rest => gated ready free (some (.rx b)) rest

/-- The last link event of a trace, `prev` when the trace is empty. -/
def lastWire : Option Wire → List Wire → Option Wire
  | prev, [] => prev
  | _, e :: rest => lastWire (some e) rest

/-- The link trace of a log of the HMI node is gated: every byte sent other
than MC1_READY comes immediately after MC2_READY was received. -/
def HMI.gatedLog (log : List HmiEvent) : Bool := gated MC2_READY MC1_READY none (HMI.wire log)

/-- The link trace of a log of the control node is gated: every byte sent other
than MC2_READY comes immediately after MC1_READY was received. -/
def gatedLog (log : List Event) : Bool := gated MC1_READY MC2_READY none (wire log)

/-! ## The two nodes on the link -/

/-- One trial of the verification loop of `main` in MC2.c, lines 152-164, up to
the reply: the candidate is received and checked, MC1_READY is awaited and the
reply is sent. The value is the receive buffer and the result of
`checkOnPassword`. -/
def verifyTrial (l : Locals) (s : Ctrl) : Outcome (Locals × Nat) :=
  (receivePasswordFrom_HMI_ECU l.doorPassword s).bind fun p s1 =>
    let l1 := { l with doorPassword := p }
    let r := call_checkOnPassword PASSWORD_ADDRESS l1.doorPassword s1
    if MATCHED = r.1 then
      (awaitByte MC1_READY r.2).bind fun _ s2 => .returned (l1, r.1) (UART_sendByte MATCHED s2)
    else
      (awaitByte MC1_READY r.2).bind fun _ s2 =>
        .returned (l1, r.1) (UART_sendByte NOT_MATCHED s2)

/-- A trial and what the control node does next on the link, in either branch
of `main` (lines 169-170, 181-182, or the next call of
`receivePasswordFrom_HMI_ECU`): it sends MC2_READY and receives a byte. -/
def trialThenPoll (l : Locals) (s : Ctrl) : Outcome (Locals × Nat × Nat) :=
  (verifyTrial l s).bind fun r s1 =>
    (UART_recieveByte (UART_sendByte MC2_READY s1)).bind fun b s2 =>
      .returned (r.1, r.2, b) s2

/-- The call of `checkPasswordInControlECU` and what the HMI node does next on
the link, in either branch of `main` of MC1.c (lines 140-141, 170-171, or the
next call of `checkPasswordInControlECU`): it waits for MC2_READY and sends a
byte, `next`. -/
def HMI.trialThenSend (password : Buffer) (next : Nat) (h : Hmi) : HmiOutcome Nat :=
  (HMI.checkPasswordInControlECU password h).bind fun matchedFlag h1 =>
    (HMI.awaitByte MC2_READY h1).bind fun _ h2 =>
      .returned matchedFlag (HMI.UART_sendByte next h2)

/-- The bytes the HMI node has sent, in order. -/
def HMI.sentBytes (log : List HmiEvent) : List Nat :=
  log.filterMap fun e =>
    match e with
    | .UART_sendByte data => some data
    | _ => none

/-- A node on the link, as a function of the bytes it has received so far: the
bytes it has sent by the time it waits for the next byte (or has returned),
and whether it waits for a byte. -/
structure Node where
  sent : List Nat → List Nat
  waits : List Nat → Bool

/-- The control node running `prog` from the state `s`, as a node on the
link. -/
def ctlNode {α : Type} (prog : Ctrl → Outcome α) (s : Ctrl) : Node :=
  { sent := fun received => sentBytes (prog { s with rx := received, log := [] }).state.log
    waits := fun received =>
      match prog { s with rx := received, log := [] } with
      | .blocked _ => true
      | _ => false }

/-- The HMI node running `prog` from the state `h`, as a node on the link. -/
def hmiNode {α : Type} (prog : Hmi → HmiOutcome α) (h : Hmi) : Node :=
  { sent := fun received =>
      HMI.sentBytes (prog { h with rx := received, log := [] }).state.log
    waits := fun received =>
      match prog { h with rx := received, log := [] } with
      | .blocked _ => true
      | _ => false }

/-- The two nodes connected by two lossless FIFO byte channels: the bytes each
node has received, the number of bytes each node has put on the link, and the
bytes in flight in each direction. -/
structure Net where
  inH : List Nat
  inC : List Nat
  nH : Nat
  nC : Nat
  toC : List Nat
  toH : List Nat
  deriving DecidableEq, Repr

/-- Both nodes at their start, nothing sent. -/
def Net.start : Net := { inH := [], inC := [], nH := 0, nC := 0, toC := [], toH := [] }

/-- A move of the network: a node puts its next byte on the link, or takes
the first byte in flight towards it. -/
inductive Move
  | hmiSends
  | hmiReceives
  | ctlSends
  | ctlReceives
  deriving DecidableEq, Repr

/-- One move of the network, when it is possible. A node sends the bytes it
has to send in order; it receives only when it has sent them all and waits for
a byte. -/
def Net.step (H C : Node) (n : Net) : Move → Option Net
  | .hmiSends =>
    match (H.sent n.inH)[n.nH]? with
    | some b => some { n with nH := n.nH + 1, toC := n.toC ++ [b] }
    | none => none
  | .hmiReceives =>
    if n.nH = (H.sent n.inH).length ∧ H.waits n.inH = true then
      match n.toH with
      | b :: rest => some { n with inH := n.inH ++ [b], toH := rest }
      | [] => none
    else none
  | .ctlSends =>
    match (C.sent n.inC)[n.nC]? with
    | some b => some { n with nC := n.nC + 1, toH := n.toH ++ [b] }
    | none => none
  | .ctlReceives =>
    if n.nC = (C.sent n.inC).length ∧ C.waits n.inC = true then
      match n.toC with
      | b :: rest => some { n with inC := n.inC ++ [b], toC := rest }
      | [] => none
    else none

/-- An interleaving: the state after the moves, when each is possible. -/
def Net.run (H C : Node) : List Move → Net → Option Net
  | [], n => some n
  | m :: ms, n =>
    match Net.step H C n m with
    | some n1 => Net.run H C ms n1
    | none => none

/-- The reply expected for a candidate, for a given store: MATCHED when the
candidate agrees with the stored password on its five bytes, NOT_MATCHED
otherwise. -/
def replyTo (mem : EEPROM) (p : Buffer) : Nat :=
  if p.agree (storedPassword mem) then MATCHED else NOT_MATCHED

/-- A channel that carries the stream `ys`: the receiver has taken `b` bytes,
the sender has put `n` bytes on the link, and `ch` holds the bytes in
between. -/
def Chan (ys : List Nat) (b n : Nat) (ch : List Nat) : Prop :=
  b ≤ n ∧ n ≤ ys.length ∧ ch = (ys.take n).drop b

/-- A state of the network follows the streams `xs` (towards the HMI node) and
`ys` (towards the control node): each node has received a prefix of its
stream, `hlen` and `clen` bound what each node has sent by what it has
received, and each channel carries its stream. -/
def Net.follows (xs ys : List Nat) (hlen clen : Nat → Nat) (n : Net) : Prop :=
  ∃ a b, n.inH = xs.take a ∧ n.inC = ys.take b ∧ a ≤ xs.length ∧ b ≤ ys.length ∧
    n.nH ≤ hlen a ∧ n.nC ≤ clen b ∧ Chan ys b n.nH n.toC ∧ Chan xs a n.nC n.toH

/-- The bytes that go to the HMI node during a trial: MC2_READY five times,
then the reply. -/
def trialToHmi (mem : EEPROM) (p : Buffer) : List Nat :=
  List.replicate 5 MC2_READY ++ [replyTo mem p]

/-- The bytes that go to the control node during a trial: the five bytes of
the candidate, then MC1_READY. -/
def trialToCtl (p : Buffer) : List Nat := p.bytes ++ [MC1_READY]

/-- The number of bytes `checkPasswordInControlECU` has sent after receiving
`a` bytes of a trial: one byte per MC2_READY, and MC1_READY with the fifth. -/
def trialHmiSent (a : Nat) : Nat := if a < 5 then a else 6

/-- The number of bytes the control node has sent after receiving `b` bytes of
a trial: one MC2_READY ahead of each of the five bytes, then the reply after
MC1_READY. -/
def trialCtlSent (b : Nat) : Nat := if b < 5 then b + 1 else if b = 5 then 5 else 6

/-- An interleaving of a trial in which every byte is taken as soon as it is on
the link. -/
def trialSchedule : List Move :=
  [.ctlSends, .hmiReceives, .hmiSends, .ctlReceives,
   .ctlSends, .hmiReceives, .hmiSends, .ctlReceives,
   .ctlSends, .hmiReceives, .hmiSends, .ctlReceives,
   .ctlSends, .hmiReceives, .hmiSends, .ctlReceives,
   .ctlSends, .hmiReceives, .hmiSends, .ctlReceives,
   .hmiSends, .ctlReceives, .ctlSends, .hmiReceives]

/-- The bytes that go to the HMI node during a trial and the poll after it:
MC2_READY five times, the reply, and MC2_READY again. -/
def pollToHmi (mem : EEPROM) (p : Buffer) : List Nat :=
  List.replicate 5 MC2_READY ++ [replyTo mem p, MC2_READY]

/-- The bytes that go to the control node during a trial and the poll after
it: the five bytes of the candidate, MC1_READY, and the byte `next`. -/
def pollToCtl (p : Buffer) (next : Nat) : List Nat := p.bytes ++ [MC1_READY, next]

/-- The number of bytes the HMI node has sent after receiving `a` bytes of a
trial and the poll after it. -/
def pollHmiSent (a : Nat) : Nat := if a < 5 then a else if a < 7 then 6 else 7

/-- The number of bytes the control node has sent after receiving `b` bytes of
a trial and the poll after it: the reply is followed at once by MC2_READY. -/
def pollCtlSent (b : Nat) : Nat := if b < 5 then b + 1 else if b = 5 then 5 else 7

/-- An interleaving in which the HMI node sends the last byte of the candidate
and MC1_READY before the control node takes either. -/
def aheadSchedule : List Move :=
  [.ctlSends, .hmiReceives, .hmiSends, .ctlReceives,
   .ctlSends, .hmiReceives, .hmiSends, .ctlReceives,
   .ctlSends, .hmiReceives, .hmiSends, .ctlReceives,
   .ctlSends, .hmiReceives, .hmiSends, .ctlReceives,
   .ctlSends, .hmiReceives, .hmiSends, .hmiSends]

/-- An interleaving in which the control node sends the reply and MC2_READY
before the HMI node takes either. -/
def replySchedule : List Move :=
  aheadSchedule ++ [.ctlReceives, .ctlReceives, .ctlSends, .ctlSends]

/-! ## Re-arming the timer in the door sequence -/

/-- Spec-side: `APP_DcMotor` with every phase that arms the timer written
alike, `Timer1_deInit` before `startTimer1`. It differs from `APP_DcMotor` in
phase 4 only, where the source has no `Timer1_deInit`. -/
def APP_DcMotor_disarming (s0 : Ctrl) : Ctrl :=
  let s := { s0 with
    g_ticks_DCMotor := (s0.g_ticks_DCMotor + 1) % 256
    log := s0.log ++ [.invoked .APP_DcMotor] }
  if s.g_ticks_DCMotor = 1 then
    s |> call_Timer1_deInit
      |> startTimer1 0x00 62500 F_CPU_DIVIDE_1024 CTC_OCR1A .APP_DcMotor
      |> DcMotor_Rotate .CLOCKWISE 100
  else if s.g_ticks_DCMotor = 2 then
    s |> call_Timer1_deInit
      |> startTimer1 0x00 54687 F_CPU_DIVIDE_1024 CTC_OCR1A .APP_DcMotor
  else if s.g_ticks_DCMotor = 3 then
    s |> call_Timer1_deInit
      |> startTimer1 0x00 23437 F_CPU_DIVIDE_1024 CTC_OCR1A .APP_DcMotor
      |> DcMotor_Rotate .STOP 100
  else if s.g_ticks_DCMotor = 4 then
    s |> call_Timer1_deInit
      |> startTimer1 0x00 62500 F_CPU_DIVIDE_1024 CTC_OCR1A .APP_DcMotor
      |> DcMotor_Rotate .ANTI_CLOCKWISE 100
  else if s.g_ticks_DCMotor = 5 then
    s |> call_Timer1_deInit
      |> startTimer1 0x00 54687 F_CPU_DIVIDE_1024 CTC_OCR1A .APP_DcMotor
  else if s.g_ticks_DCMotor = 6 then
    s |> DcMotor_Rotate .STOP 100
      |> call_Timer1_deInit
  else s

/-- An event is a call of the timer driver. -/
def Event.isTimer : Event → Bool
  | .Timer1_deInit => true
  | .startTimer1 _ _ _ _ _ => true
  | _ => false

/-- The calls of the timer driver made by each invocation of a log. -/
def timerCalls (log : List Event) : List (List Event) :=
  (invocations log).map (List.filter Event.isTimer)

/-- The Timer1 bits of TIMSK: TOIE1, OCIE1B, OCIE1A and TICIE1. -/
def timer1Bits (TIMSK : Nat) : Nat :=
  TIMSK &&& ((1 <<< TOIE1) ||| (1 <<< OCIE1B) ||| (1 <<< OCIE1A) ||| (1 <<< TICIE1))

/-! ## Theorems -/

/-- `Timer1_init` under the configuration of timer1.h. -/
theorem Timer1_init_eq {F : Type} (c : Timer1_ConfigType) (t : Timer1 F) :
    Timer1_init c t =
      { t with
        TCCR1A := SET_BIT (SET_BIT ((t.TCCR1A &&& 0xFC) ||| (c.mode &&& 0x03)) FOC1A) FOC1B
        TCCR1B := (t.TCCR1B &&& 0xE7) ||| ((c.mode &&& 0x0C) <<< 1)
          ||| (t.TCCR1B &&& 0xF8) ||| c.prescaler
        TCNT1 := c.initial_value
        OCR1A := c.compare_value
        TIMSK := t.TIMSK ||| (1 <<< OCIE1A) } := rfl

theorem checkSamePasswords_loop_iff (p q : Buffer) (n i : Nat) :
    checkSamePasswords.loop p q n i = SAME ↔ ∀ j, j < n → p (i + j) = q (i + j) := by
  induction n generalizing i with
  | zero => simp [checkSamePasswords.loop]
  | succ n ih =>
    unfold checkSamePasswords.loop
    by_cases h : p i = q i
    · simp only [ne_eq, h, not_true_eq_false, if_false, ih]
      constructor
      · intro hj j hlt
        cases j with
        | zero => simpa using h
        | succ j =>
          have := hj j (by omega)
          simpa [Nat.add_assoc, Nat.add_comm 1 j] using this
      · intro hj j hlt
        have := hj (j + 1) (by omega)
        simpa [Nat.add_assoc, Nat.add_comm 1 j] using this
    · simp only [ne_eq, h, not_false_eq_true, if_true]
      constructor
      · intro hc; simp [NOT_SAME, SAME] at hc
      · intro hj; exact absurd (by simpa using hj 0 (by omega)) h

theorem checkSamePasswords_loop_cases (p q : Buffer) (n i : Nat) :
    checkSamePasswords.loop p q n i = SAME ∨ checkSamePasswords.loop p q n i = NOT_SAME := by
  induction n generalizing i with
  | zero => simp [checkSamePasswords.loop]
  | succ n ih =>
    unfold checkSamePasswords.loop
    split
    · exact Or.inr rfl
    · exact ih (i + 1)

/-- C1: `checkSamePasswords(A, B)` returns SAME (1) exactly when `A[i] = B[i]`
for every `i` in 0..4 and NOT_SAME (0) otherwise; a difference at any single
position yields NOT_SAME. -/
theorem checkSamePasswords_spec (A B : Buffer) :
    (checkSamePasswords A B = SAME ↔ ∀ i, i < 5 → A i = B i) ∧
    (checkSamePasswords A B = NOT_SAME ↔ ¬ ∀ i, i < 5 → A i = B i) ∧
    (∀ i, i < 5 → A i ≠ B i → checkSamePasswords A B = NOT_SAME) ∧
    SAME = 1 ∧ NOT_SAME = 0 := by
  have hiff : checkSamePasswords A B = SAME ↔ ∀ i, i < 5 → A i = B i := by
    have := checkSamePasswords_loop_iff A B PASSWORD_SIZE 0
    simpa [checkSamePasswords, PASSWORD_SIZE] using this
  have hcases := checkSamePasswords_loop_cases A B PASSWORD_SIZE 0
  have hne : SAME ≠ NOT_SAME := by decide
  have hnot : checkSamePasswords A B = NOT_SAME ↔ ¬ ∀ i, i < 5 → A i = B i := by
    rw [← hiff]
    constructor
    · intro h1 h2; exact hne (h2.symm.trans h1)
    · intro h1
      rcases hcases with h | h
      · exact absurd h h1
      · exact h
  refine ⟨hiff, hnot, ?_, rfl, rfl⟩
  intro i hi hdiff
  exact hnot.mpr (fun hall => hdiff (hall i hi))

theorem checkOnPassword_compare_iff (p q : Buffer) (n i : Nat) :
    checkOnPassword.compare p q n i = MATCHED ↔ ∀ j, j < n → p (i + j) = q (i + j) := by
  induction n generalizing i with
  | zero => simp [checkOnPassword.compare]
  | succ n ih =>
    unfold checkOnPassword.compare
    by_cases h : p i = q i
    · simp only [ne_eq, h, not_true_eq_false, if_false, ih]
      constructor
      · intro hj j hlt
        cases j with
        | zero => simpa using h
        | succ j =>
          have := hj j (by omega)
          simpa [Nat.add_assoc, Nat.add_comm 1 j] using this
      · intro hj j hlt
        have := hj (j + 1) (by omega)
        simpa [Nat.add_assoc, Nat.add_comm 1 j] using this
    · simp only [ne_eq, h, not_false_eq_true, if_true]
      constructor
      · intro hc; simp [NOT_MATCHED, MATCHED] at hc
      · intro hj; exact absurd (by simpa using hj 0 (by omega)) h

theorem checkOnPassword_compare_cases (p q : Buffer) (n i : Nat) :
    checkOnPassword.compare p q n i = MATCHED ∨
      checkOnPassword.compare p q n i = NOT_MATCHED := by
  induction n generalizing i with
  | zero => simp [checkOnPassword.compare]
  | succ n ih =>
    unfold checkOnPassword.compare
    split
    · exact Or.inr rfl
    · exact ih (i + 1)

/-- The read loop never changes the store. -/
theorem checkOnPassword_read_fst (n i loc : Nat) (mem : EEPROM) (sp : Buffer) :
    (checkOnPassword.read n i loc mem sp).1 = mem := by
  induction n generalizing i loc sp with
  | zero => rfl
  | succ n ih => simp [checkOnPassword.read, EEPROM_readByte, ih]

/-- What the read loop leaves in the local array: below `i` the old content,
from `i` on the bytes of the store at the successive 16-bit addresses. -/
theorem checkOnPassword_read_snd (n i loc : Nat) (mem : EEPROM) (sp : Buffer)
    (hloc : loc < 65536) (j : Nat) (hj : j < n) :
    (checkOnPassword.read n i loc mem sp).2 (i + j) = mem ((loc + j) % 65536) ∧
    ∀ k, k < i → (checkOnPassword.read n i loc mem sp).2 k = sp k := by
  induction n generalizing i loc sp j with
  | zero => omega
  | succ n ih =>
    simp only [checkOnPassword.read, EEPROM_readByte]
    have hloc2 : (loc + 1) % 65536 < 65536 := Nat.mod_lt _ (by decide)
    constructor
    · cases j with
      | zero =>
        cases n with
        | zero => simp [checkOnPassword.read, Buffer.write, Nat.mod_eq_of_lt hloc]
        | succ n =>
          have h2 := (ih (i + 1) ((loc + 1) % 65536) (sp.write i (mem loc)) hloc2 0
            (by omega)).2 i (by omega)
          simp only [Nat.add_zero]
          rw [h2]
          simp [Buffer.write, Nat.mod_eq_of_lt hloc]
      | succ j =>
        have h1 := (ih (i + 1) ((loc + 1) % 65536) (sp.write i (mem loc)) hloc2 j
          (by omega)).1
        have e1 : i + (j + 1) = i + 1 + j := by omega
        have e2 : ((loc + 1) % 65536 + j) % 65536 = (loc + (j + 1)) % 65536 := by omega
        rw [e1, h1, e2]
    · intro k hk
      cases n with
      | zero => simp [checkOnPassword.read, Buffer.write]; omega
      | succ n =>
        have h2 := (ih (i + 1) ((loc + 1) % 65536) (sp.write i (mem loc)) hloc2 0
          (by omega)).2 k (by omega)
        rw [h2]
        simp [Buffer.write]; omega

/-- The value `checkOnPassword` returns is MATCHED exactly when the candidate
equals the five stored bytes. -/
theorem checkOnPassword_matched_iff (mem : EEPROM) (address : Nat) (C : Buffer)
    (haddr : address < 65536) :
    (checkOnPassword mem address C).2 = MATCHED ↔
      ∀ i, i < 5 → C i = mem ((address + i) % 65536) := by
  have hread : ∀ i, i < 5 →
      (checkOnPassword.read PASSWORD_SIZE 0 address mem (fun _ => 0)).2 i
        = mem ((address + i) % 65536) := by
    intro i hi
    have := (checkOnPassword_read_snd PASSWORD_SIZE 0 address mem (fun _ => 0) haddr i
      (by simpa [PASSWORD_SIZE] using hi)).1
    simpa using this
  simp only [checkOnPassword, checkOnPassword_compare_iff, Nat.zero_add]
  constructor
  · intro h i hi
    rw [← hread i hi]; exact h i (by simpa [PASSWORD_SIZE] using hi)
  · intro h i hi
    have hi5 : i < 5 := by simpa [PASSWORD_SIZE] using hi
    rw [hread i hi5]; exact h i hi5

/-- The value `checkOnPassword` returns is NOT_MATCHED exactly when the
candidate differs from the five stored bytes. -/
theorem checkOnPassword_not_matched_iff (mem : EEPROM) (address : Nat) (C : Buffer)
    (haddr : address < 65536) :
    (checkOnPassword mem address C).2 = NOT_MATCHED ↔
      ¬ ∀ i, i < 5 → C i = mem ((address + i) % 65536) := by
  have hcases := checkOnPassword_compare_cases C
    (checkOnPassword.read PASSWORD_SIZE 0 address mem (fun _ => 0)).2 PASSWORD_SIZE 0
  have hne : MATCHED ≠ NOT_MATCHED := by decide
  rw [← checkOnPassword_matched_iff mem address C haddr]
  constructor
  · intro h1 h2; exact hne (h2.symm.trans h1)
  · intro h1
    rcases hcases with h | h
    · exact absurd h h1
    · exact h

/-- C2: for every EEPROM content, every 16-bit base address and every
candidate C, `checkOnPassword(address, C)` returns MATCHED (1) exactly when
`C[i]` equals the byte stored at `address + i` (an address of the 16-bit
address space) for every `i` in 0..4, returns NOT_MATCHED (0) otherwise, and
leaves the EEPROM content unchanged. -/
theorem checkOnPassword_spec (mem : EEPROM) (address : Nat) (C : Buffer)
    (haddr : address < 65536) :
    ((checkOnPassword mem address C).2 = MATCHED ↔
      ∀ i, i < 5 → C i = mem ((address + i) % 65536)) ∧
    ((checkOnPassword mem address C).2 = NOT_MATCHED ↔
      ¬ ∀ i, i < 5 → C i = mem ((address + i) % 65536)) ∧
    (checkOnPassword mem address C).1 = mem ∧
    MATCHED = 1 ∧ NOT_MATCHED = 0 := by
  refine ⟨checkOnPassword_matched_iff mem address C haddr,
    checkOnPassword_not_matched_iff mem address C haddr, ?_, rfl, rfl⟩
  simp [checkOnPassword, checkOnPassword_read_fst]

/-- Witness of C2 at PASSWORD_ADDRESS with the store holding zeros and the
candidate of five zeros. -/
theorem checkOnPassword_spec_witness :
    ((checkOnPassword (fun _ => 0) PASSWORD_ADDRESS (fun _ => 0)).2 = MATCHED ↔
      ∀ i, i < 5 → (fun _ => 0 : Buffer) i
        = (fun _ => 0 : EEPROM) ((PASSWORD_ADDRESS + i) % 65536)) ∧
    (checkOnPassword (fun _ => 0) PASSWORD_ADDRESS (fun _ => 0)).2 = MATCHED :=
  ⟨(checkOnPassword_spec (fun _ => 0) PASSWORD_ADDRESS (fun _ => 0) (by decide)).1, by decide⟩

/-- What the save loop leaves in the store: the bytes of the password at the
successive 16-bit addresses, every other address untouched. -/
theorem savePasswordInEEPROM_loop_read (P : Buffer) (n i loc : Nat) (mem : EEPROM)
    (hloc : loc < 65536) (hn : n ≤ 65536) :
    (∀ j, j < n →
      savePasswordInEEPROM.loop P n i loc mem ((loc + j) % 65536) = P (i + j)) ∧
    (∀ a, (∀ j, j < n → a ≠ (loc + j) % 65536) →
      savePasswordInEEPROM.loop P n i loc mem a = mem a) := by
  induction n generalizing i loc mem with
  | zero => exact ⟨fun j hj => by omega, fun a _ => rfl⟩
  | succ n ih =>
    have hloc2 : (loc + 1) % 65536 < 65536 := Nat.mod_lt _ (by decide)
    have ih1 := ih (i + 1) ((loc + 1) % 65536) (EEPROM_writeByte mem loc (P i)) hloc2
      (by omega)
    simp only [savePasswordInEEPROM.loop]
    constructor
    · intro j hj
      cases j with
      | zero =>
        rw [ih1.2]
        · simp [EEPROM_writeByte, Nat.mod_eq_of_lt hloc]
        · intro k hk; omega
      | succ j =>
        have := ih1.1 j (by omega)
        have e2 : ((loc + 1) % 65536 + j) % 65536 = (loc + (j + 1)) % 65536 := by omega
        have e1 : i + 1 + j = i + (j + 1) := by omega
        rw [← e2, this, e1]
    · intro a ha
      rw [ih1.2]
      · have := ha 0 (by omega)
        simp only [Nat.add_zero, Nat.mod_eq_of_lt hloc] at this
        simp [EEPROM_writeByte, this]
      · intro k hk
        have := ha (k + 1) (by omega)
        have e2 : ((loc + 1) % 65536 + k) % 65536 = (loc + (k + 1)) % 65536 := by omega
        rw [e2]; exact this

/-- C3: save-then-verify round trip. After `savePasswordInEEPROM(address, P)`
the call `checkOnPassword(address, C)` returns MATCHED exactly when C and P
agree on all five bytes, for every 16-bit base address; at PASSWORD_ADDRESS,
after persisting [1,2,3,4,5] the candidate [1,2,3,4,5] is Matched. -/
theorem save_then_check (mem : EEPROM) (address : Nat) (P C : Buffer)
    (haddr : address < 65536) :
    ((checkOnPassword (savePasswordInEEPROM mem address P) address C).2 = MATCHED ↔
      ∀ i, i < 5 → C i = P i) ∧
    ((checkOnPassword (savePasswordInEEPROM mem address P) address C).2 = NOT_MATCHED ↔
      ¬ ∀ i, i < 5 → C i = P i) ∧
    (checkOnPassword (savePasswordInEEPROM mem PASSWORD_ADDRESS (Buffer.ofList [1, 2, 3, 4, 5]))
      PASSWORD_ADDRESS (Buffer.ofList [1, 2, 3, 4, 5])).2 = MATCHED := by
  have hsave : ∀ (a : Nat) (Q : Buffer), a < 65536 → ∀ i, i < 5 →
      savePasswordInEEPROM mem a Q ((a + i) % 65536) = Q i := by
    intro a Q ha i hi
    have := (savePasswordInEEPROM_loop_read Q PASSWORD_SIZE 0 a mem ha (by decide)).1 i
      (by simpa [PASSWORD_SIZE] using hi)
    simpa [savePasswordInEEPROM] using this
  have key : ∀ (a : Nat) (Q D : Buffer), a < 65536 →
      ((∀ i, i < 5 → D i = savePasswordInEEPROM mem a Q ((a + i) % 65536)) ↔
        ∀ i, i < 5 → D i = Q i) := by
    intro a Q D ha
    constructor
    · intro h i hi; rw [← hsave a Q ha i hi]; exact h i hi
    · intro h i hi; rw [hsave a Q ha i hi]; exact h i hi
  have h := checkOnPassword_matched_iff (savePasswordInEEPROM mem address P) address C haddr
  have hn := checkOnPassword_not_matched_iff (savePasswordInEEPROM mem address P) address C
    haddr
  refine ⟨h.trans (key address P C haddr), ?_, ?_⟩
  · rw [hn, key address P C haddr]
  · have h2 := checkOnPassword_matched_iff
      (savePasswordInEEPROM mem PASSWORD_ADDRESS (Buffer.ofList [1, 2, 3, 4, 5]))
      PASSWORD_ADDRESS (Buffer.ofList [1, 2, 3, 4, 5]) (by decide)
    exact (h2.trans (key PASSWORD_ADDRESS _ _ (by decide))).mpr (fun _ _ => rfl)

/-- Witness of C3 at address 0xFFFE, where the 16-bit address wraps inside the
password. -/
theorem save_then_check_witness :
    (checkOnPassword (savePasswordInEEPROM (fun _ => 0) 0xFFFE (Buffer.ofList [9, 8, 7, 6, 5]))
      0xFFFE (Buffer.ofList [9, 8, 7, 6, 5])).2 = MATCHED :=
  (save_then_check (fun _ => 0) 0xFFFE (Buffer.ofList [9, 8, 7, 6, 5])
    (Buffer.ofList [9, 8, 7, 6, 5]) (by decide)).1.mpr (fun _ _ => rfl)

/-! ### The sequencers -/

theorem compareMatches_add (a b : Nat) (s : Ctrl) :
    compareMatches (a + b) s = compareMatches b (compareMatches a s) := by
  induction a generalizing s with
  | zero => simp [compareMatches]
  | succ a ih =>
    rw [Nat.add_right_comm]
    simp only [compareMatches]
    cases h : compareMatch s with
    | none =>
      cases b with
      | zero => rfl
      | succ b => simp [compareMatches, h]
    | some s1 => exact ih s1

theorem compareMatches_none (n : Nat) (s : Ctrl) (h : compareMatch s = none) :
    compareMatches n s = s := by
  cases n with
  | zero => rfl
  | succ n => simp [compareMatches, h]

/-- The door sequence, step by step: the tick counter after the direct call
and `k` compare matches. -/
theorem door_ticks (s : Ctrl) (k : Nat) (hk : k ≤ 5) :
    (compareMatches k (APP_DcMotor { s with g_ticks_DCMotor := 0 })).g_ticks_DCMotor = k + 1 := by
  interval_cases k <;>
  simp +decide [compareMatches, compareMatch, TIMER1_COMPA_vect, callBack, APP_DcMotor,
    Timer1.armed, startTimer1, call_Timer1_deInit, Timer1_init_eq, Timer1_deInit,
    Timer1_setCallBack, DcMotor_Rotate, Nat.testBit_or, OCIE1A, F_CPU_DIVIDE_1024, CTC_OCR1A,
    SET_BIT]

/-- The door sequence ends with the timer disarmed: the sixth invocation calls
`Timer1_deInit`, after which no compare match is raised. -/
theorem door_end_disarmed (s : Ctrl) :
    compareMatch (compareMatches 5 (APP_DcMotor { s with g_ticks_DCMotor := 0 })) = none := by
  simp +decide [compareMatches, compareMatch, TIMER1_COMPA_vect, callBack, APP_DcMotor,
    Timer1.armed, startTimer1, call_Timer1_deInit, Timer1_init_eq, Timer1_deInit,
    Timer1_setCallBack, DcMotor_Rotate, Nat.testBit_or, OCIE1A, F_CPU_DIVIDE_1024, CTC_OCR1A,
    SET_BIT]

/-- The tick counter of the door sequence after any number of compare
matches: it stops at 6. -/
theorem door_ticks_all (s : Ctrl) (n : Nat) :
    (compareMatches n (APP_DcMotor { s with g_ticks_DCMotor := 0 })).g_ticks_DCMotor
      = min (n + 1) 6 := by
  by_cases hn : n ≤ 5
  · rw [door_ticks s n hn]; omega
  · obtain ⟨m, rfl⟩ : ∃ m, n = 5 + m := ⟨n - 5, by omega⟩
    rw [compareMatches_add, compareMatches_none m _ (door_end_disarmed s), door_ticks s 5 (by omega)]
    omega

/-- The wait loop of the open-door dispatch, for every amount of fuel. -/
theorem door_wait (s : Ctrl) (fuel : Nat) :
    waitUntil (fun t => t.g_ticks_DCMotor) DC_MOTOR_FINISHED fuel
        (APP_DcMotor { s with g_ticks_DCMotor := 0 })
      = if fuel < 6 then
          .outOfFuel (compareMatches fuel (APP_DcMotor { s with g_ticks_DCMotor := 0 }))
        else .spinning (compareMatches 5 (APP_DcMotor { s with g_ticks_DCMotor := 0 })) := by
  by_cases hn : fuel < 6
  · rw [if_pos hn]
    interval_cases fuel <;>
    simp +decide [waitUntil, DC_MOTOR_FINISHED, compareMatches, compareMatch, TIMER1_COMPA_vect,
      callBack, APP_DcMotor,
      Timer1.armed, startTimer1, call_Timer1_deInit, Timer1_init_eq, Timer1_deInit,
      Timer1_setCallBack, DcMotor_Rotate, Nat.testBit_or, OCIE1A, F_CPU_DIVIDE_1024, CTC_OCR1A,
      SET_BIT]
  · rw [if_neg hn]
    obtain ⟨m, rfl⟩ : ∃ m, fuel = m + 6 := ⟨fuel - 6, by omega⟩
    simp +decide [waitUntil, DC_MOTOR_FINISHED, compareMatches, compareMatch, TIMER1_COMPA_vect,
      callBack, APP_DcMotor,
      Timer1.armed, startTimer1, call_Timer1_deInit, Timer1_init_eq, Timer1_deInit,
      Timer1_setCallBack, DcMotor_Rotate, Nat.testBit_or, OCIE1A, F_CPU_DIVIDE_1024, CTC_OCR1A,
      SET_BIT]

/-- C6 (what the code does): from `g_ticks_DCMotor = 0` and the direct call of
`APP_DcMotor`, with one invocation per compare match while the timer is armed,
the counter stops at 6 with the timer disarmed and no call-back registered; it
never equals DC_MOTOR_FINISHED = 7, and the wait loop of the open-door dispatch
never returns: it spins on a counter no interrupt will change. -/
theorem door_wait_never_returns (s : Ctrl) :
    (∀ n, (compareMatches n (APP_DcMotor { s with g_ticks_DCMotor := 0 })).g_ticks_DCMotor
        ≠ DC_MOTOR_FINISHED) ∧
    (compareMatches 5 (APP_DcMotor { s with g_ticks_DCMotor := 0 })).g_ticks_DCMotor = 6 ∧
    (compareMatches 5 (APP_DcMotor { s with g_ticks_DCMotor := 0 })).timer.g_callBackPtr = none ∧
    ¬ (compareMatches 5 (APP_DcMotor { s with g_ticks_DCMotor := 0 })).timer.armed ∧
    (∀ fuel, 6 ≤ fuel →
      waitUntil (fun t => t.g_ticks_DCMotor) DC_MOTOR_FINISHED fuel
          (APP_DcMotor { s with g_ticks_DCMotor := 0 })
        = .spinning (compareMatches 5 (APP_DcMotor { s with g_ticks_DCMotor := 0 }))) ∧
    (∀ fuel a t,
      waitUntil (fun t => t.g_ticks_DCMotor) DC_MOTOR_FINISHED fuel
          (APP_DcMotor { s with g_ticks_DCMotor := 0 })
        ≠ .returned a t) := by
  refine ⟨?_, door_ticks s 5 (by omega), ?_, ?_, ?_, ?_⟩
  · intro n
    rw [door_ticks_all]
    simp only [DC_MOTOR_FINISHED]; omega
  · simp +decide [compareMatches, compareMatch, TIMER1_COMPA_vect, callBack, APP_DcMotor,
      Timer1.armed, startTimer1, call_Timer1_deInit, Timer1_init_eq, Timer1_deInit,
      Timer1_setCallBack, DcMotor_Rotate, Nat.testBit_or, OCIE1A, F_CPU_DIVIDE_1024, CTC_OCR1A,
      SET_BIT]
  · have h := door_end_disarmed s
    unfold compareMatch at h
    intro harmed
    simp [harmed] at h
  · intro fuel hf
    rw [door_wait, if_neg (by omega)]
  · intro fuel a t
    rw [door_wait]
    split <;> simp

/-- C7: from `g_ticks_DCMotor = 0`, the first six invocations of `APP_DcMotor`
(the direct call and five compare matches) perform the motor actions
clockwise, none, stop, anticlockwise, none, stop, each call of
`DcMotor_Rotate` with speed 100; invocations 1 to 5 arm the timer with the
compare thresholds 62500, 54687, 23437, 62500, 54687; the last motor action is
STOP and the motor pins are left low. -/
theorem door_step_table (s : Ctrl) :
    actuatorActions
        (compareMatches 5 (APP_DcMotor { s with g_ticks_DCMotor := 0, log := [] })).log
      = [[.DcMotor_Rotate .CLOCKWISE 100], [], [.DcMotor_Rotate .STOP 100],
         [.DcMotor_Rotate .ANTI_CLOCKWISE 100], [], [.DcMotor_Rotate .STOP 100]] ∧
    thresholds
        (compareMatches 5 (APP_DcMotor { s with g_ticks_DCMotor := 0, log := [] })).log
      = [[62500], [54687], [23437], [62500], [54687], []] ∧
    invocationCount
        (compareMatches 5 (APP_DcMotor { s with g_ticks_DCMotor := 0, log := [] })).log = 6 ∧
    (compareMatches 5 (APP_DcMotor { s with g_ticks_DCMotor := 0, log := [] }))
      = APP_DcMotor^[6] { s with g_ticks_DCMotor := 0, log := [] } ∧
    (List.range 5).map (fun k =>
        (compareMatches k (APP_DcMotor { s with g_ticks_DCMotor := 0, log := [] })).timer.OCR1A)
      = [62500, 54687, 23437, 62500, 54687] ∧
    (∀ k, k < 5 →
      (compareMatches k (APP_DcMotor { s with g_ticks_DCMotor := 0, log := [] })).timer.armed ∧
      (compareMatches k
        (APP_DcMotor { s with g_ticks_DCMotor := 0, log := [] })).timer.g_callBackPtr
          = some .APP_DcMotor) ∧
    (compareMatches 5 (APP_DcMotor { s with g_ticks_DCMotor := 0, log := [] })).motorPin1 = 0 ∧
    (compareMatches 5 (APP_DcMotor { s with g_ticks_DCMotor := 0, log := [] })).motorPin2 = 0 := by
  refine ⟨?_, ?_, ?_, ?_, ?_, ?_, ?_, ?_⟩
  · simp +decide [actuatorActions, invocations, splitInvocations, Event.isActuator,
      compareMatches, compareMatch, TIMER1_COMPA_vect, callBack, APP_DcMotor,
      Timer1.armed, startTimer1, call_Timer1_deInit, Timer1_init_eq, Timer1_deInit,
      Timer1_setCallBack, DcMotor_Rotate, Nat.testBit_or, OCIE1A, F_CPU_DIVIDE_1024, CTC_OCR1A,
      SET_BIT]
  · simp +decide [thresholds, invocations, splitInvocations, Event.threshold,
      compareMatches, compareMatch, TIMER1_COMPA_vect, callBack, APP_DcMotor,
      Timer1.armed, startTimer1, call_Timer1_deInit, Timer1_init_eq, Timer1_deInit,
      Timer1_setCallBack, DcMotor_Rotate, Nat.testBit_or, OCIE1A, F_CPU_DIVIDE_1024, CTC_OCR1A,
      SET_BIT]
  · simp +decide [invocationCount, invocations, splitInvocations,
      compareMatches, compareMatch, TIMER1_COMPA_vect, callBack, APP_DcMotor,
      Timer1.armed, startTimer1, call_Timer1_deInit, Timer1_init_eq, Timer1_deInit,
      Timer1_setCallBack, DcMotor_Rotate, Nat.testBit_or, OCIE1A, F_CPU_DIVIDE_1024, CTC_OCR1A,
      SET_BIT]
  · simp +decide [Function.iterate_succ, Function.iterate_zero,
      compareMatches, compareMatch, TIMER1_COMPA_vect, callBack, APP_DcMotor,
      Timer1.armed, startTimer1, call_Timer1_deInit, Timer1_init_eq, Timer1_deInit,
      Timer1_setCallBack, DcMotor_Rotate, Nat.testBit_or, OCIE1A, F_CPU_DIVIDE_1024, CTC_OCR1A,
      SET_BIT]
  · simp +decide [List.range, List.range.loop,
      compareMatches, compareMatch, TIMER1_COMPA_vect, callBack, APP_DcMotor,
      Timer1.armed, startTimer1, call_Timer1_deInit, Timer1_init_eq, Timer1_deInit,
      Timer1_setCallBack, DcMotor_Rotate, Nat.testBit_or, OCIE1A, F_CPU_DIVIDE_1024, CTC_OCR1A,
      SET_BIT]
  · intro k hk
    interval_cases k <;>
    simp +decide [compareMatches, compareMatch, TIMER1_COMPA_vect, callBack, APP_DcMotor,
      Timer1.armed, startTimer1, call_Timer1_deInit, Timer1_init_eq, Timer1_deInit,
      Timer1_setCallBack, DcMotor_Rotate, Nat.testBit_or, OCIE1A, F_CPU_DIVIDE_1024, CTC_OCR1A,
      SET_BIT]
  · simp +decide [DcMotor_State.val,
      compareMatches, compareMatch, TIMER1_COMPA_vect, callBack, APP_DcMotor,
      Timer1.armed, startTimer1, call_Timer1_deInit, Timer1_init_eq, Timer1_deInit,
      Timer1_setCallBack, DcMotor_Rotate, Nat.testBit_or, OCIE1A, F_CPU_DIVIDE_1024, CTC_OCR1A,
      SET_BIT]
  · simp +decide [DcMotor_State.val,
      compareMatches, compareMatch, TIMER1_COMPA_vect, callBack, APP_DcMotor,
      Timer1.armed, startTimer1, call_Timer1_deInit, Timer1_init_eq, Timer1_deInit,
      Timer1_setCallBack, DcMotor_Rotate, Nat.testBit_or, OCIE1A, F_CPU_DIVIDE_1024, CTC_OCR1A,
      SET_BIT]

/-- The alarm sequence, step by step: the tick counter after the direct call
and `k` compare matches. -/
theorem buzzer_ticks (s : Ctrl) (k : Nat) (hk : k ≤ 9) :
    (compareMatches k (APP_buzzer { s with g_ticks_buzzer := 0 })).g_ticks_buzzer = k + 1 := by
  interval_cases k <;>
  simp +decide [compareMatches, compareMatch, TIMER1_COMPA_vect, callBack, APP_buzzer,
    Timer1.armed, startTimer1, call_Timer1_deInit, Timer1_init_eq, Timer1_deInit,
    Timer1_setCallBack, Buzzer_on, Buzzer_off, Nat.testBit_or, OCIE1A, F_CPU_DIVIDE_1024,
    CTC_OCR1A, SET_BIT]

/-- The wait loop of the wrong-password dispatch, for every amount of fuel. -/
theorem buzzer_wait (s : Ctrl) (fuel : Nat) :
    waitUntil (fun t => t.g_ticks_buzzer) BUZZER_FINISHED fuel
        (APP_buzzer { s with g_ticks_buzzer := 0 })
      = if fuel < 10 then
          .outOfFuel (compareMatches fuel (APP_buzzer { s with g_ticks_buzzer := 0 }))
        else .returned () (compareMatches 9 (APP_buzzer { s with g_ticks_buzzer := 0 })) := by
  by_cases hn : fuel < 10
  · rw [if_pos hn]
    interval_cases fuel <;>
    simp +decide [waitUntil, BUZZER_FINISHED, compareMatches, compareMatch, TIMER1_COMPA_vect,
      callBack, APP_buzzer,
      Timer1.armed, startTimer1, call_Timer1_deInit, Timer1_init_eq, Timer1_deInit,
      Timer1_setCallBack, Buzzer_on, Buzzer_off, Nat.testBit_or, OCIE1A, F_CPU_DIVIDE_1024,
      CTC_OCR1A, SET_BIT]
  · rw [if_neg hn]
    obtain ⟨m, rfl⟩ : ∃ m, fuel = m + 10 := ⟨fuel - 10, by omega⟩
    simp +decide [waitUntil, BUZZER_FINISHED, compareMatches, compareMatch, TIMER1_COMPA_vect,
      callBack, APP_buzzer,
      Timer1.armed, startTimer1, call_Timer1_deInit, Timer1_init_eq, Timer1_deInit,
      Timer1_setCallBack, Buzzer_on, Buzzer_off, Nat.testBit_or, OCIE1A, F_CPU_DIVIDE_1024,
      CTC_OCR1A, SET_BIT]

/-- The log of the alarm sequence run from an empty log: the direct call and
nine compare matches. -/
theorem buzzer_log (s : Ctrl) :
    (compareMatches 9 (APP_buzzer { s with g_ticks_buzzer := 0, log := [] })).log
      = [.invoked .APP_buzzer, .Buzzer_on, .Timer1_deInit,
          .startTimer1 0 62500 5 4 .APP_buzzer,
         .invoked .APP_buzzer, .Timer1_deInit, .startTimer1 0 62500 5 4 .APP_buzzer,
         .invoked .APP_buzzer, .Timer1_deInit, .startTimer1 0 62500 5 4 .APP_buzzer,
         .invoked .APP_buzzer, .Timer1_deInit, .startTimer1 0 62500 5 4 .APP_buzzer,
         .invoked .APP_buzzer, .Timer1_deInit, .startTimer1 0 62500 5 4 .APP_buzzer,
         .invoked .APP_buzzer, .Timer1_deInit, .startTimer1 0 62500 5 4 .APP_buzzer,
         .invoked .APP_buzzer, .Timer1_deInit, .startTimer1 0 62500 5 4 .APP_buzzer,
         .invoked .APP_buzzer, .Timer1_deInit, .startTimer1 0 3125 5 4 .APP_buzzer,
         .invoked .APP_buzzer, .Buzzer_off,
         .invoked .APP_buzzer] := by
  simp +decide [compareMatches, compareMatch, TIMER1_COMPA_vect, callBack, APP_buzzer,
    Timer1.armed, startTimer1, call_Timer1_deInit, Timer1_init_eq, Timer1_deInit,
    Timer1_setCallBack, Buzzer_on, Buzzer_off, Nat.testBit_or, OCIE1A, F_CPU_DIVIDE_1024,
    CTC_OCR1A, SET_BIT]

/-- C8 (as stated, refuted): from the reset state, after nine invocations of
`APP_buzzer` the counter is 9, not BUZZER_FINISHED, and the wait loop of the
wrong-password dispatch never returns in a state reached by exactly nine
invocations. -/
theorem alarm_wait_not_after_nine :
    invocationCount
        (compareMatches 8 (APP_buzzer { powerOn with g_ticks_buzzer := 0 })).log = 9 ∧
    (compareMatches 8 (APP_buzzer { powerOn with g_ticks_buzzer := 0 })).g_ticks_buzzer
      ≠ BUZZER_FINISHED ∧
    ¬ ∃ fuel t,
      waitUntil (fun t => t.g_ticks_buzzer) BUZZER_FINISHED fuel
          (APP_buzzer { powerOn with g_ticks_buzzer := 0 }) = .returned () t ∧
      invocationCount t.log = 9 := by
  refine ⟨?_, ?_, ?_⟩
  · simp +decide [invocationCount, invocations, splitInvocations, powerOn,
      compareMatches, compareMatch, TIMER1_COMPA_vect, callBack, APP_buzzer,
      Timer1.armed, startTimer1, call_Timer1_deInit, Timer1_init_eq, Timer1_deInit,
      Timer1_setCallBack, Buzzer_on, Buzzer_off, Nat.testBit_or, OCIE1A, F_CPU_DIVIDE_1024,
      CTC_OCR1A, SET_BIT]
  · rw [buzzer_ticks powerOn 8 (by omega)]; decide
  · rintro ⟨fuel, t, hret, hcount⟩
    rw [buzzer_wait] at hret
    split at hret
    · cases hret
    · injection hret with _ ht
      subst ht
      have hlog := buzzer_log powerOn
      simp only [powerOn] at hlog hcount
      rw [hlog] at hcount
      simp +decide [invocationCount, invocations, splitInvocations] at hcount

/-- C8 (amended): from `g_ticks_buzzer = 0` and the direct call of
`APP_buzzer`, the wait loop of the wrong-password dispatch returns after
exactly ten invocations of `APP_buzzer` (the direct call and nine compare
matches), never fewer and never more: the counter differs from BUZZER_FINISHED
before the tenth; the ninth invocation is the one that turns the alarm off and
the tenth performs no action. -/
theorem alarm_wait_after_ten (s : Ctrl) :
    (∀ fuel, 10 ≤ fuel →
      waitUntil (fun t => t.g_ticks_buzzer) BUZZER_FINISHED fuel
          (APP_buzzer { s with g_ticks_buzzer := 0, log := [] })
        = .returned ()
            (compareMatches 9 (APP_buzzer { s with g_ticks_buzzer := 0, log := [] }))) ∧
    invocationCount
        (compareMatches 9 (APP_buzzer { s with g_ticks_buzzer := 0, log := [] })).log = 10 ∧
    (compareMatches 9 (APP_buzzer { s with g_ticks_buzzer := 0, log := [] })).g_ticks_buzzer
      = BUZZER_FINISHED ∧
    (∀ k, k < 9 →
      (compareMatches k (APP_buzzer { s with g_ticks_buzzer := 0, log := [] })).g_ticks_buzzer
        ≠ BUZZER_FINISHED) ∧
    (invocations
        (compareMatches 9 (APP_buzzer { s with g_ticks_buzzer := 0, log := [] })).log).drop 8
      = [[.Buzzer_off], []] ∧
    (compareMatches 7 (APP_buzzer { s with g_ticks_buzzer := 0, log := [] })).buzzerPin = 1 ∧
    (compareMatches 8 (APP_buzzer { s with g_ticks_buzzer := 0, log := [] })).buzzerPin = 0 := by
  refine ⟨?_, ?_, ?_, ?_, ?_, ?_, ?_⟩
  · intro fuel hf
    rw [buzzer_wait { s with log := [] }, if_neg (by omega)]
  · rw [buzzer_log]
    simp +decide [invocationCount, invocations, splitInvocations]
  · rw [buzzer_ticks { s with log := [] } 9 (by omega)]; rfl
  · intro k hk
    rw [buzzer_ticks { s with log := [] } k (by omega)]
    simp only [BUZZER_FINISHED]; omega
  · rw [buzzer_log]
    simp +decide [invocations, splitInvocations]
  · simp +decide [compareMatches, compareMatch, TIMER1_COMPA_vect, callBack, APP_buzzer,
      Timer1.armed, startTimer1, call_Timer1_deInit, Timer1_init_eq, Timer1_deInit,
      Timer1_setCallBack, Buzzer_on, Buzzer_off, Nat.testBit_or, OCIE1A, F_CPU_DIVIDE_1024,
      CTC_OCR1A, SET_BIT]
  · simp +decide [compareMatches, compareMatch, TIMER1_COMPA_vect, callBack, APP_buzzer,
      Timer1.armed, startTimer1, call_Timer1_deInit, Timer1_init_eq, Timer1_deInit,
      Timer1_setCallBack, Buzzer_on, Buzzer_off, Nat.testBit_or, OCIE1A, F_CPU_DIVIDE_1024,
      CTC_OCR1A, SET_BIT]

/-- C9: from `g_ticks_buzzer = 0`, over the invocations of `APP_buzzer` up to
and including the one at which the counter equals BUZZER_FINISHED, `Buzzer_on`
is called exactly once, at the first invocation, `Buzzer_off` exactly once, at
the ninth, and no other invocation performs an actuator action. -/
theorem alarm_action_trace (s : Ctrl) :
    (compareMatches 9 (APP_buzzer { s with g_ticks_buzzer := 0, log := [] })).g_ticks_buzzer
      = BUZZER_FINISHED ∧
    (∀ k, k < 9 →
      (compareMatches k (APP_buzzer { s with g_ticks_buzzer := 0, log := [] })).g_ticks_buzzer
        ≠ BUZZER_FINISHED) ∧
    actuatorActions
        (compareMatches 9 (APP_buzzer { s with g_ticks_buzzer := 0, log := [] })).log
      = [[.Buzzer_on], [], [], [], [], [], [], [], [.Buzzer_off], []] ∧
    (compareMatches 9 (APP_buzzer { s with g_ticks_buzzer := 0, log := [] })).log.count
      .Buzzer_on = 1 ∧
    (compareMatches 9 (APP_buzzer { s with g_ticks_buzzer := 0, log := [] })).log.count
      .Buzzer_off = 1 := by
  refine ⟨?_, ?_, ?_, ?_, ?_⟩
  · rw [buzzer_ticks { s with log := [] } 9 (by omega)]; rfl
  · intro k hk
    rw [buzzer_ticks { s with log := [] } k (by omega)]
    simp only [BUZZER_FINISHED]; omega
  · rw [buzzer_log]
    simp +decide [actuatorActions, invocations, splitInvocations, Event.isActuator]
  · rw [buzzer_log]; decide
  · rw [buzzer_log]; decide

/-- C10 (what the code does): the compare thresholds armed by `APP_buzzer`
between `Buzzer_on` and `Buzzer_off` are seven times 62500 and once 3125; they
sum to 440625 ticks, not to the 468750 ticks of one minute, and 3125 ticks are
not the 31250 ticks of 4 seconds. -/
theorem alarm_thresholds_sum (s : Ctrl) :
    thresholds (compareMatches 9 (APP_buzzer { s with g_ticks_buzzer := 0, log := [] })).log
      = [[62500], [62500], [62500], [62500], [62500], [62500], [62500], [3125], [], []] ∧
    (thresholds
      (compareMatches 9 (APP_buzzer { s with g_ticks_buzzer := 0, log := [] })).log).flatten.sum
      = 440625 ∧
    ticksOfSeconds 60 = 468750 ∧
    (thresholds
      (compareMatches 9 (APP_buzzer { s with g_ticks_buzzer := 0, log := [] })).log).flatten.sum
      ≠ ticksOfSeconds 60 ∧
    ticksOfSeconds 4 = 31250 ∧
    (3125 : Nat) ≠ ticksOfSeconds 4 := by
  rw [buzzer_log]
  refine ⟨?_, ?_, ?_, ?_, ?_, ?_⟩ <;> decide

/-! ### The main flow -/

theorem dropUntil_append (code : Nat) (junk rest : List Nat) (h : code ∉ junk) :
    dropUntil code (junk ++ code :: rest) = some rest := by
  induction junk with
  | nil => simp [dropUntil]
  | cons b junk ih =>
    have hb : b ≠ code := fun e => h (by simp [e])
    have hj : code ∉ junk := fun e => h (by simp [e])
    simp [dropUntil, hb, ih hj]

theorem readUntil_append (code : Nat) (junk rest : List Nat) (h : code ∉ junk) :
    readUntil code (junk ++ code :: rest) = junk ++ [code] := by
  induction junk with
  | nil => simp [readUntil]
  | cons b junk ih =>
    have hb : b ≠ code := fun e => h (by simp [e])
    have hj : code ∉ junk := fun e => h (by simp [e])
    simp [readUntil, hb, ih hj]

theorem awaitByte_append (code : Nat) (junk rest : List Nat) (h : code ∉ junk) (s : Ctrl)
    (hrx : s.rx = junk ++ code :: rest) :
    awaitByte code s
      = .returned ()
          { s with rx := rest, log := s.log ++ (junk ++ [code]).map .UART_recieveByte } := by
  simp only [awaitByte, hrx, dropUntil_append code junk rest h,
    readUntil_append code junk rest h]

/-- The receive loop on a stream that starts with the `n` bytes `bs`: they are
stored at `i`, ..., `i + n - 1`, one MC2_READY is sent before each. -/
theorem receive_loop (n : Nat) : ∀ (i : Nat) (password : Buffer) (s : Ctrl) (bs tail : List Nat),
    bs.length = n → s.rx = bs ++ tail →
    receivePasswordFrom_HMI_ECU.loop n i password s
      = .returned (fun j => if i ≤ j ∧ j < i + n then bs.getD (j - i) 0 else password j)
          { s with
            rx := tail
            log := s.log ++ exchange bs } := by
  induction n with
  | zero =>
    intro i password s bs tail hlen hrx
    have : bs = [] := List.length_eq_zero.mp hlen
    subst this
    simp only [receivePasswordFrom_HMI_ECU.loop, exchange, List.append_nil]
    congr 1
    · funext j
      have h3 : ¬ (i ≤ j ∧ j < i) := by omega
      simp [h3]
    · simp at hrx; cases s; simp_all
  | succ n ih =>
    intro i password s bs tail hlen hrx
    match bs, hlen with
    | b :: bs, hlen =>
      simp only [List.length_cons, Nat.add_right_cancel_iff] at hlen
      simp only [receivePasswordFrom_HMI_ECU.loop, UART_recieveByte, UART_sendByte, hrx,
        List.cons_append, Outcome.bind]
      rw [ih (i + 1) (password.write i b) _ bs tail hlen rfl]
      congr 1
      · funext j
        by_cases h1 : j = i
        · subst h1; simp [Buffer.write]
        · by_cases h2 : i + 1 ≤ j ∧ j < i + 1 + n
          · have h3 : i ≤ j ∧ j < i + (n + 1) := by omega
            have h4 : j - i = (j - (i + 1)) + 1 := by omega
            simp only [h2, h3, and_self, if_true, h4, List.getD_cons_succ]
          · have h3 : ¬ (i ≤ j ∧ j < i + (n + 1)) := by omega
            simp [h2, h3, Buffer.write, h1]
      · simp [exchange]

theorem checkOnPassword_fst (mem : EEPROM) (a : Nat) (C : Buffer) :
    (checkOnPassword mem a C).1 = mem := by
  simp [checkOnPassword, checkOnPassword_read_fst]

theorem bytes_getD (c : Buffer) (j : Nat) (hj : j < PASSWORD_SIZE) : c.bytes.getD j 0 = c j := by
  unfold PASSWORD_SIZE at hj
  interval_cases j <;> rfl

theorem receivePassword_frame (old c : Buffer) (s : Ctrl) (tail : List Nat)
    (hrx : s.rx = c.bytes ++ tail) :
    receivePasswordFrom_HMI_ECU old s
      = .returned (old.received c)
          { s with
            rx := tail
            log := s.log ++ exchange c.bytes } := by
  unfold receivePasswordFrom_HMI_ECU
  rw [receive_loop PASSWORD_SIZE 0 old s c.bytes tail (by simp [Buffer.bytes]) hrx]
  congr 1
  funext j
  by_cases h : j < PASSWORD_SIZE
  · have h1 : 0 ≤ j ∧ j < 0 + PASSWORD_SIZE := by omega
    simp only [Buffer.received, h, h1, and_self, if_true, Nat.sub_zero]
    exact bytes_getD c j h
  · have h1 : ¬ (0 ≤ j ∧ j < 0 + PASSWORD_SIZE) := by omega
    simp only [Buffer.received, h, h1, if_false]

theorem received_agree (old c P : Buffer) : (old.received c).agree P ↔ c.agree P := by
  unfold Buffer.agree Buffer.received PASSWORD_SIZE
  constructor
  · intro h i hi; have := h i hi; simpa [hi] using this
  · intro h i hi; simpa [hi] using h i hi

/-- One trial of the verification loop on a stream that starts with the frame
of a candidate. -/
theorem verifyLoop_trial (fuel : Nat) (l : Locals) (s : Ctrl) (c : Buffer)
    (junk tail : List Nat) (hj : MC1_READY ∉ junk) (hrx : s.rx = frame c junk ++ tail)
    (hc : l.wrongPasswordCounter < MAX_TRIALS) :
    verifyLoop (fuel + 1) l s
      = if c.agree (storedPassword s.eeprom) then
          .returned { l with doorPassword := l.doorPassword.received c }
            (afterTrial c junk MATCHED tail s)
        else
          verifyLoop fuel
            { l with
              doorPassword := l.doorPassword.received c
              wrongPasswordCounter := l.wrongPasswordCounter + 1 }
            (afterTrial c junk NOT_MATCHED tail s) := by
  have hrx1 : s.rx = c.bytes ++ (junk ++ MC1_READY :: tail) := by
    simp [hrx, frame]
  have hspec := checkOnPassword_matched_iff s.eeprom PASSWORD_ADDRESS
    (l.doorPassword.received c) (by decide)
  have hm : (checkOnPassword s.eeprom PASSWORD_ADDRESS (l.doorPassword.received c)).2 = MATCHED
      ↔ c.agree (storedPassword s.eeprom) := by
    rw [hspec, ← received_agree l.doorPassword c]
    rfl
  simp only [verifyLoop, hc, if_true, receivePassword_frame l.doorPassword c s _ hrx1,
    Outcome.bind, call_checkOnPassword, checkOnPassword_fst]
  by_cases hag : c.agree (storedPassword s.eeprom)
  · have h1 : MATCHED = (checkOnPassword s.eeprom PASSWORD_ADDRESS
        (l.doorPassword.received c)).2 := (hm.mpr hag).symm
    rw [if_pos h1, if_pos hag]
    rw [awaitByte_append MC1_READY junk tail hj _ rfl]
    simp [Outcome.bind, afterTrial, UART_sendByte, trialLog]
  · have h1 : ¬ MATCHED = (checkOnPassword s.eeprom PASSWORD_ADDRESS
        (l.doorPassword.received c)).2 := fun e => hag (hm.mp e.symm)
    rw [if_neg h1, if_neg hag]
    rw [awaitByte_append MC1_READY junk tail hj _ rfl]
    simp [Outcome.bind, afterTrial, UART_sendByte, trialLog]

theorem sentBytes_append (a b : List Event) : sentBytes (a ++ b) = sentBytes a ++ sentBytes b := by
  simp [sentBytes, List.filterMap_append]

theorem sentBytes_map (l : List Nat) : sentBytes (l.map .UART_sendByte) = l := by
  induction l with
  | nil => rfl
  | cons b l ih =>
    simp only [sentBytes, List.map_cons, List.filterMap_cons] at ih ⊢
    rw [ih]

theorem sentBytes_received (l : List Nat) : sentBytes (l.map .UART_recieveByte) = [] := by
  induction l with
  | nil => rfl
  | cons b l ih =>
    simp only [sentBytes, List.map_cons, List.filterMap_cons] at ih ⊢
    rw [ih]

theorem sentBytes_exchange (bs : List Nat) :
    sentBytes (exchange bs) = List.replicate bs.length MC2_READY := by
  induction bs with
  | nil => rfl
  | cons b bs ih =>
    simp only [sentBytes, exchange, List.filterMap_cons, List.length_cons,
      List.replicate_succ] at ih ⊢
    rw [ih]

theorem sentBytes_trialLog (c : Buffer) (junk : List Nat) (reply : Nat) :
    sentBytes (trialLog c junk reply) = trialBytes reply := by
  simp only [trialLog, sentBytes_append, sentBytes_exchange, sentBytes_received, trialBytes,
    List.nil_append]
  simp [Buffer.bytes, sentBytes]

/-- The counter of the verification loop never leaves [0, MAX_TRIALS]: entered
with a counter in the range, the loop exits with a counter in the range that is
not smaller. -/
theorem verifyLoop_counter (fuel : Nat) : ∀ (l : Locals) (s : Ctrl) (l1 : Locals) (s1 : Ctrl),
    verifyLoop fuel l s = .returned l1 s1 → l.wrongPasswordCounter ≤ MAX_TRIALS →
    l.wrongPasswordCounter ≤ l1.wrongPasswordCounter ∧ l1.wrongPasswordCounter ≤ MAX_TRIALS := by
  induction fuel with
  | zero => intro l s l1 s1 h; simp [verifyLoop] at h
  | succ fuel ih =>
    intro l s l1 s1 h hle
    unfold verifyLoop at h
    split at h
    · rename_i hlt
      cases hr : receivePasswordFrom_HMI_ECU l.doorPassword s with
      | returned p t =>
        simp only [hr, Outcome.bind] at h
        split at h
        · cases ha : awaitByte MC1_READY
            (call_checkOnPassword PASSWORD_ADDRESS p t).2 with
          | returned u t2 =>
            simp only [ha, Outcome.bind] at h
            injection h with h1 _
            subst h1
            exact ⟨Nat.le_refl _, hle⟩
          | blocked t2 => simp [ha, Outcome.bind] at h
          | spinning t2 => simp [ha, Outcome.bind] at h
          | outOfFuel t2 => simp [ha, Outcome.bind] at h
        · cases ha : awaitByte MC1_READY
            (call_checkOnPassword PASSWORD_ADDRESS p t).2 with
          | returned u t2 =>
            simp only [ha, Outcome.bind] at h
            have := ih _ _ l1 s1 h (by simp only; omega)
            simp only at this
            omega
          | blocked t2 => simp [ha, Outcome.bind] at h
          | spinning t2 => simp [ha, Outcome.bind] at h
          | outOfFuel t2 => simp [ha, Outcome.bind] at h
      | blocked t => simp [hr, Outcome.bind] at h
      | spinning t => simp [hr, Outcome.bind] at h
      | outOfFuel t => simp [hr, Outcome.bind] at h
    · injection h with h1 _
      subst h1
      exact ⟨Nat.le_refl _, hle⟩

/-- The receive loop returns or waits for a byte; it has no other end. -/
theorem receive_loop_ends (n : Nat) : ∀ (i : Nat) (p : Buffer) (s : Ctrl),
    (∃ q t, receivePasswordFrom_HMI_ECU.loop n i p s = .returned q t) ∨
      (∃ t, receivePasswordFrom_HMI_ECU.loop n i p s = .blocked t) := by
  induction n with
  | zero => intro i p s; exact Or.inl ⟨p, s, rfl⟩
  | succ n ih =>
    intro i p s
    simp only [receivePasswordFrom_HMI_ECU.loop, UART_recieveByte, UART_sendByte]
    cases s.rx with
    | nil => exact Or.inr ⟨_, rfl⟩
    | cons b rest => exact ih _ _ _

theorem awaitByte_ends (code : Nat) (s : Ctrl) :
    (∃ t, awaitByte code s = .returned () t) ∨ (∃ t, awaitByte code s = .blocked t) := by
  unfold awaitByte
  cases dropUntil code s.rx with
  | none => exact Or.inr ⟨_, rfl⟩
  | some rest => exact Or.inl ⟨_, rfl⟩

/-- With more steps than trials left, the verification loop returns or waits
for a byte: the model never runs out of steps and the loop never spins. -/
theorem verifyLoop_ends (fuel : Nat) : ∀ (l : Locals) (s : Ctrl),
    MAX_TRIALS - l.wrongPasswordCounter < fuel →
    (∃ l1 t, verifyLoop fuel l s = .returned l1 t) ∨ (∃ t, verifyLoop fuel l s = .blocked t) := by
  induction fuel with
  | zero => intro l s h; omega
  | succ fuel ih =>
    intro l s h
    unfold verifyLoop
    split
    · rename_i hlt
      rcases receive_loop_ends PASSWORD_SIZE 0 l.doorPassword s with ⟨q, t, hr⟩ | ⟨t, hr⟩
      · simp only [receivePasswordFrom_HMI_ECU, hr, Outcome.bind]
        rcases awaitByte_ends MC1_READY (call_checkOnPassword PASSWORD_ADDRESS q t).2 with
          ⟨u, ha⟩ | ⟨u, ha⟩
        · split
          · simp only [ha]; exact Or.inl ⟨_, _, rfl⟩
          · simp only [ha]
            exact ih _ _ (by simp only; omega)
        · split <;> (simp only [ha]; exact Or.inr ⟨_, rfl⟩)
      · simp only [receivePasswordFrom_HMI_ECU, hr, Outcome.bind]
        exact Or.inr ⟨_, rfl⟩
    · exact Or.inl ⟨_, _, rfl⟩

/-- C5: the verification round of the control node. The counter starts at 0
and stays within [0, MAX_TRIALS]. On a stream of candidate frames, if the
first candidate equal to the stored password has index k < 3, the round
consumes exactly k + 1 frames, replies NOT_MATCHED k times and then MATCHED,
and exits with the counter equal to k; if none of the first three candidates
equals it, the round consumes exactly three frames, replies NOT_MATCHED three
times and exits with the counter equal to 3. The stored password is unchanged.
On any stream the round returns or waits for a byte that does not come. -/
theorem verification_round (l : Locals) (s : Ctrl) (c0 c1 c2 : Buffer)
    (j0 j1 j2 rest : List Nat)
    (h0 : MC1_READY ∉ j0) (h1 : MC1_READY ∉ j1) (h2 : MC1_READY ∉ j2) :
    (c0.agree (storedPassword s.eeprom) →
      ∃ l1 s1,
        verifyRound l { s with rx := frame c0 j0 ++ rest, log := [] } = .returned l1 s1 ∧
        l1.wrongPasswordCounter = 0 ∧ l1.doorPassword.agree c0 ∧
        s1.rx = rest ∧
        sentBytes s1.log = trialBytes MATCHED ∧ s1.eeprom = s.eeprom) ∧
    (¬ c0.agree (storedPassword s.eeprom) → c1.agree (storedPassword s.eeprom) →
      ∃ l1 s1,
        verifyRound l { s with rx := frame c0 j0 ++ (frame c1 j1 ++ rest), log := [] }
          = .returned l1 s1 ∧
        l1.wrongPasswordCounter = 1 ∧ l1.doorPassword.agree c1 ∧
        s1.rx = rest ∧
        sentBytes s1.log = trialBytes NOT_MATCHED ++ trialBytes MATCHED ∧
        s1.eeprom = s.eeprom) ∧
    (¬ c0.agree (storedPassword s.eeprom) → ¬ c1.agree (storedPassword s.eeprom) →
      c2.agree (storedPassword s.eeprom) →
      ∃ l1 s1,
        verifyRound l
          { s with rx := frame c0 j0 ++ (frame c1 j1 ++ (frame c2 j2 ++ rest)), log := [] }
          = .returned l1 s1 ∧
        l1.wrongPasswordCounter = 2 ∧ l1.doorPassword.agree c2 ∧
        s1.rx = rest ∧
        sentBytes s1.log
          = trialBytes NOT_MATCHED ++ (trialBytes NOT_MATCHED ++ trialBytes MATCHED) ∧
        s1.eeprom = s.eeprom) ∧
    (¬ c0.agree (storedPassword s.eeprom) → ¬ c1.agree (storedPassword s.eeprom) →
      ¬ c2.agree (storedPassword s.eeprom) →
      ∃ l1 s1,
        verifyRound l
          { s with rx := frame c0 j0 ++ (frame c1 j1 ++ (frame c2 j2 ++ rest)), log := [] }
          = .returned l1 s1 ∧
        l1.wrongPasswordCounter = MAX_TRIALS ∧ l1.doorPassword.agree c2 ∧
        s1.rx = rest ∧
        sentBytes s1.log
          = trialBytes NOT_MATCHED ++ (trialBytes NOT_MATCHED ++ trialBytes NOT_MATCHED) ∧
        s1.eeprom = s.eeprom) ∧
    (∀ t : Ctrl, (∃ l1 s1, verifyRound l t = .returned l1 s1) ∨
      (∃ s1, verifyRound l t = .blocked s1)) ∧
    (∀ (t : Ctrl) (l1 : Locals) (s1 : Ctrl), verifyRound l t = .returned l1 s1 →
      l1.wrongPasswordCounter ≤ MAX_TRIALS) ∧
    (∀ (fuel : Nat) (l0 : Locals) (t : Ctrl) (l1 : Locals) (s1 : Ctrl),
      verifyLoop fuel l0 t = .returned l1 s1 → l0.wrongPasswordCounter ≤ MAX_TRIALS →
      l0.wrongPasswordCounter ≤ l1.wrongPasswordCounter ∧
        l1.wrongPasswordCounter ≤ MAX_TRIALS) := by
  have hrecv : ∀ (old c : Buffer), (old.received c).agree c := fun old c =>
    (received_agree old c c).mpr (fun _ _ => rfl)
  have e1 : ∀ tail : List Nat, _ := fun tail =>
    verifyLoop_trial 3 { l with wrongPasswordCounter := 0 }
      { s with rx := frame c0 j0 ++ tail, log := [] } c0 j0 tail h0 rfl (by simp [MAX_TRIALS])
  have e2 : ∀ tail : List Nat, _ := fun tail =>
    verifyLoop_trial 2
      { l with doorPassword := l.doorPassword.received c0, wrongPasswordCounter := 0 + 1 }
      (afterTrial c0 j0 NOT_MATCHED (frame c1 j1 ++ tail)
        { s with rx := frame c0 j0 ++ (frame c1 j1 ++ tail), log := [] })
      c1 j1 tail h1 rfl (by simp [MAX_TRIALS])
  have e3 := verifyLoop_trial 1
    { l with
      doorPassword := (l.doorPassword.received c0).received c1
      wrongPasswordCounter := 0 + 1 + 1 }
    (afterTrial c1 j1 NOT_MATCHED (frame c2 j2 ++ rest)
      (afterTrial c0 j0 NOT_MATCHED (frame c1 j1 ++ (frame c2 j2 ++ rest))
        { s with rx := frame c0 j0 ++ (frame c1 j1 ++ (frame c2 j2 ++ rest)), log := [] }))
    c2 j2 _ h2 rfl (by simp [MAX_TRIALS])
  refine ⟨?_, ?_, ?_, ?_, ?_, ?_, ?_⟩
  · intro a0
    refine ⟨_, _, (e1 rest).trans (if_pos a0), rfl, hrecv _ _, rfl, ?_, rfl⟩
    simp [afterTrial, sentBytes_trialLog]
  · intro a0 a1
    refine ⟨_, _, ((e1 _).trans (if_neg a0)).trans ((e2 rest).trans (if_pos a1)), rfl,
      hrecv _ _, rfl, ?_, rfl⟩
    simp [afterTrial, sentBytes_append, sentBytes_trialLog]
  · intro a0 a1 a2
    refine ⟨_, _,
      ((e1 _).trans (if_neg a0)).trans (((e2 _).trans (if_neg a1)).trans
        (e3.trans (if_pos a2))),
      rfl, hrecv _ _, rfl, ?_, rfl⟩
    simp [afterTrial, sentBytes_append, sentBytes_trialLog]
  · intro a0 a1 a2
    refine ⟨_, _,
      ((e1 _).trans (if_neg a0)).trans (((e2 _).trans (if_neg a1)).trans
        (e3.trans (if_neg a2))),
      rfl, hrecv _ _, rfl, ?_, rfl⟩
    simp [afterTrial, sentBytes_append, sentBytes_trialLog]
  · intro t
    exact verifyLoop_ends (MAX_TRIALS + 1) { l with wrongPasswordCounter := 0 } t
      (by simp [MAX_TRIALS])
  · intro t l1 s1 h
    exact (verifyLoop_counter _ _ _ _ _ h (by simp [MAX_TRIALS])).2
  · intro fuel l0 t l1 s1 h hle
    exact verifyLoop_counter fuel l0 t l1 s1 h hle

/-- Witness of C5: the erased EEPROM holds 0xFF in every byte; the first
candidate is [1,2,3,4,5], followed by a stray byte before MC1_READY, the
second candidate is five times 0xFF. -/
theorem verification_round_witness :
    ∃ l1 s1,
      verifyRound Locals.start
        { powerOn with
          rx := frame (Buffer.ofList [1, 2, 3, 4, 5]) [0x33] ++
            (frame (fun _ => 0xFF) [] ++ [OPEN_DOOR])
          log := [] }
        = .returned l1 s1 ∧
      l1.wrongPasswordCounter = 1 ∧ l1.doorPassword.agree (fun _ => 0xFF) ∧
      s1.rx = [OPEN_DOOR] ∧
      sentBytes s1.log = trialBytes NOT_MATCHED ++ trialBytes MATCHED ∧
      s1.eeprom = powerOn.eeprom :=
  (verification_round Locals.start powerOn (Buffer.ofList [1, 2, 3, 4, 5]) (fun _ => 0xFF)
    (fun _ => 0) [0x33] [] [] [OPEN_DOOR] (by decide) (by decide) (by decide)).2.1
    (by decide) (by decide)

theorem quietLog_append (a b : List Event) : quietLog (a ++ b) = (quietLog a && quietLog b) := by
  simp [quietLog, List.all_append]

theorem quietLog_nil : quietLog [] = true := rfl

theorem quietLog_cons (e : Event) (l : List Event) :
    quietLog (e :: l) = (!e.isDoorOrSave && quietLog l) := by
  simp [quietLog]

theorem quietLog_received (l : List Nat) : quietLog (l.map .UART_recieveByte) = true := by
  induction l with
  | nil => rfl
  | cons b l ih => simp [quietLog_cons, ih, Event.isDoorOrSave]

theorem UART_recieveByte_state (s : Ctrl) :
    (quietLog s.log = true → quietLog (UART_recieveByte s).state.log = true) ∧
      (UART_recieveByte s).state.eeprom = s.eeprom := by
  unfold UART_recieveByte
  cases s.rx with
  | nil => exact ⟨fun h => h, rfl⟩
  | cons b rest =>
    refine ⟨fun h => ?_, rfl⟩
    simp [Outcome.state, quietLog_append, quietLog_cons, quietLog_nil, h, Event.isDoorOrSave]

theorem awaitByte_state (code : Nat) (s : Ctrl) :
    (quietLog s.log = true → quietLog (awaitByte code s).state.log = true) ∧
      (awaitByte code s).state.eeprom = s.eeprom := by
  unfold awaitByte
  cases dropUntil code s.rx with
  | none =>
    refine ⟨fun h => ?_, rfl⟩
    simp [Outcome.state, quietLog_append, quietLog_received, h]
  | some rest =>
    refine ⟨fun h => ?_, rfl⟩
    simp [Outcome.state, quietLog_append, quietLog_received, h]

/-- The receive loop only sends MC2_READY and leaves the EEPROM alone. -/
theorem receive_loop_quiet (n : Nat) : ∀ (i : Nat) (p : Buffer) (s : Ctrl),
    quietLog s.log = true →
    quietLog (receivePasswordFrom_HMI_ECU.loop n i p s).state.log = true ∧
      (receivePasswordFrom_HMI_ECU.loop n i p s).state.eeprom = s.eeprom := by
  induction n with
  | zero => intro i p s h; simpa [receivePasswordFrom_HMI_ECU.loop, Outcome.state] using h
  | succ n ih =>
    intro i p s h
    simp only [receivePasswordFrom_HMI_ECU.loop, UART_recieveByte, UART_sendByte]
    cases hrx : s.rx with
    | nil =>
      simp [Outcome.bind, Outcome.state, quietLog_append, quietLog_cons, quietLog_nil, h,
        Event.isDoorOrSave]
    | cons b rest =>
      simp only [Outcome.bind]
      have := ih (i + 1) (p.write i b)
        { s with
          log := s.log ++ [.UART_sendByte MC2_READY] ++ [.UART_recieveByte b]
          rx := rest }
        (by simp [quietLog_append, quietLog_cons, quietLog_nil, h, Event.isDoorOrSave])
      simpa using this

/-- The verification loop only sends and receives bytes: it starts no sequence
and saves no password. -/
theorem verifyLoop_quiet (fuel : Nat) : ∀ (l : Locals) (s : Ctrl),
    quietLog s.log = true → quietLog (verifyLoop fuel l s).state.log = true := by
  induction fuel with
  | zero => intro l s h; simpa [verifyLoop, Outcome.state] using h
  | succ fuel ih =>
    intro l s h
    unfold verifyLoop
    split
    · have hq := receive_loop_quiet PASSWORD_SIZE 0 l.doorPassword s h
      unfold receivePasswordFrom_HMI_ECU
      cases hr : receivePasswordFrom_HMI_ECU.loop PASSWORD_SIZE 0 l.doorPassword s with
      | returned p t =>
        rw [hr] at hq
        simp only [Outcome.state] at hq
        simp only [Outcome.bind]
        have hq2 : quietLog (call_checkOnPassword PASSWORD_ADDRESS p t).2.log = true := hq.1
        have hlog :=
          (awaitByte_state MC1_READY (call_checkOnPassword PASSWORD_ADDRESS p t).2).1 hq2
        split
        · cases ha : awaitByte MC1_READY (call_checkOnPassword PASSWORD_ADDRESS p t).2 with
          | returned u t2 =>
            rw [ha] at hlog
            simp only [Outcome.state] at hlog
            simp [Outcome.bind, Outcome.state, UART_sendByte, quietLog_append, quietLog_cons,
              quietLog_nil, hlog, Event.isDoorOrSave]
          | blocked t2 =>
            rw [ha] at hlog; simp only [Outcome.state] at hlog
            simp [Outcome.bind, Outcome.state, hlog]
          | spinning t2 =>
            rw [ha] at hlog; simp only [Outcome.state] at hlog
            simp [Outcome.bind, Outcome.state, hlog]
          | outOfFuel t2 =>
            rw [ha] at hlog; simp only [Outcome.state] at hlog
            simp [Outcome.bind, Outcome.state, hlog]
        · cases ha : awaitByte MC1_READY (call_checkOnPassword PASSWORD_ADDRESS p t).2 with
          | returned u t2 =>
            rw [ha] at hlog
            simp only [Outcome.state] at hlog
            simp only [Outcome.bind]
            apply ih
            simp [UART_sendByte, quietLog_append, quietLog_cons, quietLog_nil, hlog,
              Event.isDoorOrSave]
          | blocked t2 =>
            rw [ha] at hlog; simp only [Outcome.state] at hlog
            simp [Outcome.bind, Outcome.state, hlog]
          | spinning t2 =>
            rw [ha] at hlog; simp only [Outcome.state] at hlog
            simp [Outcome.bind, Outcome.state, hlog]
          | outOfFuel t2 =>
            rw [ha] at hlog; simp only [Outcome.state] at hlog
            simp [Outcome.bind, Outcome.state, hlog]
      | blocked t =>
        rw [hr] at hq; simp only [Outcome.state] at hq
        simp [Outcome.bind, Outcome.state, hq.1]
      | spinning t =>
        rw [hr] at hq; simp only [Outcome.state] at hq
        simp [Outcome.bind, Outcome.state, hq.1]
      | outOfFuel t =>
        rw [hr] at hq; simp only [Outcome.state] at hq
        simp [Outcome.bind, Outcome.state, hq.1]
    · simpa [Outcome.state] using h

/-- When the verification loop exits below MAX_TRIALS, it exits through the
`break`: the last call of `checkOnPassword` returned MATCHED. -/
theorem verifyLoop_matched (fuel : Nat) : ∀ (l : Locals) (s : Ctrl) (l1 : Locals) (s1 : Ctrl),
    verifyLoop fuel l s = .returned l1 s1 → l1.wrongPasswordCounter < MAX_TRIALS →
    (checkOnPassword s1.eeprom PASSWORD_ADDRESS l1.doorPassword).2 = MATCHED := by
  induction fuel with
  | zero => intro l s l1 s1 h; simp [verifyLoop] at h
  | succ fuel ih =>
    intro l s l1 s1 h hlt
    unfold verifyLoop at h
    split at h
    · cases hr : receivePasswordFrom_HMI_ECU l.doorPassword s with
      | returned p t =>
        simp only [hr, Outcome.bind] at h
        have hee := (awaitByte_state MC1_READY (call_checkOnPassword PASSWORD_ADDRESS p t).2).2
        have hee2 : (call_checkOnPassword PASSWORD_ADDRESS p t).2.eeprom = t.eeprom :=
          checkOnPassword_fst t.eeprom PASSWORD_ADDRESS p
        split at h
        · rename_i hm
          cases ha : awaitByte MC1_READY
            (call_checkOnPassword PASSWORD_ADDRESS p t).2 with
          | returned u t2 =>
            rw [ha] at hee
            simp only [Outcome.state] at hee
            simp only [ha, Outcome.bind] at h
            injection h with h1 h2
            subst h1 h2
            simp only [UART_sendByte, hee, hee2]
            exact hm.symm
          | blocked t2 => simp [ha, Outcome.bind] at h
          | spinning t2 => simp [ha, Outcome.bind] at h
          | outOfFuel t2 => simp [ha, Outcome.bind] at h
        · cases ha : awaitByte MC1_READY
            (call_checkOnPassword PASSWORD_ADDRESS p t).2 with
          | returned u t2 =>
            simp only [ha, Outcome.bind] at h
            exact ih _ _ l1 s1 h hlt
          | blocked t2 => simp [ha, Outcome.bind] at h
          | spinning t2 => simp [ha, Outcome.bind] at h
          | outOfFuel t2 => simp [ha, Outcome.bind] at h
      | blocked t => simp [hr, Outcome.bind] at h
      | spinning t => simp [hr, Outcome.bind] at h
      | outOfFuel t => simp [hr, Outcome.bind] at h
    · rename_i hge
      injection h with h1 _
      subst h1
      exact absurd hlt hge

/-- The alarm sequence, however far it has run, starts no door sequence and
saves no password. -/
theorem buzzer_run_quiet (s : Ctrl) (h : quietLog s.log = true) (k : Nat) (hk : k ≤ 9) :
    quietLog (compareMatches k (APP_buzzer { s with g_ticks_buzzer := 0 })).log = true := by
  interval_cases k <;>
  simp +decide [quietLog_append, quietLog_cons, quietLog_nil, h, Event.isDoorOrSave,
    compareMatches, compareMatch, TIMER1_COMPA_vect, callBack, APP_buzzer,
    Timer1.armed, startTimer1, call_Timer1_deInit, Timer1_init_eq, Timer1_deInit,
    Timer1_setCallBack, Buzzer_on, Buzzer_off, Nat.testBit_or, OCIE1A, F_CPU_DIVIDE_1024,
    CTC_OCR1A, SET_BIT]

/-- The dispatch after MAX_TRIALS mismatches starts no door sequence and
saves no password, whatever byte it receives. -/
theorem dispatch_lockout_quiet (fuel : Nat) (l : Locals) (s : Ctrl)
    (hl : l.wrongPasswordCounter = MAX_TRIALS) (h : quietLog s.log = true) :
    quietLog (dispatch fuel l s).state.log = true := by
  have hs : quietLog (UART_sendByte MC2_READY s).log = true := by
    simp [UART_sendByte, quietLog_append, quietLog_cons, quietLog_nil, h, Event.isDoorOrSave]
  unfold dispatch
  rw [if_pos hl]
  have hrecv := (UART_recieveByte_state (UART_sendByte MC2_READY s)).1 hs
  cases hr : UART_recieveByte (UART_sendByte MC2_READY s) with
  | returned b t =>
    rw [hr] at hrecv
    simp only [Outcome.state] at hrecv
    have ht : quietLog t.log = true := hrecv
    dsimp only [Outcome.bind]
    by_cases hw : WRONG_PASSWORD = b
    · rw [if_pos hw, buzzer_wait]
      by_cases hf : fuel < 10
      · rw [if_pos hf]
        exact buzzer_run_quiet t ht fuel (by omega)
      · rw [if_neg hf]
        exact buzzer_run_quiet t ht 9 (by omega)
    · rw [if_neg hw]
      exact ht
  | blocked t =>
    rw [hr] at hrecv; simp only [Outcome.state] at hrecv
    simp [Outcome.bind, Outcome.state, hrecv]
  | spinning t =>
    rw [hr] at hrecv; simp only [Outcome.state] at hrecv
    simp [Outcome.bind, Outcome.state, hrecv]
  | outOfFuel t =>
    rw [hr] at hrecv; simp only [Outcome.state] at hrecv
    simp [Outcome.bind, Outcome.state, hrecv]

/-- A compare-match interrupt taken while `APP_DcMotor` is not the registered
call-back runs no part of the door sequence, saves no password and does not
register `APP_DcMotor`. -/
theorem interrupt_quiet (t : Ctrl) (hcb : t.timer.g_callBackPtr ≠ some .APP_DcMotor)
    (h : quietLog t.log = true) :
    quietLog (TIMER1_COMPA_vect t).log = true ∧
      (TIMER1_COMPA_vect t).timer.g_callBackPtr ≠ some .APP_DcMotor := by
  unfold TIMER1_COMPA_vect
  cases hc : t.timer.g_callBackPtr with
  | none => simp [h, hc]
  | some f =>
    cases f with
    | APP_DcMotor => exact absurd hc hcb
    | APP_buzzer =>
      simp only [callBack, APP_buzzer]
      repeat' split
      all_goals
        simp [quietLog_append, quietLog_cons, quietLog_nil, h, hc, Event.isDoorOrSave, startTimer1,
          call_Timer1_deInit, Timer1_init_eq, Timer1_deInit, Timer1_setCallBack, Buzzer_on,
          Buzzer_off]

/-- C4: no door actuation or password overwrite without a match. In a round
of the main loop, on every stream of received bytes, an invocation of
`APP_DcMotor`, a call of `DcMotor_Rotate`, the timer started for
`APP_DcMotor` or a call of `savePasswordInEEPROM` occurs only if the
verification loop ended below MAX_TRIALS with `checkOnPassword` returning
MATCHED; in a round whose verification loop ended with MAX_TRIALS mismatches
none of them occurs, whatever command byte follows; and a timer interrupt
taken while `APP_DcMotor` is not the registered call-back does none of them
either. -/
theorem no_door_without_match (fuel : Nat) (l : Locals) (s : Ctrl) :
    ((∃ e, e ∈ (mainRound fuel l { s with log := [] }).state.log ∧ e.isDoorOrSave = true) →
      ∃ l1 s1, verifyRound l { s with log := [] } = .returned l1 s1 ∧
        l1.wrongPasswordCounter < MAX_TRIALS ∧
        (checkOnPassword s1.eeprom PASSWORD_ADDRESS l1.doorPassword).2 = MATCHED) ∧
    (∀ l1 s1, verifyRound l { s with log := [] } = .returned l1 s1 →
      l1.wrongPasswordCounter = MAX_TRIALS →
      ∀ e, e ∈ (mainRound fuel l { s with log := [] }).state.log → e.isDoorOrSave = false) ∧
    (∀ t : Ctrl, t.timer.g_callBackPtr ≠ some .APP_DcMotor → quietLog t.log = true →
      quietLog (TIMER1_COMPA_vect t).log = true ∧
        (TIMER1_COMPA_vect t).timer.g_callBackPtr ≠ some .APP_DcMotor) := by
  have hv := verifyLoop_quiet (MAX_TRIALS + 1) { l with wrongPasswordCounter := 0 }
    { s with log := [] } rfl
  have hquiet : ∀ l1 s1, verifyRound l { s with log := [] } = .returned l1 s1 →
      l1.wrongPasswordCounter = MAX_TRIALS →
      quietLog (mainRound fuel l { s with log := [] }).state.log = true := by
    intro l1 s1 hr hc
    have hs1 : quietLog s1.log = true := by
      have := hv
      unfold verifyRound at hr
      rw [hr] at this
      simpa [Outcome.state] using this
    simp only [mainRound, hr, Outcome.bind]
    exact dispatch_lockout_quiet fuel l1 s1 hc hs1
  have hall : ∀ (log : List Event), quietLog log = true →
      ∀ e, e ∈ log → e.isDoorOrSave = false := by
    intro log hq e he
    have := (List.all_eq_true.mp hq) e he
    simpa using this
  refine ⟨?_, ?_, ?_⟩
  · rintro ⟨e, he, hd⟩
    cases hr : verifyRound l { s with log := [] } with
    | returned l1 s1 =>
      have hle : l1.wrongPasswordCounter ≤ MAX_TRIALS :=
        (verifyLoop_counter _ _ _ _ _ hr (by simp [MAX_TRIALS])).2
      by_cases hc : l1.wrongPasswordCounter = MAX_TRIALS
      · have := hall _ (hquiet l1 s1 hr hc) e he
        rw [this] at hd; cases hd
      · have hlt : l1.wrongPasswordCounter < MAX_TRIALS := by omega
        exact ⟨l1, s1, rfl, hlt, verifyLoop_matched _ _ _ _ _ hr hlt⟩
    | blocked t =>
      unfold verifyRound at hr
      rw [hr] at hv
      simp only [mainRound, verifyRound, hr, Outcome.bind, Outcome.state] at he hv
      have := hall _ hv e he
      rw [this] at hd; cases hd
    | spinning t =>
      unfold verifyRound at hr
      rw [hr] at hv
      simp only [mainRound, verifyRound, hr, Outcome.bind, Outcome.state] at he hv
      have := hall _ hv e he
      rw [this] at hd; cases hd
    | outOfFuel t =>
      unfold verifyRound at hr
      rw [hr] at hv
      simp only [mainRound, verifyRound, hr, Outcome.bind, Outcome.state] at he hv
      have := hall _ hv e he
      rw [this] at hd; cases hd
  · intro l1 s1 hr hc e he
    exact hall _ (hquiet l1 s1 hr hc) e he
  · intro t hcb hq
    exact interrupt_quiet t hcb hq

/-- A matched round followed by OPEN_DOOR does run the door sequence, and the
round never ends: the wait loop spins with the counter at 6. -/
theorem matched_round_opens_door :
    (mainRound 20 Locals.start
      { powerOn with rx := frame (fun _ => 0xFF) [] ++ [OPEN_DOOR] }).state.log.contains
        (.DcMotor_Rotate .CLOCKWISE 100) = true ∧
    (mainRound 20 Locals.start
      { powerOn with rx := frame (fun _ => 0xFF) [] ++ [OPEN_DOOR] }).state.g_ticks_DCMotor
        = 6 ∧
    (∃ t, mainRound 20 Locals.start
      { powerOn with rx := frame (fun _ => 0xFF) [] ++ [OPEN_DOOR] } = .spinning t) := by
  refine ⟨by decide, by decide, ?_⟩
  exact ⟨_, by
    simp +decide [mainRound, verifyRound, verifyLoop, dispatch, receivePasswordFrom_HMI_ECU,
      receivePasswordFrom_HMI_ECU.loop, UART_recieveByte, UART_sendByte, Outcome.bind,
      call_checkOnPassword, checkOnPassword, checkOnPassword.read, checkOnPassword.compare,
      EEPROM_readByte, Buffer.write, awaitByte, dropUntil, frame, Buffer.bytes, powerOn,
      Locals.start, MAX_TRIALS, PASSWORD_SIZE, PASSWORD_ADDRESS, MC1_READY, MC2_READY,
      MATCHED, NOT_MATCHED, OPEN_DOOR, door_wait]
    rfl⟩


/-! ### After the alarm sequence -/

/-- An invocation of `APP_buzzer` with the counter between 9 and 254 only
counts. -/
theorem APP_buzzer_idle (t : Ctrl) (h1 : 9 ≤ t.g_ticks_buzzer) (h2 : t.g_ticks_buzzer < 255) :
    APP_buzzer t
      = { t with
          g_ticks_buzzer := t.g_ticks_buzzer + 1
          log := t.log ++ [.invoked .APP_buzzer] } := by
  have hm : (t.g_ticks_buzzer + 1) % 256 = t.g_ticks_buzzer + 1 := Nat.mod_eq_of_lt (by omega)
  simp only [APP_buzzer, hm]
  iterate 9 rw [if_neg (by omega)]

/-- While the timer stays armed for `APP_buzzer` and the counter is between 9
and 255, `k` compare matches are `k` invocations that only count. -/
theorem compareMatches_idle (k : Nat) : ∀ (t : Ctrl), t.timer.armed →
    t.timer.g_callBackPtr = some .APP_buzzer → 9 ≤ t.g_ticks_buzzer →
    t.g_ticks_buzzer + k ≤ 255 →
    compareMatches k t
      = { t with
          g_ticks_buzzer := t.g_ticks_buzzer + k
          log := t.log ++ List.replicate k (.invoked .APP_buzzer) } := by
  induction k with
  | zero => intro t _ _ _ _; simp [compareMatches]
  | succ k ih =>
    intro t ha hc h1 h2
    have hstep : compareMatch t = some (APP_buzzer t) := by
      simp [compareMatch, ha, TIMER1_COMPA_vect, hc, callBack]
    have hnext := ih
      { t with
        g_ticks_buzzer := t.g_ticks_buzzer + 1
        log := t.log ++ [.invoked .APP_buzzer] }
      ha hc (by simp only; omega) (by simp only; omega)
    simp only [compareMatches, hstep, APP_buzzer_idle t h1 (by omega), hnext]
    simp [List.replicate_succ, Nat.add_assoc, Nat.add_comm 1 k]

/-- The state in which the wait loop of the wrong-password dispatch returns:
the counter is BUZZER_FINISHED and the timer is still armed for `APP_buzzer`
with the compare threshold 3125. -/
theorem buzzer_end_armed (s : Ctrl) :
    (compareMatches 9 (APP_buzzer { s with g_ticks_buzzer := 0 })).timer.armed ∧
    (compareMatches 9 (APP_buzzer { s with g_ticks_buzzer := 0 })).timer.g_callBackPtr
      = some .APP_buzzer ∧
    (compareMatches 9 (APP_buzzer { s with g_ticks_buzzer := 0 })).timer.OCR1A = 3125 ∧
    (compareMatches 9 (APP_buzzer { s with g_ticks_buzzer := 0 })).g_ticks_buzzer = 10 ∧
    (compareMatches 9 (APP_buzzer { s with g_ticks_buzzer := 0 })).buzzerPin = 0 := by
  refine ⟨?_, ?_, ?_, ?_, ?_⟩ <;>
  simp +decide [compareMatches, compareMatch, TIMER1_COMPA_vect, callBack, APP_buzzer,
    Timer1.armed, startTimer1, call_Timer1_deInit, Timer1_init_eq, Timer1_deInit,
    Timer1_setCallBack, Buzzer_on, Buzzer_off, Nat.testBit_or, OCIE1A, F_CPU_DIVIDE_1024,
    CTC_OCR1A, SET_BIT]

/-- With the counter at 255, the next invocation wraps it to 0 and does
nothing else. -/
theorem buzzer_wrap_step (t : Ctrl) (ha : t.timer.armed)
    (hc : t.timer.g_callBackPtr = some .APP_buzzer) (hg : t.g_ticks_buzzer = 255) :
    compareMatch t
      = some { t with g_ticks_buzzer := 0, log := t.log ++ [.invoked .APP_buzzer] } := by
  simp +decide [compareMatch, ha, TIMER1_COMPA_vect, hc, callBack, APP_buzzer, hg]

/-- With the counter at 0, the next invocation is the first phase of the alarm
sequence again. -/
theorem buzzer_restart_step (t : Ctrl) (ha : t.timer.armed)
    (hc : t.timer.g_callBackPtr = some .APP_buzzer) (hg : t.g_ticks_buzzer = 0) :
    compareMatch t
      = some (startTimer1 0x00 62500 F_CPU_DIVIDE_1024 CTC_OCR1A .APP_buzzer
          (call_Timer1_deInit (Buzzer_on
            { t with g_ticks_buzzer := 1, log := t.log ++ [.invoked .APP_buzzer] }))) := by
  simp +decide [compareMatch, ha, TIMER1_COMPA_vect, hc, callBack, APP_buzzer, hg]

theorem filter_replicate_invoked (k : Nat) (f : CtrlFn) :
    (List.replicate k (Event.invoked f)).filter Event.isActuator = [] := by
  induction k with
  | zero => rfl
  | succ k ih => simp only [List.replicate_succ, List.filter_cons, Event.isActuator, ih]; rfl

/-- C12 (what the code does): `g_ticks_buzzer` is a `uint8` incremented by
one per invocation. When the alarm sequence has reached its terminal value the
timer is still armed for `APP_buzzer`; with the log emptied there, the next
246 invocations perform no actuator action while the counter goes to 255 and
wraps to 0, and the 247th finds it equal to 1 and calls `Buzzer_on` again: the
buzzer pin is high and the sequence has restarted. -/
theorem alarm_restarts_after_wrap (s : Ctrl) :
    (∀ n, n ≤ 246 →
      (compareMatches n
          { compareMatches 9 (APP_buzzer { s with g_ticks_buzzer := 0 }) with
            log := [] }).log.filter Event.isActuator = []) ∧
    (compareMatches 246
        { compareMatches 9 (APP_buzzer { s with g_ticks_buzzer := 0 }) with
          log := [] }).g_ticks_buzzer = 0 ∧
    (compareMatches 247
        { compareMatches 9 (APP_buzzer { s with g_ticks_buzzer := 0 }) with
          log := [] }).log.filter Event.isActuator = [.Buzzer_on] ∧
    (compareMatches 247
        { compareMatches 9 (APP_buzzer { s with g_ticks_buzzer := 0 }) with
          log := [] }).log.count (.invoked .APP_buzzer) = 247 ∧
    (compareMatches 247
        { compareMatches 9 (APP_buzzer { s with g_ticks_buzzer := 0 }) with
          log := [] }).g_ticks_buzzer = 1 ∧
    (compareMatches 247
        { compareMatches 9 (APP_buzzer { s with g_ticks_buzzer := 0 }) with
          log := [] }).buzzerPin = 1 ∧
    (∀ t : Ctrl, (APP_buzzer t).g_ticks_buzzer = (t.g_ticks_buzzer + 1) % 256) := by
  obtain ⟨ha, hc, -, hg, -⟩ := buzzer_end_armed s
  generalize compareMatches 9 (APP_buzzer { s with g_ticks_buzzer := 0 }) = T at ha hc hg ⊢
  have hidle : ∀ k, k ≤ 245 →
      compareMatches k { T with log := [] }
        = { T with
            g_ticks_buzzer := 10 + k
            log := List.replicate k (.invoked .APP_buzzer) } := by
    intro k hk
    have := compareMatches_idle k { T with log := [] } ha hc
      (by simp only [hg]; omega) (by simp only [hg]; omega)
    rw [this]
    simp [hg]
  have h246 : ∀ k, k = 245 → compareMatches (k + 1) { T with log := [] }
      = { T with
          g_ticks_buzzer := 0
          log := List.replicate k (.invoked .APP_buzzer) ++ [.invoked .APP_buzzer] } := by
    intro k hk
    rw [compareMatches_add, hidle k (by omega)]
    have hstep := buzzer_wrap_step
      { T with g_ticks_buzzer := 10 + k, log := List.replicate k (.invoked .APP_buzzer) }
      ha hc (by simp only; omega)
    simp only [compareMatches, hstep]
  have h247 : ∀ k, k = 245 → compareMatches (k + 1 + 1) { T with log := [] }
      = startTimer1 0x00 62500 F_CPU_DIVIDE_1024 CTC_OCR1A .APP_buzzer
          (call_Timer1_deInit (Buzzer_on
            { T with
              g_ticks_buzzer := 1
              log := List.replicate k (.invoked .APP_buzzer) ++ [.invoked .APP_buzzer]
                ++ [.invoked .APP_buzzer] })) := by
    intro k hk
    rw [compareMatches_add, h246 k hk]
    have hstep := buzzer_restart_step
      { T with
        g_ticks_buzzer := 0
        log := List.replicate k (.invoked .APP_buzzer) ++ [.invoked .APP_buzzer] }
      ha hc rfl
    simp only [compareMatches, hstep]
  refine ⟨?_, ?_, ?_, ?_, ?_, ?_, ?_⟩
  · intro n hn
    by_cases h : n ≤ 245
    · rw [hidle n h]; exact filter_replicate_invoked n _
    · have : n = 245 + 1 := by omega
      subst this
      rw [h246 245 rfl]
      simp only [List.filter_append, filter_replicate_invoked]
      rfl
  · rw [h246 245 rfl]
  · rw [h247 245 rfl]
    simp only [startTimer1, call_Timer1_deInit, Buzzer_on, List.filter_append,
      filter_replicate_invoked]
    rfl
  · rw [h247 245 rfl]
    simp only [startTimer1, call_Timer1_deInit, Buzzer_on, List.count_append,
      List.count_replicate_self]
    rfl
  · rw [h247 245 rfl]; rfl
  · rw [h247 245 rfl]; rfl
  · intro t
    simp only [APP_buzzer]
    repeat' split
    all_goals rfl

/-! ### Password creation -/

theorem checkSamePasswords_not_same_iff (A B : Buffer) :
    NOT_SAME = checkSamePasswords A B ↔ ¬ A.agree B := by
  have hiff : checkSamePasswords A B = SAME ↔ A.agree B := by
    have := checkSamePasswords_loop_iff A B PASSWORD_SIZE 0
    simpa [checkSamePasswords, PASSWORD_SIZE, Buffer.agree] using this
  have hcases := checkSamePasswords_loop_cases A B PASSWORD_SIZE 0
  have hne : SAME ≠ NOT_SAME := by decide
  rw [← hiff]
  constructor
  · intro h1 h2; exact hne (h2.symm.trans h1.symm)
  · intro h1
    rcases hcases with h | h
    · exact absurd h h1
    · exact h.symm

theorem received_agree_received (p q A B : Buffer) :
    (p.received A).agree (q.received B) ↔ A.agree B := by
  unfold Buffer.agree Buffer.received PASSWORD_SIZE
  constructor
  · intro h i hi; have := h i hi; simpa [hi] using this
  · intro h i hi; simpa [hi] using h i hi

/-- The transfer of the two entries of a creation round. -/
theorem receiveTwo_round (p1 p2 A B : Buffer) (s : Ctrl) (tail : List Nat)
    (hrx : s.rx = A.bytes ++ (B.bytes ++ tail)) :
    receiveTwoPasswordsFrom_HMI_ECU p1 p2 s
      = .returned (p1.received A, p2.received B)
          { s with
            rx := tail
            log := s.log ++ (exchange A.bytes ++ exchange B.bytes) } := by
  have e1 := receivePassword_frame p1 A s _ hrx
  have e2 := receivePassword_frame p2 B
    { s with rx := B.bytes ++ tail, log := s.log ++ exchange A.bytes } tail rfl
  unfold receivePasswordFrom_HMI_ECU at e1 e2
  simp only [receiveTwoPasswordsFrom_HMI_ECU, e1, Outcome.bind, e2, List.append_assoc]

/-- The first iteration of the creation loop: `samePasswordFlag` is SAME, no
answer is due. -/
theorem setPassword_loop_first (fuel : Nat) (l : Locals) (s : Ctrl) (A B : Buffer)
    (tail : List Nat) (hf : l.samePasswordFlag = SAME)
    (hrx : s.rx = A.bytes ++ (B.bytes ++ tail)) :
    setPassword.loop (fuel + 1) l s
      = if A.agree B then .returned (l.afterRound A B) (afterRound [] A B tail s)
        else setPassword.loop fuel (l.afterRound A B) (afterRound [] A B tail s) := by
  have hns := checkSamePasswords_not_same_iff (l.firstPassword.received A)
    (l.secondPassword.received B)
  rw [received_agree_received] at hns
  have hcond : ¬ (l.samePasswordFlag ≠ SAME) := fun h => h hf
  simp only [setPassword.loop, if_neg hcond, Outcome.bind,
    receiveTwo_round l.firstPassword l.secondPassword A B s tail hrx, hns]
  by_cases h : A.agree B
  · simp [h, Locals.afterRound, afterRound]
  · simp [h, Locals.afterRound, afterRound]

/-- A later iteration of the creation loop: `samePasswordFlag` is not SAME,
the loop reads up to MC1_READY and answers NOT_SAME before it receives the
round. -/
theorem setPassword_loop_later (fuel : Nat) (l : Locals) (s : Ctrl) (A B : Buffer)
    (junk tail : List Nat) (hf : l.samePasswordFlag ≠ SAME) (hj : MC1_READY ∉ junk)
    (hrx : s.rx = junk ++ MC1_READY :: (A.bytes ++ (B.bytes ++ tail))) :
    setPassword.loop (fuel + 1) l s
      = if A.agree B then
          .returned (l.afterRound A B)
            (afterRound ((junk ++ [MC1_READY]).map .UART_recieveByte ++ [.UART_sendByte NOT_SAME])
              A B tail s)
        else
          setPassword.loop fuel (l.afterRound A B)
            (afterRound ((junk ++ [MC1_READY]).map .UART_recieveByte ++ [.UART_sendByte NOT_SAME])
              A B tail s) := by
  have hns := checkSamePasswords_not_same_iff (l.firstPassword.received A)
    (l.secondPassword.received B)
  rw [received_agree_received] at hns
  have e2 := receiveTwo_round l.firstPassword l.secondPassword A B
    (UART_sendByte NOT_SAME
      { s with
        rx := A.bytes ++ (B.bytes ++ tail)
        log := s.log ++ (junk ++ [MC1_READY]).map .UART_recieveByte }) tail rfl
  simp only [setPassword.loop, if_pos hf, Outcome.bind,
    awaitByte_append MC1_READY junk _ hj s hrx, e2, hns]
  by_cases h : A.agree B
  · simp [h, Locals.afterRound, afterRound, UART_sendByte]
  · simp [h, Locals.afterRound, afterRound, UART_sendByte]

theorem replies_append (a b : List Event) : replies (a ++ b) = replies a ++ replies b := by
  simp [replies, sentBytes_append, List.filter_append]

theorem replies_received (l : List Nat) : replies (l.map .UART_recieveByte) = [] := by
  simp [replies, sentBytes_received]

theorem replies_exchange (bs : List Nat) : replies (exchange bs) = [] := by
  simp [replies, sentBytes_exchange, List.filter_eq_nil_iff]

theorem saves_append (a b : List Event) : saves (a ++ b) = saves a ++ saves b := by
  simp [saves, List.filterMap_append]

theorem saves_of_quiet (log : List Event) (h : quietLog log = true) : saves log = [] := by
  induction log with
  | nil => rfl
  | cons e log ih =>
    rw [quietLog_cons] at h
    simp only [Bool.and_eq_true, Bool.not_eq_true'] at h
    have := ih h.2
    cases e <;> simp_all [saves, Event.isDoorOrSave]

theorem saves_received (l : List Nat) : saves (l.map .UART_recieveByte) = [] :=
  saves_of_quiet _ (quietLog_received l)

theorem quietLog_exchange (bs : List Nat) : quietLog (exchange bs) = true := by
  induction bs with
  | nil => rfl
  | cons b bs ih => simp [exchange, quietLog_cons, ih, Event.isDoorOrSave]

theorem saves_exchange (bs : List Nat) : saves (exchange bs) = [] :=
  saves_of_quiet _ (quietLog_exchange bs)

theorem replies_sent (b : Nat) (h : b ≠ MC2_READY) : replies [.UART_sendByte b] = [b] := by
  simp [replies, sentBytes, h]

theorem replies_cons_sent (b : Nat) (l : List Event) (h : b ≠ MC2_READY) :
    replies (.UART_sendByte b :: l) = b :: replies l := by
  simp [replies, sentBytes, h]

theorem saves_cons_sent (b : Nat) (l : List Event) :
    saves (.UART_sendByte b :: l) = saves l := by
  simp [saves]

theorem roundsStream_append (rs : List (Buffer × Buffer)) (r : Buffer × Buffer) :
    roundsStream (rs ++ [r]) = roundsStream rs ++ roundBytes r := by
  induction rs with
  | nil => simp [roundsStream]
  | cons a rs ih => simp [roundsStream, ih]

/-- A run of later iterations of the creation loop on mismatched rounds: as
long as `samePasswordFlag` has not come back to SAME, each round is answered
NOT_SAME at the start of the next iteration and nothing is saved. -/
theorem setPassword_loop_mismatches (rs : List (Buffer × Buffer)) :
    ∀ (j fuel : Nat) (l : Locals) (s : Ctrl) (tail : List Nat),
    j + rs.length ≤ 255 → l.samePasswordFlag = (2 + j) % 256 →
    (∀ r, r ∈ rs → ¬ r.1.agree r.2) →
    s.rx = MC1_READY :: (roundsStream rs ++ tail) →
    ∃ l1 s1, setPassword.loop (fuel + rs.length) l s = setPassword.loop fuel l1 s1 ∧
      l1.samePasswordFlag = (2 + j + rs.length) % 256 ∧ s1.rx = MC1_READY :: tail ∧
      replies s1.log = replies s.log ++ List.replicate rs.length NOT_SAME ∧
      s1.eeprom = s.eeprom ∧ saves s1.log = saves s.log := by
  induction rs with
  | nil =>
    intro j fuel l s tail _ hf _ hrx
    exact ⟨l, s, rfl, by simpa using hf, by simpa [roundsStream] using hrx, by simp, rfl, rfl⟩
  | cons r rs ih =>
    intro j fuel l s tail hj hf hmis hrx
    simp only [List.length_cons] at hj ⊢
    have hfne : l.samePasswordFlag ≠ SAME := by
      rw [hf]; simp only [SAME]; omega
    have hrx2 : s.rx = [] ++ MC1_READY ::
        (r.1.bytes ++ (r.2.bytes ++ (MC1_READY :: (roundsStream rs ++ tail)))) := by
      simp [hrx, roundsStream, roundBytes]
    have hstep := setPassword_loop_later (fuel + rs.length) l s r.1 r.2 [] _ hfne (by simp) hrx2
    rw [if_neg (hmis r (by simp))] at hstep
    obtain ⟨l1, s1, h1, h2, h3, h4, h5, h6⟩ := ih (j + 1) fuel (l.afterRound r.1 r.2)
      (afterRound (([] ++ [MC1_READY]).map .UART_recieveByte ++ [.UART_sendByte NOT_SAME])
        r.1 r.2 (MC1_READY :: (roundsStream rs ++ tail)) s) tail (by omega)
      (by simp only [Locals.afterRound, hf]; omega)
      (fun q hq => hmis q (by simp [hq])) rfl
    refine ⟨l1, s1, ?_, ?_, h3, ?_, h5, ?_⟩
    · rw [← h1, ← hstep, Nat.add_assoc]
    · rw [h2]; congr 1; omega
    · rw [h4]
      simp only [afterRound, replies_append, replies_exchange, replies_received,
        replies_sent NOT_SAME (by decide), replies_cons_sent NOT_SAME _ (by decide),
        List.append_nil, List.nil_append, List.replicate_succ, List.append_assoc,
        List.singleton_append, List.cons_append]
    · rw [h6]
      simp only [afterRound, saves_append, saves_exchange, saves_received, saves_cons_sent,
        List.append_nil, List.singleton_append]
      simp [saves]

/-- C13 (what the code does): `samePasswordFlag` is a `uint8` that starts at
SAME = 1 and is incremented once per round. On 256 creation rounds whose two
entries differ, the control node answers the first 255 with NOT_SAME; after
the 256th the flag has wrapped to SAME, so the loop neither waits for
MC1_READY nor answers: it sends MC2_READY, takes the MC1_READY of the HMI node
for the first byte of the next entry, sends MC2_READY again and waits. -/
theorem creation_round_unanswered (l : Locals) (s : Ctrl) (fuel : Nat)
    (rs : List (Buffer × Buffer)) (hlen : rs.length = 256)
    (hmis : ∀ r, r ∈ rs → ¬ r.1.agree r.2) :
    (∃ l2 s2,
      setPassword.loop (fuel + 257) { l with samePasswordFlag := SAME }
          { s with rx := roundsStream rs, log := [] }
        = setPassword.loop (fuel + 1) l2 s2 ∧
      l2.samePasswordFlag = SAME ∧ s2.rx = [MC1_READY] ∧
      replies s2.log = List.replicate 255 NOT_SAME) ∧
    (∃ t pre,
      setPassword (fuel + 257) l { s with rx := roundsStream rs, log := [] } = .blocked t ∧
      replies t.log = List.replicate 255 NOT_SAME ∧ t.rx = [] ∧
      t.log = pre ++ [.UART_sendByte MC2_READY, .UART_recieveByte MC1_READY,
        .UART_sendByte MC2_READY] ∧
      t.eeprom = s.eeprom) := by
  match rs, hlen with
  | r :: rs, hlen =>
    have hlen : rs.length = 255 := by simpa using hlen
    have hrx1 : ({ s with rx := roundsStream (r :: rs), log := [] } : Ctrl).rx
        = r.1.bytes ++ (r.2.bytes ++ (MC1_READY :: (roundsStream rs ++ []))) := by
      simp [roundsStream, roundBytes]
    have hstep := setPassword_loop_first (fuel + 256) { l with samePasswordFlag := SAME }
      { s with rx := roundsStream (r :: rs), log := [] } r.1 r.2 _ rfl hrx1
    rw [if_neg (hmis r (by simp))] at hstep
    obtain ⟨l2, s2, h1, h2, h3, h4, h5, -⟩ := setPassword_loop_mismatches rs 0 (fuel + 1)
      (Locals.afterRound { l with samePasswordFlag := SAME } r.1 r.2)
      (afterRound [] r.1 r.2 (MC1_READY :: (roundsStream rs ++ []))
        { s with rx := roundsStream (r :: rs), log := [] }) [] (by omega) rfl
      (fun q hq => hmis q (by simp [hq])) rfl
    rw [hlen] at h1 h2 h4
    have hflag : l2.samePasswordFlag = SAME := by rw [h2]; rfl
    have hrep : replies s2.log = List.replicate 255 NOT_SAME := by
      rw [h4]
      simp only [afterRound, replies_append, replies_exchange, List.append_nil,
        List.nil_append]
    have hloop : setPassword.loop (fuel + 257) { l with samePasswordFlag := SAME }
          { s with rx := roundsStream (r :: rs), log := [] }
        = setPassword.loop (fuel + 1) l2 s2 := by
      rw [← h1]; exact hstep
    refine ⟨⟨l2, s2, hloop, hflag, h3, hrep⟩, ?_⟩
    have hcond : ¬ (l2.samePasswordFlag ≠ SAME) := fun h => h hflag
    refine ⟨{ s2 with
        rx := []
        log := s2.log ++ [.UART_sendByte MC2_READY] ++ [.UART_recieveByte MC1_READY]
          ++ [.UART_sendByte MC2_READY] }, s2.log, ?_, ?_, ?_, ?_, ?_⟩
    · rw [setPassword, hloop, setPassword.loop, if_neg hcond]
      simp only [Outcome.bind, receiveTwoPasswordsFrom_HMI_ECU, PASSWORD_SIZE,
        receivePasswordFrom_HMI_ECU.loop, UART_recieveByte, UART_sendByte, h3]
    · have htail : replies [Event.UART_sendByte MC2_READY] = [] := by decide
      have hrx : replies [Event.UART_recieveByte MC1_READY] = [] := by decide
      simp only [replies_append, hrep, htail, hrx, List.append_nil]
    · rfl
    · simp only [List.append_assoc, List.singleton_append, List.cons_append, List.nil_append]
    · exact h5

/-- Witness of C13: 256 rounds of [1,2,3,4,5] against [5,4,3,2,1]. -/
theorem creation_round_unanswered_witness :
    ∃ t pre,
      setPassword 257 Locals.start
          { powerOn with
            rx := roundsStream
              (List.replicate 256 (Buffer.ofList [1, 2, 3, 4, 5], Buffer.ofList [5, 4, 3, 2, 1]))
            log := [] } = .blocked t ∧
      replies t.log = List.replicate 255 NOT_SAME ∧ t.rx = [] ∧
      t.log = pre ++ [.UART_sendByte MC2_READY, .UART_recieveByte MC1_READY,
        .UART_sendByte MC2_READY] ∧
      t.eeprom = powerOn.eeprom :=
  (creation_round_unanswered Locals.start powerOn 0
    (List.replicate 256 (Buffer.ofList [1, 2, 3, 4, 5], Buffer.ofList [5, 4, 3, 2, 1]))
    (List.length_replicate _ _)
    (fun r hr => by rw [List.eq_of_mem_replicate hr]; decide)).2

/-! ### Persisting twice -/

/-- Saving the same password twice at the same 16-bit address leaves the store
that saving it once leaves. -/
theorem savePasswordInEEPROM_twice (mem : EEPROM) (a : Nat) (P : Buffer) (ha : a < 65536) :
    savePasswordInEEPROM (savePasswordInEEPROM mem a P) a P = savePasswordInEEPROM mem a P := by
  have h1 := fun m => savePasswordInEEPROM_loop_read P PASSWORD_SIZE 0 a m ha (by decide)
  funext x
  by_cases hx : ∃ j, j < PASSWORD_SIZE ∧ x = (a + j) % 65536
  · obtain ⟨j, hj, rfl⟩ := hx
    have e1 := (h1 (savePasswordInEEPROM mem a P)).1 j hj
    have e2 := (h1 mem).1 j hj
    exact e1.trans e2.symm
  · have hx2 : ∀ j, j < PASSWORD_SIZE → x ≠ (a + j) % 65536 := fun j hj e => hx ⟨j, hj, e⟩
    have e1 := (h1 (savePasswordInEEPROM mem a P)).2 x hx2
    have e2 := (h1 mem).2 x hx2
    exact e1

/-- C15: idempotence of persisting. Calling
`savePasswordInEEPROM(PASSWORD_ADDRESS, P)` twice in succession leaves the same
EEPROM content as calling it once, so `checkOnPassword(PASSWORD_ADDRESS, C)`
gives the same result for every candidate C after one save and after two. -/
theorem save_idempotent (mem : EEPROM) (P : Buffer) :
    savePasswordInEEPROM (savePasswordInEEPROM mem PASSWORD_ADDRESS P) PASSWORD_ADDRESS P
      = savePasswordInEEPROM mem PASSWORD_ADDRESS P ∧
    (∀ C : Buffer,
      (checkOnPassword
          (savePasswordInEEPROM (savePasswordInEEPROM mem PASSWORD_ADDRESS P) PASSWORD_ADDRESS P)
          PASSWORD_ADDRESS C).2
        = (checkOnPassword (savePasswordInEEPROM mem PASSWORD_ADDRESS P) PASSWORD_ADDRESS C).2) ∧
    (∀ s : Ctrl,
      (call_savePasswordInEEPROM PASSWORD_ADDRESS P
          (call_savePasswordInEEPROM PASSWORD_ADDRESS P s)).eeprom
        = (call_savePasswordInEEPROM PASSWORD_ADDRESS P s).eeprom) := by
  have h := fun m => savePasswordInEEPROM_twice m PASSWORD_ADDRESS P (by decide)
  refine ⟨h mem, ?_, ?_⟩
  · intro C; rw [h mem]
  · intro s; exact h s.eeprom

/-! ### No persistence while rounds mismatch -/

/-- Sequencing keeps an invariant of the log and of the EEPROM that each part
keeps. -/
theorem bind_quiet {α β : Type} (o : Outcome α) (f : α → Ctrl → Outcome β) (e : EEPROM)
    (ho : quietLog o.state.log = true ∧ o.state.eeprom = e)
    (hf : ∀ a t, o = .returned a t → quietLog t.log = true → t.eeprom = e →
      quietLog (f a t).state.log = true ∧ (f a t).state.eeprom = e) :
    quietLog (o.bind f).state.log = true ∧ (o.bind f).state.eeprom = e := by
  cases o with
  | returned a t => exact hf a t rfl ho.1 ho.2
  | blocked t => exact ho
  | spinning t => exact ho
  | outOfFuel t => exact ho

theorem bind_returned {α β : Type} (o : Outcome α) (f : α → Ctrl → Outcome β) (b : β)
    (t : Ctrl) (h : o.bind f = .returned b t) :
    ∃ a s, o = .returned a s ∧ f a s = .returned b t := by
  cases o with
  | returned a s => exact ⟨a, s, rfl, h⟩
  | blocked s => simp [Outcome.bind] at h
  | spinning s => simp [Outcome.bind] at h
  | outOfFuel s => simp [Outcome.bind] at h

theorem receiveTwo_quiet (p1 p2 : Buffer) (s : Ctrl) (h : quietLog s.log = true) :
    quietLog (receiveTwoPasswordsFrom_HMI_ECU p1 p2 s).state.log = true ∧
      (receiveTwoPasswordsFrom_HMI_ECU p1 p2 s).state.eeprom = s.eeprom := by
  unfold receiveTwoPasswordsFrom_HMI_ECU
  apply bind_quiet _ _ _ (receive_loop_quiet PASSWORD_SIZE 0 p1 s h)
  intro q1 t1 _ hq1 he1
  apply bind_quiet
  · have := receive_loop_quiet PASSWORD_SIZE 0 p2 t1 hq1
    exact ⟨this.1, this.2.trans he1⟩
  · intro q2 t2 _ hq2 he2
    exact ⟨hq2, he2⟩

/-- The creation loop never writes the EEPROM and never calls
`savePasswordInEEPROM`, whatever it receives and however it ends. -/
theorem setPassword_loop_quiet (fuel : Nat) : ∀ (l : Locals) (s : Ctrl),
    quietLog s.log = true →
    quietLog (setPassword.loop fuel l s).state.log = true ∧
      (setPassword.loop fuel l s).state.eeprom = s.eeprom := by
  induction fuel with
  | zero => intro l s h; exact ⟨h, rfl⟩
  | succ fuel ih =>
    intro l s h
    unfold setPassword.loop
    apply bind_quiet
    · by_cases hf : l.samePasswordFlag ≠ SAME
      · rw [if_pos hf]
        apply bind_quiet _ _ _ ⟨(awaitByte_state MC1_READY s).1 h, (awaitByte_state MC1_READY s).2⟩
        intro _ t _ hq he
        refine ⟨?_, he⟩
        simp [Outcome.state, UART_sendByte, quietLog_append, quietLog_cons, quietLog_nil, hq,
          Event.isDoorOrSave]
      · rw [if_neg hf]; exact ⟨h, rfl⟩
    · intro _ t2 _ hq2 he2
      apply bind_quiet
      · have := receiveTwo_quiet l.firstPassword l.secondPassword t2 hq2
        exact ⟨this.1, this.2.trans he2⟩
      · intro p t3 _ hq3 he3
        dsimp only
        split
        · exact ⟨(ih _ t3 hq3).1, ((ih _ t3 hq3).2).trans he3⟩
        · exact ⟨hq3, he3⟩

/-- The creation loop is left only with two entries that agree. -/
theorem setPassword_loop_agree (fuel : Nat) : ∀ (l : Locals) (s : Ctrl) (l1 : Locals) (t : Ctrl),
    setPassword.loop fuel l s = .returned l1 t → l1.firstPassword.agree l1.secondPassword := by
  induction fuel with
  | zero => intro l s l1 t h; simp [setPassword.loop] at h
  | succ fuel ih =>
    intro l s l1 t h
    unfold setPassword.loop at h
    obtain ⟨_, s2, -, h⟩ := bind_returned _ _ _ _ h
    obtain ⟨p, s3, -, h⟩ := bind_returned _ _ _ _ h
    dsimp only at h
    split at h
    · exact ih _ _ _ _ h
    · rename_i hns
      have hiff := checkSamePasswords_not_same_iff p.1 p.2
      have hag : p.1.agree p.2 := by
        by_contra hc
        exact hns (hiff.mpr hc)
      cases h
      exact hag

theorem savePasswordInEEPROM_congr (mem : EEPROM) (a : Nat) (P Q : Buffer) (h : P.agree Q) :
    savePasswordInEEPROM mem a P = savePasswordInEEPROM mem a Q := by
  simp only [savePasswordInEEPROM, PASSWORD_SIZE, savePasswordInEEPROM.loop,
    h 0 (by decide), h 1 (by decide), h 2 (by decide), h 3 (by decide), h 4 (by decide)]

theorem bytes_congr (P Q : Buffer) (h : P.agree Q) : P.bytes = Q.bytes := by
  simp only [Buffer.bytes, PASSWORD_SIZE, List.range, List.range.loop, List.map,
    h 0 (by decide), h 1 (by decide), h 2 (by decide), h 3 (by decide), h 4 (by decide)]

/-- The creation loop on `rs`, at most 255 rounds whose entries differ, then a
round whose entries agree: it returns after the last round, each mismatched
round answered NOT_SAME, nothing saved. -/
theorem setPassword_loop_rounds (rs : List (Buffer × Buffer)) (A B : Buffer)
    (tail : List Nat) (l : Locals) (s : Ctrl) (fuel : Nat) (hlen : rs.length ≤ 255)
    (hmis : ∀ r, r ∈ rs → ¬ r.1.agree r.2) (hAB : A.agree B) :
    ∃ l1 s1,
      setPassword.loop (fuel + rs.length + 1) { l with samePasswordFlag := SAME }
          { s with rx := roundsStream (rs ++ [(A, B)]) ++ tail, log := [] }
        = .returned l1 s1 ∧
      l1.firstPassword.agree A ∧ s1.rx = MC1_READY :: tail ∧
      replies s1.log = List.replicate rs.length NOT_SAME ∧
      s1.eeprom = s.eeprom ∧ saves s1.log = [] := by
  cases rs with
  | nil =>
    have hrx : ({ s with rx := roundsStream ([] ++ [(A, B)]) ++ tail, log := [] } : Ctrl).rx
        = A.bytes ++ (B.bytes ++ (MC1_READY :: tail)) := by
      simp [roundsStream, roundBytes]
    have hstep := setPassword_loop_first fuel { l with samePasswordFlag := SAME }
      { s with rx := roundsStream ([] ++ [(A, B)]) ++ tail, log := [] } A B _ rfl hrx
    rw [if_pos hAB] at hstep
    refine ⟨_, _, hstep, ?_, rfl, ?_, rfl, ?_⟩
    · exact (received_agree _ A A).mpr (fun _ _ => rfl)
    · simp only [afterRound, replies_append, replies_exchange, List.append_nil,
        List.nil_append, List.length_nil, List.replicate_zero]
    · simp only [afterRound, saves_append, saves_exchange, List.append_nil, List.nil_append]
  | cons r rs =>
    simp only [List.length_cons] at hlen ⊢
    have hrx : ({ s with rx := roundsStream (r :: rs ++ [(A, B)]) ++ tail, log := [] } : Ctrl).rx
        = r.1.bytes ++ (r.2.bytes ++ (MC1_READY ::
            (roundsStream rs ++ (A.bytes ++ (B.bytes ++ (MC1_READY :: tail)))))) := by
      simp [roundsStream, roundBytes, roundsStream_append]
    have hstep := setPassword_loop_first (fuel + 1 + rs.length)
      { l with samePasswordFlag := SAME }
      { s with rx := roundsStream (r :: rs ++ [(A, B)]) ++ tail, log := [] } r.1 r.2 _ rfl hrx
    rw [if_neg (hmis r (by simp))] at hstep
    obtain ⟨l2, s2, h1, h2, h3, h4, h5, h6⟩ := setPassword_loop_mismatches rs 0 (fuel + 1)
      (Locals.afterRound { l with samePasswordFlag := SAME } r.1 r.2)
      (afterRound [] r.1 r.2
        (MC1_READY :: (roundsStream rs ++ (A.bytes ++ (B.bytes ++ (MC1_READY :: tail)))))
        { s with rx := roundsStream (r :: rs ++ [(A, B)]) ++ tail, log := [] })
      (A.bytes ++ (B.bytes ++ (MC1_READY :: tail))) (by omega) rfl
      (fun q hq => hmis q (by simp [hq])) rfl
    have hmod : (2 + 0 + rs.length) % 256 ≠ 1 := by omega
    have hfne : l2.samePasswordFlag ≠ SAME := by
      rw [h2]; exact hmod
    have hlast := setPassword_loop_later fuel l2 s2 A B [] (MC1_READY :: tail) hfne (by simp)
      (by simpa using h3)
    rw [if_pos hAB] at hlast
    have hfuel : fuel + (rs.length + 1) + 1 = fuel + 1 + rs.length + 1 := by omega
    refine ⟨l2.afterRound A B,
      afterRound (([] ++ [MC1_READY]).map .UART_recieveByte ++ [.UART_sendByte NOT_SAME])
        A B (MC1_READY :: tail) s2, ?_, ?_, ?_, ?_, ?_, ?_⟩
    · rw [hfuel, hstep, h1, hlast]
    · exact (received_agree _ A A).mpr (fun _ _ => rfl)
    · rfl
    · simp only [afterRound, replies_append, replies_exchange, replies_received,
        replies_sent NOT_SAME (by decide), h4, List.append_nil, List.nil_append,
        List.replicate_succ', List.append_assoc]
    · simp only [afterRound, h5]
    · simp only [afterRound, saves_append, saves_exchange, saves_received, h6,
        List.append_nil, List.nil_append]
      rfl

/-- A creation phase, whatever it receives: if it returns it has called
`savePasswordInEEPROM` once, as its last action, at PASSWORD_ADDRESS and with
the first entry, which agrees with the second; if it does not return it has
saved nothing. -/
theorem setPassword_saves (n : Nat) (l : Locals) (s : Ctrl) (hq : quietLog s.log = true) :
    match setPassword n l s with
    | .returned l1 t =>
      l1.firstPassword.agree l1.secondPassword ∧
      (∃ pre, quietLog pre = true ∧
        t.log = pre ++ [.savePasswordInEEPROM PASSWORD_ADDRESS l1.firstPassword.bytes]) ∧
      t.eeprom = savePasswordInEEPROM s.eeprom PASSWORD_ADDRESS l1.firstPassword
    | o => quietLog o.state.log = true ∧ o.state.eeprom = s.eeprom := by
  have hloop := setPassword_loop_quiet n { l with samePasswordFlag := SAME } s hq
  have hag := setPassword_loop_agree n { l with samePasswordFlag := SAME } s
  unfold setPassword
  cases hL : setPassword.loop n { l with samePasswordFlag := SAME } s with
  | returned l1 s1 =>
    rw [hL] at hloop
    simp only [Outcome.state] at hloop
    have hw := awaitByte_state MC1_READY s1
    cases hA : awaitByte MC1_READY s1 with
    | returned u s2 =>
      rw [hA] at hw
      simp only [Outcome.state] at hw
      simp only [Outcome.bind, hA]
      refine ⟨hag l1 s1 hL, ⟨s2.log ++ [Event.UART_sendByte SAME], ?_, rfl⟩, ?_⟩
      · simp [quietLog_append, quietLog_cons, quietLog_nil, hw.1 hloop.1, Event.isDoorOrSave]
      · simp only [call_savePasswordInEEPROM, UART_sendByte, hw.2, hloop.2]
    | blocked s2 =>
      rw [hA] at hw
      simp only [Outcome.state] at hw
      simp only [Outcome.bind, hA]
      exact ⟨hw.1 hloop.1, hw.2.trans hloop.2⟩
    | spinning s2 =>
      rw [hA] at hw
      simp only [Outcome.state] at hw
      simp only [Outcome.bind, hA]
      exact ⟨hw.1 hloop.1, hw.2.trans hloop.2⟩
    | outOfFuel s2 =>
      rw [hA] at hw
      simp only [Outcome.state] at hw
      simp only [Outcome.bind, hA]
      exact ⟨hw.1 hloop.1, hw.2.trans hloop.2⟩
  | blocked s1 => rw [hL] at hloop; exact hloop
  | spinning s1 => rw [hL] at hloop; exact hloop
  | outOfFuel s1 => rw [hL] at hloop; exact hloop

/-- Creation rounds below the wrap of `samePasswordFlag`. In a
password-creation phase of the control node (started with an empty log),
whatever bytes arrive: the loop over the
rounds never writes the EEPROM and never calls `savePasswordInEEPROM`; a phase
that returns has called it exactly once, as its last action, at
PASSWORD_ADDRESS with the first entry of the round that ended the loop, whose
two entries agree; a phase that does not return has not called it. On at most
255 rounds whose entries differ followed by a round (A, B) whose entries agree,
the phase returns having answered NOT_SAME to each mismatched round and SAME to
the last, and the one call stores A. The round A = [1,2,3,4,5],
B = [5,4,3,2,1] is answered NOT_SAME and leaves the stored password as it
was. -/
theorem no_persistence_on_mismatch (l : Locals) (s : Ctrl) (fuel : Nat)
    (rs : List (Buffer × Buffer)) (A B : Buffer) (tail : List Nat)
    (hlen : rs.length ≤ 255) (hmis : ∀ r, r ∈ rs → ¬ r.1.agree r.2) (hAB : A.agree B) :
    (∀ (rx : List Nat) (n : Nat) (l0 : Locals),
      saves (setPassword.loop n l0 { s with rx := rx, log := [] }).state.log = [] ∧
      (setPassword.loop n l0 { s with rx := rx, log := [] }).state.eeprom = s.eeprom) ∧
    (∀ (rx : List Nat) (n : Nat),
      match setPassword n l { s with rx := rx, log := [] } with
      | .returned l1 t =>
        l1.firstPassword.agree l1.secondPassword ∧
        saves t.log = [(PASSWORD_ADDRESS, l1.firstPassword.bytes)] ∧
        (∃ pre, saves pre = [] ∧
          t.log = pre ++ [.savePasswordInEEPROM PASSWORD_ADDRESS l1.firstPassword.bytes]) ∧
        t.eeprom = savePasswordInEEPROM s.eeprom PASSWORD_ADDRESS l1.firstPassword
      | o => saves o.state.log = [] ∧ o.state.eeprom = s.eeprom) ∧
    (∃ l1 t,
      setPassword (fuel + rs.length + 1) l
          { s with rx := roundsStream (rs ++ [(A, B)]) ++ tail, log := [] }
        = .returned l1 t ∧
      saves t.log = [(PASSWORD_ADDRESS, A.bytes)] ∧
      t.eeprom = savePasswordInEEPROM s.eeprom PASSWORD_ADDRESS A ∧
      replies t.log = List.replicate rs.length NOT_SAME ++ [SAME] ∧ t.rx = tail) ∧
    (∃ t,
      setPassword (fuel + 2) l
          { s with
            rx := roundsStream [(Buffer.ofList [1, 2, 3, 4, 5], Buffer.ofList [5, 4, 3, 2, 1])]
            log := [] }
        = .blocked t ∧
      replies t.log = [NOT_SAME] ∧ saves t.log = [] ∧ t.eeprom = s.eeprom ∧
      storedPassword t.eeprom = storedPassword s.eeprom) := by
  refine ⟨?_, ?_, ?_, ?_⟩
  · intro rx n l0
    have h := setPassword_loop_quiet n l0 { s with rx := rx, log := [] } quietLog_nil
    exact ⟨saves_of_quiet _ h.1, h.2⟩
  · intro rx n
    have h := setPassword_saves n l { s with rx := rx, log := [] } quietLog_nil
    cases hS : setPassword n l { s with rx := rx, log := [] } with
    | returned l1 t =>
      rw [hS] at h
      obtain ⟨h1, ⟨pre, hp, hlog⟩, h3⟩ := h
      refine ⟨h1, ?_, ⟨pre, saves_of_quiet _ hp, hlog⟩, h3⟩
      rw [hlog, saves_append, saves_of_quiet _ hp]
      rfl
    | blocked t => rw [hS] at h; exact ⟨saves_of_quiet _ h.1, h.2⟩
    | spinning t => rw [hS] at h; exact ⟨saves_of_quiet _ h.1, h.2⟩
    | outOfFuel t => rw [hS] at h; exact ⟨saves_of_quiet _ h.1, h.2⟩
  · obtain ⟨l1, s1, h1, h2, h3, h4, h5, h6⟩ :=
      setPassword_loop_rounds rs A B tail l s fuel hlen hmis hAB
    have hw := awaitByte_append MC1_READY [] tail (by simp) s1 (by simpa using h3)
    refine ⟨l1, call_savePasswordInEEPROM PASSWORD_ADDRESS l1.firstPassword
      (UART_sendByte SAME
        { s1 with rx := tail, log := s1.log ++ ([] ++ [MC1_READY]).map .UART_recieveByte }),
      ?_, ?_, ?_, ?_, ?_⟩
    · rw [setPassword, h1]
      simp only [Outcome.bind, hw]
    · simp only [call_savePasswordInEEPROM, UART_sendByte, saves_append, h6, saves_received,
        List.nil_append, bytes_congr _ _ h2]
      rfl
    · simp only [call_savePasswordInEEPROM, UART_sendByte, h5]
      exact savePasswordInEEPROM_congr _ _ _ _ h2
    · have hsave : replies [Event.savePasswordInEEPROM PASSWORD_ADDRESS l1.firstPassword.bytes]
          = [] := rfl
      simp only [call_savePasswordInEEPROM, UART_sendByte, replies_append, h4, replies_received,
        replies_sent SAME (by decide), hsave, List.append_nil]
    · rfl
  · have hrx : ({ s with
          rx := roundsStream [(Buffer.ofList [1, 2, 3, 4, 5], Buffer.ofList [5, 4, 3, 2, 1])]
          log := [] } : Ctrl).rx
        = (Buffer.ofList [1, 2, 3, 4, 5]).bytes ++
            ((Buffer.ofList [5, 4, 3, 2, 1]).bytes ++ [MC1_READY]) := by
      simp [roundsStream, roundBytes]
    have hstep := setPassword_loop_first (fuel + 1) { l with samePasswordFlag := SAME }
      { s with
        rx := roundsStream [(Buffer.ofList [1, 2, 3, 4, 5], Buffer.ofList [5, 4, 3, 2, 1])]
        log := [] }
      (Buffer.ofList [1, 2, 3, 4, 5]) (Buffer.ofList [5, 4, 3, 2, 1]) _ rfl hrx
    rw [if_neg (by decide)] at hstep
    have hfne : (Locals.afterRound { l with samePasswordFlag := SAME }
        (Buffer.ofList [1, 2, 3, 4, 5]) (Buffer.ofList [5, 4, 3, 2, 1])).samePasswordFlag
          ≠ SAME := by simp [Locals.afterRound, SAME]
    have hw := awaitByte_append MC1_READY [] [] (by simp)
      (afterRound [] (Buffer.ofList [1, 2, 3, 4, 5]) (Buffer.ofList [5, 4, 3, 2, 1]) [MC1_READY]
        { s with
          rx := roundsStream [(Buffer.ofList [1, 2, 3, 4, 5], Buffer.ofList [5, 4, 3, 2, 1])]
          log := [] }) rfl
    have hrun : ∃ t,
        setPassword (fuel + 2) l
            { s with
              rx := roundsStream
                [(Buffer.ofList [1, 2, 3, 4, 5], Buffer.ofList [5, 4, 3, 2, 1])]
              log := [] }
          = .blocked t ∧
        replies t.log = [NOT_SAME] := by
      rw [setPassword, hstep, setPassword.loop, if_pos hfne, hw]
      simp only [Outcome.bind, receiveTwoPasswordsFrom_HMI_ECU, PASSWORD_SIZE,
        receivePasswordFrom_HMI_ECU.loop, UART_recieveByte, UART_sendByte]
      refine ⟨_, rfl, ?_⟩
      simp only [afterRound, replies_append, replies_exchange, replies_received,
        replies_sent NOT_SAME (by decide), List.append_nil, List.nil_append]
      rfl
    obtain ⟨t, ht, hr⟩ := hrun
    have hs := setPassword_saves (fuel + 2) l
      { s with
        rx := roundsStream [(Buffer.ofList [1, 2, 3, 4, 5], Buffer.ofList [5, 4, 3, 2, 1])]
        log := [] } quietLog_nil
    rw [ht] at hs
    exact ⟨t, ht, hr, saves_of_quiet _ hs.1, hs.2, congrArg storedPassword hs.2⟩

/-- An instance below the wrap: from power-on, the round [1,2,3,4,5] /
[5,4,3,2,1] and then the round [1,2,3,4,5] / [1,2,3,4,5]. -/
theorem no_persistence_on_mismatch_witness :
    ∃ l1 t,
      setPassword 2 Locals.start
          { powerOn with
            rx := roundsStream
              ([(Buffer.ofList [1, 2, 3, 4, 5], Buffer.ofList [5, 4, 3, 2, 1])] ++
                [(Buffer.ofList [1, 2, 3, 4, 5], Buffer.ofList [1, 2, 3, 4, 5])]) ++ []
            log := [] }
        = .returned l1 t ∧
      saves t.log = [(PASSWORD_ADDRESS, [1, 2, 3, 4, 5])] ∧
      t.eeprom = savePasswordInEEPROM powerOn.eeprom PASSWORD_ADDRESS
        (Buffer.ofList [1, 2, 3, 4, 5]) ∧
      replies t.log = [NOT_SAME, SAME] ∧ t.rx = [] :=
  (no_persistence_on_mismatch Locals.start powerOn 0
    [(Buffer.ofList [1, 2, 3, 4, 5], Buffer.ofList [5, 4, 3, 2, 1])]
    (Buffer.ofList [1, 2, 3, 4, 5]) (Buffer.ofList [1, 2, 3, 4, 5]) []
    (by decide)
    (fun r hr => by rw [List.mem_singleton.mp hr]; decide)
    (by decide)).2.2.1

/-! ### The matching round after the wrap -/

/-- The wait loop of the open-door branch of the HMI node, for every amount of
fuel: it returns after five compare matches. -/
theorem hmi_open_wait (h : Hmi) (fuel : Nat) :
    HMI.waitUntil LCD_FINISHED_OPEN_DOOR fuel (HMI.APP_openDoor { h with g_ticks_LCD := 0 })
      = if fuel < 6 then
          .outOfFuel (HMI.compareMatches fuel (HMI.APP_openDoor { h with g_ticks_LCD := 0 }))
        else
          .returned () (HMI.compareMatches 5 (HMI.APP_openDoor { h with g_ticks_LCD := 0 })) := by
  by_cases hn : fuel < 6
  · rw [if_pos hn]
    interval_cases fuel <;>
    simp +decide [HMI.waitUntil, LCD_FINISHED_OPEN_DOOR, HMI.compareMatches, HMI.compareMatch,
      HMI.TIMER1_COMPA_vect, HMI.callBack, HMI.APP_openDoor, Timer1.armed, HMI.startTimer1,
      HMI.call_Timer1_deInit, Timer1_init_eq, Timer1_deInit, Timer1_setCallBack,
      HMI.LCD_clearScreen, HMI.LCD_displayStringRowColumn, HMI.LCD_displayString,
      Nat.testBit_or, OCIE1A, F_CPU_DIVIDE_1024, CTC_OCR1A, SET_BIT]
  · rw [if_neg hn]
    obtain ⟨m, rfl⟩ : ∃ m, fuel = m + 6 := ⟨fuel - 6, by omega⟩
    simp +decide [HMI.waitUntil, LCD_FINISHED_OPEN_DOOR, HMI.compareMatches, HMI.compareMatch,
      HMI.TIMER1_COMPA_vect, HMI.callBack, HMI.APP_openDoor, Timer1.armed, HMI.startTimer1,
      HMI.call_Timer1_deInit, Timer1_init_eq, Timer1_deInit, Timer1_setCallBack,
      HMI.LCD_clearScreen, HMI.LCD_displayStringRowColumn, HMI.LCD_displayString,
      Nat.testBit_or, OCIE1A, F_CPU_DIVIDE_1024, CTC_OCR1A, SET_BIT]

/-- The wait loop of the lock-out of the HMI node, for every amount of fuel: it
returns after eight compare matches. -/
theorem hmi_wrong_wait (h : Hmi) (fuel : Nat) :
    HMI.waitUntil LCD_FINISHED_WRONG_PASSWORD fuel
        (HMI.APP_wrongPassword { h with g_ticks_LCD := 0 })
      = if fuel < 9 then
          .outOfFuel
            (HMI.compareMatches fuel (HMI.APP_wrongPassword { h with g_ticks_LCD := 0 }))
        else
          .returned ()
            (HMI.compareMatches 8 (HMI.APP_wrongPassword { h with g_ticks_LCD := 0 })) := by
  by_cases hn : fuel < 9
  · rw [if_pos hn]
    interval_cases fuel <;>
    simp +decide [HMI.waitUntil, LCD_FINISHED_WRONG_PASSWORD, HMI.compareMatches,
      HMI.compareMatch, HMI.TIMER1_COMPA_vect, HMI.callBack, HMI.APP_wrongPassword,
      Timer1.armed, HMI.startTimer1, HMI.call_Timer1_deInit, Timer1_init_eq, Timer1_deInit,
      Timer1_setCallBack, HMI.LCD_clearScreen, HMI.LCD_displayStringRowColumn,
      Nat.testBit_or, OCIE1A, F_CPU_DIVIDE_1024, CTC_OCR1A, SET_BIT]
  · rw [if_neg hn]
    obtain ⟨m, rfl⟩ : ∃ m, fuel = m + 9 := ⟨fuel - 9, by omega⟩
    simp +decide [HMI.waitUntil, LCD_FINISHED_WRONG_PASSWORD, HMI.compareMatches,
      HMI.compareMatch, HMI.TIMER1_COMPA_vect, HMI.callBack, HMI.APP_wrongPassword,
      Timer1.armed, HMI.startTimer1, HMI.call_Timer1_deInit, Timer1_init_eq, Timer1_deInit,
      Timer1_setCallBack, HMI.LCD_clearScreen, HMI.LCD_displayStringRowColumn,
      Nat.testBit_or, OCIE1A, F_CPU_DIVIDE_1024, CTC_OCR1A, SET_BIT]

/-- The log of the open-door display sequence run from an empty log: the
direct call and five compare matches. -/
theorem hmi_open_log (h : Hmi) :
    (HMI.compareMatches 5 (HMI.APP_openDoor { h with g_ticks_LCD := 0, log := [] })).log
      = [.invoked .APP_openDoor, .LCD_clearScreen,
          .LCD_displayStringRowColumn 0 4 "Door is",
          .LCD_displayStringRowColumn 1 3 "Unlocking",
          .Timer1_deInit, .startTimer1 0 62500 5 4 .APP_openDoor,
         .invoked .APP_openDoor, .Timer1_deInit, .startTimer1 0 54687 5 4 .APP_openDoor,
         .invoked .APP_openDoor, .LCD_clearScreen, .Timer1_deInit,
          .startTimer1 0 23437 5 4 .APP_openDoor,
         .invoked .APP_openDoor, .LCD_displayString ("Door is Locking"), .Timer1_deInit,
          .startTimer1 0 62500 5 4 .APP_openDoor,
         .invoked .APP_openDoor, .Timer1_deInit, .startTimer1 0 54687 5 4 .APP_openDoor,
         .invoked .APP_openDoor] := by
  simp +decide [HMI.compareMatches, HMI.compareMatch,
    HMI.TIMER1_COMPA_vect, HMI.callBack, HMI.APP_openDoor, Timer1.armed, HMI.startTimer1,
    HMI.call_Timer1_deInit, Timer1_init_eq, Timer1_deInit, Timer1_setCallBack,
    HMI.LCD_clearScreen, HMI.LCD_displayStringRowColumn, HMI.LCD_displayString,
    Nat.testBit_or, OCIE1A, F_CPU_DIVIDE_1024, CTC_OCR1A, SET_BIT]

/-- The log of the error display sequence run from an empty log: the direct
call and eight compare matches. -/
theorem hmi_wrong_log (h : Hmi) :
    (HMI.compareMatches 8 (HMI.APP_wrongPassword { h with g_ticks_LCD := 0, log := [] })).log
      = [.invoked .APP_wrongPassword, .LCD_clearScreen,
          .LCD_displayStringRowColumn 0 5 "ERROR",
          .Timer1_deInit, .startTimer1 0 62500 5 4 .APP_wrongPassword,
         .invoked .APP_wrongPassword, .Timer1_deInit,
          .startTimer1 0 62500 5 4 .APP_wrongPassword,
         .invoked .APP_wrongPassword, .Timer1_deInit,
          .startTimer1 0 62500 5 4 .APP_wrongPassword,
         .invoked .APP_wrongPassword, .Timer1_deInit,
          .startTimer1 0 62500 5 4 .APP_wrongPassword,
         .invoked .APP_wrongPassword, .Timer1_deInit,
          .startTimer1 0 62500 5 4 .APP_wrongPassword,
         .invoked .APP_wrongPassword, .Timer1_deInit,
          .startTimer1 0 62500 5 4 .APP_wrongPassword,
         .invoked .APP_wrongPassword, .Timer1_deInit,
          .startTimer1 0 62500 5 4 .APP_wrongPassword,
         .invoked .APP_wrongPassword, .Timer1_deInit,
          .startTimer1 0 3125 5 4 .APP_wrongPassword,
         .invoked .APP_wrongPassword] := by
  simp +decide [HMI.compareMatches, HMI.compareMatch,
    HMI.TIMER1_COMPA_vect, HMI.callBack, HMI.APP_wrongPassword, Timer1.armed, HMI.startTimer1,
    HMI.call_Timer1_deInit, Timer1_init_eq, Timer1_deInit, Timer1_setCallBack,
    HMI.LCD_clearScreen, HMI.LCD_displayStringRowColumn,
    Nat.testBit_or, OCIE1A, F_CPU_DIVIDE_1024, CTC_OCR1A, SET_BIT]

/-- At the end of the two display sequences the timer is armed and the
call-back is registered. -/
theorem hmi_end_armed (h : Hmi) :
    (HMI.compareMatches 5 (HMI.APP_openDoor { h with g_ticks_LCD := 0 })).timer.armed ∧
    (HMI.compareMatches 5 (HMI.APP_openDoor { h with g_ticks_LCD := 0 })).timer.g_callBackPtr
      = some .APP_openDoor ∧
    (HMI.compareMatches 5 (HMI.APP_openDoor { h with g_ticks_LCD := 0 })).g_ticks_LCD
      = LCD_FINISHED_OPEN_DOOR ∧
    (HMI.compareMatches 8 (HMI.APP_wrongPassword { h with g_ticks_LCD := 0 })).timer.armed ∧
    (HMI.compareMatches 8
      (HMI.APP_wrongPassword { h with g_ticks_LCD := 0 })).timer.g_callBackPtr
        = some .APP_wrongPassword ∧
    (HMI.compareMatches 8 (HMI.APP_wrongPassword { h with g_ticks_LCD := 0 })).g_ticks_LCD
      = LCD_FINISHED_WRONG_PASSWORD := by
  refine ⟨?_, ?_, ?_, ?_, ?_, ?_⟩ <;>
  simp +decide [HMI.compareMatches, HMI.compareMatch, LCD_FINISHED_OPEN_DOOR,
    LCD_FINISHED_WRONG_PASSWORD,
    HMI.TIMER1_COMPA_vect, HMI.callBack, HMI.APP_openDoor, HMI.APP_wrongPassword, Timer1.armed,
    HMI.startTimer1,
    HMI.call_Timer1_deInit, Timer1_init_eq, Timer1_deInit, Timer1_setCallBack,
    HMI.LCD_clearScreen, HMI.LCD_displayStringRowColumn, HMI.LCD_displayString,
    Nat.testBit_or, OCIE1A, F_CPU_DIVIDE_1024, CTC_OCR1A, SET_BIT]

/-- The thresholds the door sequence of the control node arms, and its state
after the direct call and five compare matches. -/
theorem door_end (s : Ctrl) :
    armedThresholds
        (compareMatches 5 (APP_DcMotor { s with g_ticks_DCMotor := 0, log := [] })).log
      = [62500, 54687, 23437, 62500, 54687] ∧
    (compareMatches 5 (APP_DcMotor { s with g_ticks_DCMotor := 0 })).g_ticks_DCMotor = 6 ∧
    (compareMatches 5 (APP_DcMotor { s with g_ticks_DCMotor := 0 })).timer.g_callBackPtr
      = none ∧
    ¬ (compareMatches 5 (APP_DcMotor { s with g_ticks_DCMotor := 0 })).timer.armed := by
  refine ⟨?_, ?_, ?_, ?_⟩ <;>
  simp +decide [armedThresholds, Event.threshold, compareMatches, compareMatch,
    TIMER1_COMPA_vect, callBack, APP_DcMotor,
    Timer1.armed, startTimer1, call_Timer1_deInit, Timer1_init_eq, Timer1_deInit,
    Timer1_setCallBack, DcMotor_Rotate, Nat.testBit_or, OCIE1A, OCIE1B, TOIE1, TICIE1,
    F_CPU_DIVIDE_1024, CTC_OCR1A, SET_BIT, CLEAR_BIT]

/-- C11 (what the code does): of the four tick-driven sequences only
`APP_DcMotor` calls `Timer1_deInit` at its last step. When the wait loop of the
control node observes BUZZER_FINISHED, and when the wait loops of the HMI node
observe LCD_FINISHED_OPEN_DOOR and LCD_FINISHED_WRONG_PASSWORD, the timer is
armed and the call-back is still registered, so the next compare match invokes
it again. -/
theorem sequences_end_armed (s : Ctrl) (h : Hmi) :
    ((∀ fuel, 10 ≤ fuel →
        waitUntil (fun t => t.g_ticks_buzzer) BUZZER_FINISHED fuel
            (APP_buzzer { s with g_ticks_buzzer := 0 })
          = .returned () (compareMatches 9 (APP_buzzer { s with g_ticks_buzzer := 0 }))) ∧
      (compareMatches 9 (APP_buzzer { s with g_ticks_buzzer := 0 })).timer.armed ∧
      (compareMatches 9 (APP_buzzer { s with g_ticks_buzzer := 0 })).timer.g_callBackPtr
        = some .APP_buzzer ∧
      compareMatch (compareMatches 9 (APP_buzzer { s with g_ticks_buzzer := 0 }))
        = some (APP_buzzer (compareMatches 9 (APP_buzzer { s with g_ticks_buzzer := 0 })))) ∧
    ((∀ fuel, 6 ≤ fuel →
        HMI.waitUntil LCD_FINISHED_OPEN_DOOR fuel
            (HMI.APP_openDoor { h with g_ticks_LCD := 0 })
          = .returned ()
              (HMI.compareMatches 5 (HMI.APP_openDoor { h with g_ticks_LCD := 0 }))) ∧
      (HMI.compareMatches 5 (HMI.APP_openDoor { h with g_ticks_LCD := 0 })).timer.armed ∧
      (HMI.compareMatches 5 (HMI.APP_openDoor { h with g_ticks_LCD := 0 })).timer.g_callBackPtr
        = some .APP_openDoor ∧
      HMI.compareMatch (HMI.compareMatches 5 (HMI.APP_openDoor { h with g_ticks_LCD := 0 }))
        = some (HMI.APP_openDoor
            (HMI.compareMatches 5 (HMI.APP_openDoor { h with g_ticks_LCD := 0 })))) ∧
    ((∀ fuel, 9 ≤ fuel →
        HMI.waitUntil LCD_FINISHED_WRONG_PASSWORD fuel
            (HMI.APP_wrongPassword { h with g_ticks_LCD := 0 })
          = .returned ()
              (HMI.compareMatches 8 (HMI.APP_wrongPassword { h with g_ticks_LCD := 0 }))) ∧
      (HMI.compareMatches 8 (HMI.APP_wrongPassword { h with g_ticks_LCD := 0 })).timer.armed ∧
      (HMI.compareMatches 8
        (HMI.APP_wrongPassword { h with g_ticks_LCD := 0 })).timer.g_callBackPtr
          = some .APP_wrongPassword ∧
      HMI.compareMatch
          (HMI.compareMatches 8 (HMI.APP_wrongPassword { h with g_ticks_LCD := 0 }))
        = some (HMI.APP_wrongPassword
            (HMI.compareMatches 8 (HMI.APP_wrongPassword { h with g_ticks_LCD := 0 })))) ∧
    ((compareMatches 5 (APP_DcMotor { s with g_ticks_DCMotor := 0 })).g_ticks_DCMotor = 6 ∧
      (compareMatches 5 (APP_DcMotor { s with g_ticks_DCMotor := 0 })).timer.g_callBackPtr
        = none ∧
      ¬ (compareMatches 5 (APP_DcMotor { s with g_ticks_DCMotor := 0 })).timer.armed) := by
  have hb := buzzer_end_armed s
  have hh := hmi_end_armed h
  refine ⟨⟨?_, hb.1, hb.2.1, ?_⟩, ⟨?_, hh.1, hh.2.1, ?_⟩,
    ⟨?_, hh.2.2.2.1, hh.2.2.2.2.1, ?_⟩, (door_end s).2⟩
  · intro fuel hf
    rw [buzzer_wait, if_neg (by omega)]
  · simp only [compareMatch, if_pos hb.1, TIMER1_COMPA_vect, hb.2.1, callBack]
  · intro fuel hf
    rw [hmi_open_wait, if_neg (by omega)]
  · simp only [HMI.compareMatch, if_pos hh.1, HMI.TIMER1_COMPA_vect, hh.2.1, HMI.callBack]
  · intro fuel hf
    rw [hmi_wrong_wait, if_neg (by omega)]
  · simp only [HMI.compareMatch, if_pos hh.2.2.2.1, HMI.TIMER1_COMPA_vect, hh.2.2.2.2.1,
      HMI.callBack]

/-- The thresholds the alarm sequence of the control node arms, in order. -/
theorem buzzer_thresholds (s : Ctrl) :
    armedThresholds
        (compareMatches 9 (APP_buzzer { s with g_ticks_buzzer := 0, log := [] })).log
      = [62500, 62500, 62500, 62500, 62500, 62500, 62500, 3125] := by
  rw [buzzer_log]
  decide

/-- C19 (counterexample): from reset, the wait loop of the HMI node for the
error display returns after eight compare matches (nine invocations of
`APP_wrongPassword`), the wait loop of the control node for the alarm after
nine (ten invocations of `APP_buzzer`); after eight compare matches the
control node has not reached BUZZER_FINISHED. -/
theorem alarm_firings_differ :
    HMI.waitUntil LCD_FINISHED_WRONG_PASSWORD 20
        (HMI.APP_wrongPassword { HMI.powerOn with g_ticks_LCD := 0 })
      = .returned ()
          (HMI.compareMatches 8 (HMI.APP_wrongPassword { HMI.powerOn with g_ticks_LCD := 0 })) ∧
    waitUntil (fun t => t.g_ticks_buzzer) BUZZER_FINISHED 20
        (APP_buzzer { powerOn with g_ticks_buzzer := 0 })
      = .returned () (compareMatches 9 (APP_buzzer { powerOn with g_ticks_buzzer := 0 })) ∧
    HMI.invocationCount
        (HMI.compareMatches 8
          (HMI.APP_wrongPassword { HMI.powerOn with g_ticks_LCD := 0 })).log = 9 ∧
    invocationCount
        (compareMatches 9 (APP_buzzer { powerOn with g_ticks_buzzer := 0 })).log = 10 ∧
    (compareMatches 8 (APP_buzzer { powerOn with g_ticks_buzzer := 0 })).g_ticks_buzzer
      ≠ BUZZER_FINISHED := by
  refine ⟨?_, ?_, ?_, ?_, ?_⟩
  · rw [hmi_wrong_wait, if_neg (by decide)]
  · rw [buzzer_wait, if_neg (by decide)]
  · have h := hmi_wrong_log HMI.powerOn
    have e : ({ HMI.powerOn with g_ticks_LCD := 0, log := [] } : Hmi)
        = { HMI.powerOn with g_ticks_LCD := 0 } := rfl
    rw [e] at h
    rw [h]
    decide
  · have h := buzzer_log powerOn
    have e : ({ powerOn with g_ticks_buzzer := 0, log := [] } : Ctrl)
        = { powerOn with g_ticks_buzzer := 0 } := rfl
    rw [e] at h
    rw [h]
    decide
  · rw [buzzer_ticks powerOn 8 (by decide)]
    decide

/-- C19 (amended): for each sequence type the display call-back of the HMI
node and the actuator call-back of the control node arm the same ordered list
of compare thresholds. The wait loops of the HMI node reach
LCD_FINISHED_OPEN_DOOR after five compare matches and
LCD_FINISHED_WRONG_PASSWORD after eight; the wait loop of the control node
reaches BUZZER_FINISHED after nine, one compare match later than the HMI node;
after five compare matches the door sequence of the control node has made its
last step (counter 6). -/
theorem sequences_coincide (s : Ctrl) (h : Hmi) :
    HMI.armedThresholds
        (HMI.compareMatches 5 (HMI.APP_openDoor { h with g_ticks_LCD := 0, log := [] })).log
      = armedThresholds
          (compareMatches 5 (APP_DcMotor { s with g_ticks_DCMotor := 0, log := [] })).log ∧
    armedThresholds
        (compareMatches 5 (APP_DcMotor { s with g_ticks_DCMotor := 0, log := [] })).log
      = [62500, 54687, 23437, 62500, 54687] ∧
    HMI.armedThresholds
        (HMI.compareMatches 8
          (HMI.APP_wrongPassword { h with g_ticks_LCD := 0, log := [] })).log
      = armedThresholds
          (compareMatches 9 (APP_buzzer { s with g_ticks_buzzer := 0, log := [] })).log ∧
    armedThresholds
        (compareMatches 9 (APP_buzzer { s with g_ticks_buzzer := 0, log := [] })).log
      = [62500, 62500, 62500, 62500, 62500, 62500, 62500, 3125] ∧
    (∀ fuel, 6 ≤ fuel →
      HMI.waitUntil LCD_FINISHED_OPEN_DOOR fuel (HMI.APP_openDoor { h with g_ticks_LCD := 0 })
        = .returned ()
            (HMI.compareMatches 5 (HMI.APP_openDoor { h with g_ticks_LCD := 0 }))) ∧
    (compareMatches 5 (APP_DcMotor { s with g_ticks_DCMotor := 0 })).g_ticks_DCMotor = 6 ∧
    (∀ fuel, 9 ≤ fuel →
      HMI.waitUntil LCD_FINISHED_WRONG_PASSWORD fuel
          (HMI.APP_wrongPassword { h with g_ticks_LCD := 0 })
        = .returned ()
            (HMI.compareMatches 8 (HMI.APP_wrongPassword { h with g_ticks_LCD := 0 }))) ∧
    (∀ fuel, 10 ≤ fuel →
      waitUntil (fun t => t.g_ticks_buzzer) BUZZER_FINISHED fuel
          (APP_buzzer { s with g_ticks_buzzer := 0 })
        = .returned () (compareMatches 9 (APP_buzzer { s with g_ticks_buzzer := 0 }))) ∧
    (∀ k, k < 5 →
      (HMI.compareMatches k (HMI.APP_openDoor { h with g_ticks_LCD := 0 })).g_ticks_LCD
        ≠ LCD_FINISHED_OPEN_DOOR) ∧
    (∀ k, k < 8 →
      (HMI.compareMatches k (HMI.APP_wrongPassword { h with g_ticks_LCD := 0 })).g_ticks_LCD
        ≠ LCD_FINISHED_WRONG_PASSWORD) ∧
    (∀ k, k < 9 →
      (compareMatches k (APP_buzzer { s with g_ticks_buzzer := 0 })).g_ticks_buzzer
        ≠ BUZZER_FINISHED) := by
  have hd := door_end s
  have hbz := buzzer_thresholds s
  refine ⟨?_, hd.1, ?_, hbz, ?_, hd.2.1, ?_, ?_, ?_, ?_, ?_⟩
  · rw [hd.1, hmi_open_log]
    decide
  · rw [hbz, hmi_wrong_log]
    decide
  · intro fuel hf
    rw [hmi_open_wait, if_neg (by omega)]
  · intro fuel hf
    rw [hmi_wrong_wait, if_neg (by omega)]
  · intro fuel hf
    rw [buzzer_wait, if_neg (by omega)]
  · intro k hk
    interval_cases k <;>
    simp +decide [HMI.compareMatches, HMI.compareMatch, LCD_FINISHED_OPEN_DOOR,
      HMI.TIMER1_COMPA_vect, HMI.callBack, HMI.APP_openDoor, Timer1.armed, HMI.startTimer1,
      HMI.call_Timer1_deInit, Timer1_init_eq, Timer1_deInit, Timer1_setCallBack,
      HMI.LCD_clearScreen, HMI.LCD_displayStringRowColumn, HMI.LCD_displayString,
      Nat.testBit_or, OCIE1A, F_CPU_DIVIDE_1024, CTC_OCR1A, SET_BIT]
  · intro k hk
    interval_cases k <;>
    simp +decide [HMI.compareMatches, HMI.compareMatch, LCD_FINISHED_WRONG_PASSWORD,
      HMI.TIMER1_COMPA_vect, HMI.callBack, HMI.APP_wrongPassword, Timer1.armed,
      HMI.startTimer1, HMI.call_Timer1_deInit, Timer1_init_eq, Timer1_deInit,
      Timer1_setCallBack, HMI.LCD_clearScreen, HMI.LCD_displayStringRowColumn,
      Nat.testBit_or, OCIE1A, F_CPU_DIVIDE_1024, CTC_OCR1A, SET_BIT]
  · intro k hk
    rw [buzzer_ticks s k (by omega)]
    simp only [BUZZER_FINISHED]
    omega

/-! ### Keypad entry -/

theorem pollKeypad_skip (stop : Nat → Bool) (h : Hmi) (k : Nat) (ks : List Nat)
    (hk : stop k = false) (hkeys : h.keys = k :: ks) :
    HMI.pollKeypad stop h
      = HMI.pollKeypad stop { h with keys := ks, log := h.log ++ [.KEYPAD_getPressedKey k] } := by
  simp only [HMI.pollKeypad, hkeys, HMI.dropTo, HMI.readTo, hk, Bool.false_eq_true, if_false]
  cases HMI.dropTo stop ks with
  | none => simp
  | some r => simp

theorem pollKeypad_stop (stop : Nat → Bool) (h : Hmi) (k : Nat) (ks : List Nat)
    (hk : stop k = true) (hkeys : h.keys = k :: ks) :
    HMI.pollKeypad stop h
      = .returned k { h with keys := ks, log := h.log ++ [.KEYPAD_getPressedKey k] } := by
  simp only [HMI.pollKeypad, hkeys, HMI.dropTo, HMI.readTo, hk, if_true, List.map_cons,
    List.map_nil]

theorem pollKeypad_nil (stop : Nat → Bool) (h : Hmi) (hkeys : h.keys = []) :
    HMI.pollKeypad stop h = .blocked h := by
  cases h
  simp_all [HMI.pollKeypad, HMI.dropTo, HMI.readTo]

/-- The entry loop on a stream of keys: it returns when the stream holds `n`
keys in 0..9, with these stored at `i`, ..., `i + n - 1`; it waits for a key
otherwise. -/
theorem enterDigits_keys : ∀ (keys : List Nat) (n i : Nat) (p : Buffer) (h : Hmi),
    h.keys = keys →
    HMI.enterDigits n i p h
      = if n ≤ (keys.filter isDigitKey).length then
          .returned
            (fun j => if i ≤ j ∧ j < i + n then (firstDigits n keys).getD (j - i) 0 else p j)
            { h with keys := afterDigits n keys, log := h.log ++ entryLog n keys }
        else .blocked { h with keys := [], log := h.log ++ entryLog n keys } := by
  intro keys
  induction keys with
  | nil =>
    intro n i p h hkeys
    cases n with
    | zero =>
      simp only [HMI.enterDigits, Nat.zero_le, if_true, afterDigits, entryLog, List.append_nil]
      congr 1
      · funext j
        have h3 : ¬ (i ≤ j ∧ j < i) := by omega
        simp only [Nat.add_zero, h3, if_false]
      · cases h; simp_all
    | succ n =>
      simp only [HMI.enterDigits, HMI.getDigit, pollKeypad_nil _ h hkeys, HmiOutcome.bind,
        List.filter_nil, List.length_nil, entryLog, List.append_nil]
      rw [if_neg (by omega)]
      cases h; simp_all
  | cons k ks ih =>
    intro n i p h hkeys
    cases n with
    | zero =>
      simp only [HMI.enterDigits, Nat.zero_le, if_true, afterDigits, entryLog, List.append_nil]
      congr 1
      · funext j
        have h3 : ¬ (i ≤ j ∧ j < i) := by omega
        simp only [Nat.add_zero, h3, if_false]
      · cases h; simp_all
    | succ n =>
      by_cases hk : k ≤ 9
      · have hstop : decide (0 ≤ k ∧ k ≤ 9) = true := by simp [hk]
        have hd : isDigitKey k = true := by simp [isDigitKey, hk]
        simp only [HMI.enterDigits, HMI.getDigit, pollKeypad_stop (fun key => decide (0 ≤ key ∧ key ≤ 9)) h k ks hstop hkeys,
          HmiOutcome.bind]
        rw [ih n (i + 1) (p.write i k) _ rfl]
        simp only [List.filter_cons, hd, if_true, List.length_cons, Nat.add_le_add_iff_right,
          afterDigits, entryLog, hk, firstDigits, List.take_succ_cons,
          HMI.LCD_displayCharacter, List.append_assoc, List.singleton_append, List.cons_append,
          List.nil_append]
        by_cases hn : n ≤ (ks.filter isDigitKey).length
        · rw [if_pos hn, if_pos hn]
          congr 1
          funext j
          by_cases h1 : j = i
          · subst h1; simp [Buffer.write]
          · by_cases h2 : i + 1 ≤ j ∧ j < i + 1 + n
            · have h3 : i ≤ j ∧ j < i + (n + 1) := by omega
              have h4 : j - i = (j - (i + 1)) + 1 := by omega
              simp only [h2, h3, and_self, if_true, h4, List.getD_cons_succ]
            · have h3 : ¬ (i ≤ j ∧ j < i + (n + 1)) := by omega
              simp [h2, h3, Buffer.write, h1]
        · rw [if_neg hn, if_neg hn]
      · have hstop : decide (0 ≤ k ∧ k ≤ 9) = false := by simp [hk]
        have hd : isDigitKey k = false := by simp [isDigitKey, hk]
        have hskip : HMI.enterDigits (n + 1) i p h
            = HMI.enterDigits (n + 1) i p
                { h with keys := ks, log := h.log ++ [.KEYPAD_getPressedKey k] } := by
          simp only [HMI.enterDigits, HMI.getDigit]
          rw [pollKeypad_skip (fun key => decide (0 ≤ key ∧ key ≤ 9)) h k ks hstop hkeys]
        rw [hskip, ih (n + 1) i p _ rfl]
        simp only [List.filter_cons, hd, Bool.false_eq_true, if_false, afterDigits, entryLog,
          hk, firstDigits, List.append_assoc, List.singleton_append]

theorem dropTo_enter (keys : List Nat) :
    HMI.dropTo (fun key => decide (¬ 13 ≠ key)) keys
      = if 13 ∈ keys then some (13, afterEnter keys) else none := by
  induction keys with
  | nil => simp [HMI.dropTo]
  | cons k ks ih =>
    by_cases hk : 13 = k
    · subst hk
      simp [HMI.dropTo, afterEnter]
    · have hk2 : ¬ k = 13 := fun e => hk e.symm
      have hne : (k != 13) = true := by simp [hk2]
      have e : HMI.dropTo (fun key => decide (¬ 13 ≠ key)) (k :: ks)
          = HMI.dropTo (fun key => decide (¬ 13 ≠ key)) ks := by
        simp [HMI.dropTo, hk]
      have e2 : afterEnter (k :: ks) = afterEnter ks := by
        simp [afterEnter, List.dropWhile_cons, hne]
      rw [e, ih, e2]
      simp [List.mem_cons, hk]

/-- The wait for the enter key on a stream of keys. -/
theorem awaitEnter_keys (keys : List Nat) (h : Hmi) (hkeys : h.keys = keys) :
    HMI.awaitEnter h
      = if 13 ∈ keys then
          .returned () { h with keys := afterEnter keys, log := h.log ++ enterLog keys }
        else .blocked { h with keys := [], log := h.log ++ enterLog keys } := by
  simp only [HMI.awaitEnter, HMI.pollKeypad, hkeys, dropTo_enter, enterLog]
  by_cases h13 : 13 ∈ keys
  · simp only [h13, if_true, HmiOutcome.bind]
  · simp only [h13, if_false, HmiOutcome.bind]

theorem received_ofList (p : Buffer) (l : List Nat) :
    (fun j => if 0 ≤ j ∧ j < 0 + 5 then l.getD (j - 0) 0 else p j)
      = p.received (Buffer.ofList l) := by
  funext j
  simp [Buffer.received, Buffer.ofList, PASSWORD_SIZE]

/-- The function `createPassword` on a stream of keys, against the
specification of its result. -/
theorem createPassword_keys (keys : List Nat) (h : Hmi) (p1 p2 : Buffer) :
    match createPassword_spec keys with
    | some (e1, e2, rest) =>
      HMI.createPassword p1 p2 { h with keys := keys, log := [] }
        = .returned (p1.received (Buffer.ofList e1), p2.received (Buffer.ofList e2))
            { h with keys := rest, log := createLog keys }
    | none =>
      ∃ t pre, HMI.createPassword p1 p2 { h with keys := keys, log := [] } = .blocked t ∧
        createLog keys = t.log ++ pre := by
  unfold HMI.createPassword
  simp only [PASSWORD_SIZE]
  rw [enterDigits_keys keys 5 0 p1 _ rfl]
  by_cases hA : 5 ≤ (keys.filter isDigitKey).length
  · rw [if_pos hA]
    simp only [HmiOutcome.bind]
    rw [awaitEnter_keys (afterDigits 5 keys) _ rfl]
    by_cases hB : 13 ∈ afterDigits 5 keys
    · rw [if_pos hB]
      simp only [HmiOutcome.bind]
      rw [enterDigits_keys (afterEnter (afterDigits 5 keys)) 5 0 p2 _ rfl]
      by_cases hC : 5 ≤ ((afterEnter (afterDigits 5 keys)).filter isDigitKey).length
      · rw [if_pos hC]
        simp only [HmiOutcome.bind]
        rw [awaitEnter_keys (afterDigits 5 (afterEnter (afterDigits 5 keys))) _ rfl]
        by_cases hD : 13 ∈ afterDigits 5 (afterEnter (afterDigits 5 keys))
        · rw [if_pos hD]
          simp only [createPassword_spec, hA, hB, hC, hD, and_self, if_true, HmiOutcome.bind,
            received_ofList]
          simp [createLog, HMI.LCD_clearScreen, HMI.LCD_displayStringRowColumn,
            HMI.LCD_moveCursor, PASSWORD_SIZE]
        · rw [if_neg hD]
          simp only [createPassword_spec, hA, hB, hC, hD, and_false, if_false, HmiOutcome.bind]
          refine ⟨_, [.LCD_clearScreen, .LCD_moveCursor 0 0], rfl, ?_⟩
          simp [createLog, HMI.LCD_clearScreen, HMI.LCD_displayStringRowColumn,
            HMI.LCD_moveCursor, PASSWORD_SIZE]
      · rw [if_neg hC]
        simp only [createPassword_spec, hA, hB, hC, and_false, false_and, if_false,
          HmiOutcome.bind]
        refine ⟨_, enterLog (afterDigits 5 (afterEnter (afterDigits 5 keys)))
          ++ [.LCD_clearScreen, .LCD_moveCursor 0 0], rfl, ?_⟩
        simp [createLog, HMI.LCD_clearScreen, HMI.LCD_displayStringRowColumn,
          HMI.LCD_moveCursor, PASSWORD_SIZE]
    · rw [if_neg hB]
      simp only [createPassword_spec, hA, hB, and_false, false_and, if_false, HmiOutcome.bind]
      refine ⟨_, [.LCD_clearScreen, .LCD_displayStringRowColumn 0 0 "plz re-enter the",
          .LCD_displayStringRowColumn 1 0 "same pass: "]
        ++ entryLog 5 (afterEnter (afterDigits 5 keys))
        ++ enterLog (afterDigits 5 (afterEnter (afterDigits 5 keys)))
        ++ [.LCD_clearScreen, .LCD_moveCursor 0 0], rfl, ?_⟩
      simp [createLog, HMI.LCD_clearScreen, HMI.LCD_displayStringRowColumn,
        HMI.LCD_moveCursor, PASSWORD_SIZE]
  · rw [if_neg hA]
    simp only [createPassword_spec, hA, false_and, if_false, HmiOutcome.bind]
    refine ⟨_, enterLog (afterDigits 5 keys)
      ++ [.LCD_clearScreen, .LCD_displayStringRowColumn 0 0 "plz re-enter the",
          .LCD_displayStringRowColumn 1 0 "same pass: "]
      ++ entryLog 5 (afterEnter (afterDigits 5 keys))
      ++ enterLog (afterDigits 5 (afterEnter (afterDigits 5 keys)))
      ++ [.LCD_clearScreen, .LCD_moveCursor 0 0], rfl, ?_⟩
    simp [createLog, HMI.LCD_clearScreen, HMI.LCD_displayStringRowColumn,
      HMI.LCD_moveCursor, PASSWORD_SIZE]

theorem displayed_entryLog : ∀ (keys : List Nat) (n : Nat),
    displayed (entryLog n keys)
      = List.replicate (min n (keys.filter isDigitKey).length)
          (.LCD_displayCharacter '*'.toNat) := by
  intro keys
  induction keys with
  | nil => intro n; cases n <;> simp [entryLog, displayed]
  | cons k ks ih =>
    intro n
    cases n with
    | zero => simp [entryLog, displayed]
    | succ n =>
      by_cases hk : k ≤ 9
      · have hd : isDigitKey k = true := by simp [isDigitKey, hk]
        have e := ih n
        simp only [displayed] at e
        simp only [entryLog, hk, if_true, displayed, List.filter_cons, hd, HmiEvent.isDisplay,
          Bool.false_eq_true, if_false, e, List.length_cons, Nat.add_min_add_right,
          List.replicate_succ]
      · have hd : isDigitKey k = false := by simp [isDigitKey, hk]
        have e := ih (n + 1)
        simp only [displayed] at e
        simp only [entryLog, hk, if_false, displayed, List.filter_cons, hd, HmiEvent.isDisplay,
          Bool.false_eq_true, e]

theorem displayed_enterLog (keys : List Nat) : displayed (enterLog keys) = [] := by
  simp only [displayed, enterLog, List.filter_eq_nil_iff, List.mem_map]
  rintro e ⟨k, -, rfl⟩
  simp [HmiEvent.isDisplay]

theorem showsNoKey_entryLog : ∀ (keys : List Nat) (n : Nat),
    (entryLog n keys).all HmiEvent.showsNoKey = true := by
  intro keys
  induction keys with
  | nil => intro n; cases n <;> simp [entryLog]
  | cons k ks ih =>
    intro n
    cases n with
    | zero => simp [entryLog]
    | succ n =>
      by_cases hk : k ≤ 9
      · simp only [entryLog, hk, if_true, List.all_cons, ih n, HmiEvent.showsNoKey,
          Bool.and_true, beq_self_eq_true]
      · simp only [entryLog, hk, if_false, List.all_cons, ih (n + 1), HmiEvent.showsNoKey,
          Bool.and_true]

theorem showsNoKey_enterLog (keys : List Nat) :
    (enterLog keys).all HmiEvent.showsNoKey = true := by
  simp only [enterLog, List.all_eq_true, List.mem_map]
  rintro e ⟨k, -, rfl⟩
  rfl

theorem showsNoKey_createLog (keys : List Nat) :
    (createLog keys).all HmiEvent.showsNoKey = true := by
  simp only [createLog, List.all_append, showsNoKey_entryLog, showsNoKey_enterLog,
    Bool.and_true, Bool.true_and]
  decide

theorem firstDigits_le (n : Nat) (keys : List Nat) : ∀ d, d ∈ firstDigits n keys → d ≤ 9 := by
  intro d hd
  have h1 := List.mem_of_mem_take hd
  have h2 := (List.mem_filter.mp h1).2
  simpa [isDigitKey] using h2

theorem firstDigits_length (n : Nat) (keys : List Nat)
    (h : n ≤ (keys.filter isDigitKey).length) : (firstDigits n keys).length = n := by
  simp [firstDigits, h]

theorem createPassword_spec_some (keys : List Nat)
    (hc : 5 ≤ (keys.filter isDigitKey).length ∧ 13 ∈ afterDigits 5 keys ∧
      5 ≤ ((afterEnter (afterDigits 5 keys)).filter isDigitKey).length ∧
      13 ∈ afterDigits 5 (afterEnter (afterDigits 5 keys))) :
    createPassword_spec keys
      = some (firstDigits 5 keys, firstDigits 5 (afterEnter (afterDigits 5 keys)),
          afterEnter (afterDigits 5 (afterEnter (afterDigits 5 keys)))) := by
  simp only [createPassword_spec, hc, and_self, if_true]

theorem createPassword_spec_none (keys : List Nat)
    (hc : ¬ (5 ≤ (keys.filter isDigitKey).length ∧ 13 ∈ afterDigits 5 keys ∧
      5 ≤ ((afterEnter (afterDigits 5 keys)).filter isDigitKey).length ∧
      13 ∈ afterDigits 5 (afterEnter (afterDigits 5 keys)))) :
    createPassword_spec keys = none := by
  simp only [createPassword_spec, hc, if_false]

/-- The two streams of the claim give the entries they hold. -/
theorem createPassword_spec_streams (d1 d2 : List Nat) (hl1 : d1.length = 5)
    (hl2 : d2.length = 5) (hd1 : ∀ d, d ∈ d1 → d ≤ 9) (hd2 : ∀ d, d ∈ d2 → d ≤ 9) :
    createPassword_spec (enterAfterEach (d1 ++ d2)) = some (d1, d2, []) ∧
    createPassword_spec (d1 ++ [13] ++ d2 ++ [13]) = some (d1, d2, []) := by
  match d1, d2, hl1, hl2 with
  | [a, b, c, d, e], [f, g, x, y, z], _, _ =>
    have ha := hd1 a (by simp)
    have hb := hd1 b (by simp)
    have hc := hd1 c (by simp)
    have hd := hd1 d (by simp)
    have he := hd1 e (by simp)
    have hf := hd2 f (by simp)
    have hg := hd2 g (by simp)
    have hx := hd2 x (by simp)
    have hy := hd2 y (by simp)
    have hz := hd2 z (by simp)
    have na : a ≠ 13 := by omega
    have nb : b ≠ 13 := by omega
    have nc : c ≠ 13 := by omega
    have nd : d ≠ 13 := by omega
    have ne : e ≠ 13 := by omega
    have nf : f ≠ 13 := by omega
    have ng : g ≠ 13 := by omega
    have nx : x ≠ 13 := by omega
    have ny : y ≠ 13 := by omega
    have nz : z ≠ 13 := by omega
    constructor
    · simp [createPassword_spec, enterAfterEach, afterDigits, afterEnter, firstDigits,
        isDigitKey, List.filter_cons, List.dropWhile_cons, ha, hb, hc, hd, he, hf, hg, hx, hy,
        hz, na, nb, nc, nd, ne, nf, ng, nx, ny, nz]
    · simp [createPassword_spec, afterDigits, afterEnter, firstDigits,
        isDigitKey, List.filter_cons, List.dropWhile_cons, ha, hb, hc, hd, he, hf, hg, hx, hy,
        hz, na, nb, nc, nd, ne, nf, ng, nx, ny, nz]

/-- The function `userWritePassword` on a stream of keys: the entry is the
first five keys in 0..9, keys are then skipped until an enter key. -/
theorem userWritePassword_keys (keys : List Nat) (h : Hmi) (p : Buffer) :
    HMI.userWritePassword p { h with keys := keys, log := [] }
      = if 5 ≤ (keys.filter isDigitKey).length then
          if 13 ∈ afterDigits 5 keys then
            .returned (p.received (Buffer.ofList (firstDigits 5 keys)))
              { h with
                keys := afterEnter (afterDigits 5 keys)
                log := [.LCD_clearScreen, .LCD_displayStringRowColumn 0 0 "plz enter pass:",
                    .LCD_moveCursor 1 0]
                  ++ entryLog 5 keys ++ enterLog (afterDigits 5 keys)
                  ++ [.LCD_clearScreen, .LCD_moveCursor 0 0] }
          else
            .blocked
              { h with
                keys := []
                log := [.LCD_clearScreen, .LCD_displayStringRowColumn 0 0 "plz enter pass:",
                    .LCD_moveCursor 1 0]
                  ++ entryLog 5 keys ++ enterLog (afterDigits 5 keys) }
        else
          .blocked
            { h with
              keys := []
              log := [.LCD_clearScreen, .LCD_displayStringRowColumn 0 0 "plz enter pass:",
                  .LCD_moveCursor 1 0]
                ++ entryLog 5 keys } := by
  unfold HMI.userWritePassword
  simp only [PASSWORD_SIZE]
  rw [enterDigits_keys keys 5 0 p _ rfl]
  by_cases hA : 5 ≤ (keys.filter isDigitKey).length
  · rw [if_pos hA, if_pos hA]
    simp only [HmiOutcome.bind]
    rw [awaitEnter_keys (afterDigits 5 keys) _ rfl]
    by_cases hB : 13 ∈ afterDigits 5 keys
    · rw [if_pos hB, if_pos hB]
      simp only [HmiOutcome.bind, received_ofList]
      simp [HMI.LCD_clearScreen, HMI.LCD_displayStringRowColumn, HMI.LCD_moveCursor]
    · rw [if_neg hB, if_neg hB]
      simp [HmiOutcome.bind, HMI.LCD_clearScreen, HMI.LCD_displayStringRowColumn,
        HMI.LCD_moveCursor]
  · rw [if_neg hA, if_neg hA]
    simp [HmiOutcome.bind, HMI.LCD_clearScreen, HMI.LCD_displayStringRowColumn,
      HMI.LCD_moveCursor]

/-- C20: keypad entry filtering in `createPassword`. For every stream of keys,
`createPassword` returns exactly when the specification of the entry gives a
result, and then entry 1 is the first five keys in 0..9 in order, keys are
skipped until an enter key (13), entry 2 is the next five keys in 0..9, and
keys are skipped until a second enter key; both entries have five bytes, all
in 0..9; the display shows the prompts and one star per accepted digit; and
whatever the stream, no display call depends on a key. A stream in which each
digit is followed by its own enter key gives the same two entries as a stream
with a single enter key after each group of five digits. -/
theorem keypad_entry_filtering (keys : List Nat) (h : Hmi) (p1 p2 : Buffer)
    (d1 d2 : List Nat) (hl1 : d1.length = 5) (hl2 : d2.length = 5)
    (hd1 : ∀ d, d ∈ d1 → d ≤ 9) (hd2 : ∀ d, d ∈ d2 → d ≤ 9) :
    (match createPassword_spec keys with
      | some (e1, e2, rest) =>
        HMI.createPassword p1 p2 { h with keys := keys, log := [] }
          = .returned (p1.received (Buffer.ofList e1), p2.received (Buffer.ofList e2))
              { h with keys := rest, log := createLog keys } ∧
        e1 = firstDigits 5 keys ∧
        e2 = firstDigits 5 (afterEnter (afterDigits 5 keys)) ∧
        rest = afterEnter (afterDigits 5 (afterEnter (afterDigits 5 keys))) ∧
        e1.length = 5 ∧ e2.length = 5 ∧ (∀ d, d ∈ e1 → d ≤ 9) ∧ (∀ d, d ∈ e2 → d ≤ 9) ∧
        displayed (createLog keys)
          = [.LCD_clearScreen, .LCD_displayStringRowColumn 0 0 "plz enter pass:"]
            ++ List.replicate 5 (.LCD_displayCharacter '*'.toNat)
            ++ [.LCD_clearScreen, .LCD_displayStringRowColumn 0 0 "plz re-enter the",
                .LCD_displayStringRowColumn 1 0 "same pass: "]
            ++ List.replicate 5 (.LCD_displayCharacter '*'.toNat)
            ++ [.LCD_clearScreen]
      | none =>
        ∃ t pre, HMI.createPassword p1 p2 { h with keys := keys, log := [] } = .blocked t ∧
          createLog keys = t.log ++ pre) ∧
    (HMI.createPassword p1 p2 { h with keys := keys, log := [] }).state.log.all
        HmiEvent.showsNoKey = true ∧
    HMI.createPassword p1 p2 { h with keys := enterAfterEach (d1 ++ d2), log := [] }
      = .returned (p1.received (Buffer.ofList d1), p2.received (Buffer.ofList d2))
          { h with keys := [], log := createLog (enterAfterEach (d1 ++ d2)) } ∧
    HMI.createPassword p1 p2 { h with keys := d1 ++ [13] ++ d2 ++ [13], log := [] }
      = .returned (p1.received (Buffer.ofList d1), p2.received (Buffer.ofList d2))
          { h with keys := [], log := createLog (d1 ++ [13] ++ d2 ++ [13]) } := by
  have hk := createPassword_keys keys h p1 p2
  have hs := createPassword_spec_streams d1 d2 hl1 hl2 hd1 hd2
  have hk1 := createPassword_keys (enterAfterEach (d1 ++ d2)) h p1 p2
  have hk2 := createPassword_keys (d1 ++ [13] ++ d2 ++ [13]) h p1 p2
  rw [hs.1] at hk1
  rw [hs.2] at hk2
  refine ⟨?_, ?_, hk1, hk2⟩
  · by_cases hc : 5 ≤ (keys.filter isDigitKey).length ∧ 13 ∈ afterDigits 5 keys ∧
        5 ≤ ((afterEnter (afterDigits 5 keys)).filter isDigitKey).length ∧
        13 ∈ afterDigits 5 (afterEnter (afterDigits 5 keys))
    · rw [createPassword_spec_some keys hc] at hk ⊢
      refine ⟨hk, rfl, rfl, rfl, firstDigits_length 5 keys hc.1,
        firstDigits_length 5 _ hc.2.2.1, firstDigits_le 5 keys, firstDigits_le 5 _, ?_⟩
      simp only [createLog, displayed, List.filter_append]
      have e1 := displayed_entryLog keys 5
      have e2 := displayed_entryLog (afterEnter (afterDigits 5 keys)) 5
      have e3 := displayed_enterLog (afterDigits 5 keys)
      have e4 := displayed_enterLog (afterDigits 5 (afterEnter (afterDigits 5 keys)))
      simp only [displayed] at e1 e2 e3 e4
      rw [e1, e2, e3, e4, Nat.min_eq_left hc.1, Nat.min_eq_left hc.2.2.1]
      rfl
    · rw [createPassword_spec_none keys hc] at hk ⊢
      exact hk
  · have hall := showsNoKey_createLog keys
    cases hsp : createPassword_spec keys with
    | none =>
      rw [hsp] at hk
      obtain ⟨t, pre, ht, hlog⟩ := hk
      rw [ht]
      rw [hlog, List.all_append, Bool.and_eq_true] at hall
      exact hall.1
    | some r =>
      obtain ⟨e1, e2, rest⟩ := r
      rw [hsp] at hk
      rw [hk]
      exact hall

/-- Witness of C20: a stream with keys that are ignored, and the entries
[1,2,3,4,5] and [6,7,8,9,0] with an enter key after each digit. -/
theorem keypad_entry_filtering_witness :
    HMI.createPassword (fun _ => 0) (fun _ => 0)
        { HMI.powerOn with
          keys := enterAfterEach ([1, 2, 3, 4, 5] ++ [6, 7, 8, 9, 0])
          log := [] }
      = .returned
          (Buffer.received (fun _ => 0) (Buffer.ofList [1, 2, 3, 4, 5]),
            Buffer.received (fun _ => 0) (Buffer.ofList [6, 7, 8, 9, 0]))
          { HMI.powerOn with
            keys := []
            log := createLog (enterAfterEach ([1, 2, 3, 4, 5] ++ [6, 7, 8, 9, 0])) } :=
  (keypad_entry_filtering [1, 43, 2, 3, 13, 4, 5, 7, 13, 9, 8, 7, 6, 5, 13] HMI.powerOn
    (fun _ => 0) (fun _ => 0) [1, 2, 3, 4, 5] [6, 7, 8, 9, 0] (by decide) (by decide)
    (by decide) (by decide)).2.2.1

/-! ### Ready-poll gating -/

theorem gated_append (r f : Nat) : ∀ (a b : List Wire) (p : Option Wire),
    gated r f p (a ++ b) = (gated r f p a && gated r f (lastWire p a) b) := by
  intro a
  induction a with
  | nil => intro b p; simp [gated, lastWire]
  | cons x a ih =>
    intro b p
    cases x with
    | tx c =>
      show gated r f p (Wire.tx c :: (a ++ b)) = _
      simp only [gated, ih, lastWire, Bool.and_assoc]
    | rx c =>
      show gated r f p (Wire.rx c :: (a ++ b)) = _
      simp only [gated, ih, lastWire]

theorem gated_rx (r f : Nat) : ∀ (l : List Nat) (p : Option Wire),
    gated r f p (l.map .rx) = true := by
  intro l
  induction l with
  | nil => intro p; rfl
  | cons b l ih => intro p; simp only [List.map_cons, gated, ih]

theorem lastWire_append (p : Option Wire) (a : List Wire) (e : Wire) :
    lastWire p (a ++ [e]) = some e := by
  induction a generalizing p with
  | nil => rfl
  | cons x a ih =>
    show lastWire p (x :: (a ++ [e])) = some e
    simp only [lastWire, ih]

/-- What gating says: a byte sent is `free`, or the link event just before it
is the reception of `ready`. -/
theorem gated_spec (r f : Nat) (w : List Wire) (hg : gated r f none w = true) :
    ∀ pre b post, w = pre ++ .tx b :: post → b = f ∨ ∃ pre1, pre = pre1 ++ [.rx r] := by
  intro pre b post hw
  rw [hw, gated_append] at hg
  simp only [gated, Bool.and_eq_true, Bool.or_eq_true, beq_iff_eq] at hg
  rcases hg.2.1 with h1 | h1
  · exact Or.inl h1
  · right
    rcases List.eq_nil_or_concat pre with hp | ⟨pre1, e, hp⟩
    · subst hp; simp [lastWire] at h1
    · subst hp
      rw [List.concat_eq_append, lastWire_append] at h1
      refine ⟨pre1, ?_⟩
      simp only [Option.some.injEq] at h1
      rw [List.concat_eq_append, h1]

theorem dropUntil_readUntil (code : Nat) : ∀ (l rest : List Nat),
    dropUntil code l = some rest → ∃ junk, readUntil code l = junk ++ [code] := by
  intro l
  induction l with
  | nil => intro rest h; simp [dropUntil] at h
  | cons b l ih =>
    intro rest h
    by_cases hb : b ≠ code
    · rw [dropUntil, if_pos hb] at h
      obtain ⟨junk, hj⟩ := ih rest h
      exact ⟨b :: junk, by rw [readUntil, if_pos hb, hj, List.cons_append]⟩
    · have hb2 : b = code := by simpa using hb
      exact ⟨[], by simp [readUntil, hb2]⟩

theorem wire_append (a b : List Event) : wire (a ++ b) = wire a ++ wire b := by
  simp [wire, List.filterMap_append]

theorem hmi_wire_append (a b : List HmiEvent) : HMI.wire (a ++ b) = HMI.wire a ++ HMI.wire b := by
  simp [HMI.wire, List.filterMap_append]

theorem wire_received (l : List Nat) : wire (l.map .UART_recieveByte) = l.map .rx := by
  induction l with
  | nil => rfl
  | cons b l ih => simp only [List.map_cons, wire, List.filterMap_cons, Event.wire] at ih ⊢; rw [ih]

theorem hmi_wire_received (l : List Nat) :
    HMI.wire (l.map .UART_recieveByte) = l.map .rx := by
  induction l with
  | nil => rfl
  | cons b l ih =>
    simp only [List.map_cons, HMI.wire, List.filterMap_cons, HmiEvent.wire] at ih ⊢; rw [ih]

theorem hmi_wire_keys (l : List Nat) : HMI.wire (l.map .KEYPAD_getPressedKey) = [] := by
  induction l with
  | nil => rfl
  | cons b l ih =>
    simp only [List.map_cons, HMI.wire, List.filterMap_cons, HmiEvent.wire] at ih ⊢; rw [ih]

/-- A gated trace stays gated when a wait for `ready` is followed by a byte
sent. -/
theorem gated_await_send (r f : Nat) (w : List Wire) (junk : List Nat) (b : Nat)
    (hg : gated r f none w = true) :
    gated r f none (w ++ ((junk ++ [r]).map .rx ++ [.tx b])) = true := by
  rw [List.map_append, List.append_assoc, ← List.append_assoc w, gated_append, gated_append,
    hg, gated_rx]
  simp only [List.map_cons, List.map_nil, List.singleton_append, gated, lastWire,
    Bool.true_and, Bool.and_true, Bool.or_eq_true, beq_iff_eq]
  right
  trivial

theorem gated_await (r f : Nat) (w : List Wire) (l : List Nat)
    (hg : gated r f none w = true) : gated r f none (w ++ l.map .rx) = true := by
  rw [gated_append, hg, gated_rx]; rfl

theorem gated_free (r f : Nat) (w : List Wire) (hg : gated r f none w = true) :
    gated r f none (w ++ [.tx f]) = true := by
  rw [gated_append, hg]; simp [gated]

/-- Sequencing keeps a property of the state that each part keeps. -/
theorem hmi_bind_inv {α β : Type} (Q : Hmi → Prop) (o : HmiOutcome α)
    (f : α → Hmi → HmiOutcome β) (ho : Q o.state)
    (hf : ∀ a t, o = .returned a t → Q t → Q (f a t).state) : Q (o.bind f).state := by
  cases o with
  | returned a t => exact hf a t rfl ho
  | blocked t => exact ho
  | spinning t => exact ho
  | outOfFuel t => exact ho

theorem hmi_pollKeypad_wire (stop : Nat → Bool) (h : Hmi) :
    HMI.wire (HMI.pollKeypad stop h).state.log = HMI.wire h.log := by
  unfold HMI.pollKeypad
  cases HMI.dropTo stop h.keys with
  | none => simp [HmiOutcome.state, hmi_wire_append, hmi_wire_keys]
  | some r => simp [HmiOutcome.state, hmi_wire_append, hmi_wire_keys]

theorem hmi_enterDigits_wire (n : Nat) : ∀ (i : Nat) (p : Buffer) (h : Hmi),
    HMI.wire (HMI.enterDigits n i p h).state.log = HMI.wire h.log := by
  induction n with
  | zero => intro i p h; rfl
  | succ n ih =>
    intro i p h
    unfold HMI.enterDigits
    apply hmi_bind_inv (fun t => HMI.wire t.log = HMI.wire h.log)
    · exact hmi_pollKeypad_wire _ h
    · intro key t _ ht
      rw [ih]
      simp only [HMI.LCD_displayCharacter, hmi_wire_append, ht]
      simp [HMI.wire, HmiEvent.wire]

theorem hmi_awaitEnter_wire (h : Hmi) :
    HMI.wire (HMI.awaitEnter h).state.log = HMI.wire h.log := by
  unfold HMI.awaitEnter
  apply hmi_bind_inv (fun t => HMI.wire t.log = HMI.wire h.log)
  · exact hmi_pollKeypad_wire _ h
  · intro _ t _ ht
    exact ht

theorem hmi_createPassword_wire (p1 p2 : Buffer) (h : Hmi) :
    HMI.wire (HMI.createPassword p1 p2 h).state.log = HMI.wire h.log := by
  unfold HMI.createPassword
  apply hmi_bind_inv (fun t => HMI.wire t.log = HMI.wire h.log)
  · rw [hmi_enterDigits_wire]
    simp [HMI.LCD_clearScreen, HMI.LCD_displayStringRowColumn, HMI.LCD_moveCursor,
      hmi_wire_append, HMI.wire, HmiEvent.wire]
  · intro q1 t1 _ ht1
    apply hmi_bind_inv (fun t => HMI.wire t.log = HMI.wire h.log)
    · rw [hmi_awaitEnter_wire]; exact ht1
    · intro _ t2 _ ht2
      apply hmi_bind_inv (fun t => HMI.wire t.log = HMI.wire h.log)
      · rw [hmi_enterDigits_wire]
        simp only [HMI.LCD_clearScreen, HMI.LCD_displayStringRowColumn, hmi_wire_append, ht2]
        simp [HMI.wire, HmiEvent.wire]
      · intro q2 t3 _ ht3
        apply hmi_bind_inv (fun t => HMI.wire t.log = HMI.wire h.log)
        · rw [hmi_awaitEnter_wire]; exact ht3
        · intro _ t4 _ ht4
          simp only [HmiOutcome.state, HMI.LCD_clearScreen, HMI.LCD_moveCursor,
            hmi_wire_append, ht4]
          simp [HMI.wire, HmiEvent.wire]

theorem hmi_userWritePassword_wire (p : Buffer) (h : Hmi) :
    HMI.wire (HMI.userWritePassword p h).state.log = HMI.wire h.log := by
  unfold HMI.userWritePassword
  apply hmi_bind_inv (fun t => HMI.wire t.log = HMI.wire h.log)
  · rw [hmi_enterDigits_wire]
    simp [HMI.LCD_clearScreen, HMI.LCD_displayStringRowColumn, HMI.LCD_moveCursor,
      hmi_wire_append, HMI.wire, HmiEvent.wire]
  · intro q1 t1 _ ht1
    apply hmi_bind_inv (fun t => HMI.wire t.log = HMI.wire h.log)
    · rw [hmi_awaitEnter_wire]; exact ht1
    · intro _ t2 _ ht2
      simp only [HmiOutcome.state, HMI.LCD_clearScreen, HMI.LCD_moveCursor, hmi_wire_append,
        ht2]
      simp [HMI.wire, HmiEvent.wire]

theorem hmi_APP_openDoor_wire (h : Hmi) : HMI.wire (HMI.APP_openDoor h).log = HMI.wire h.log := by
  unfold HMI.APP_openDoor
  simp only []
  split_ifs <;>
  simp [HMI.LCD_clearScreen, HMI.LCD_displayStringRowColumn, HMI.LCD_displayString,
    HMI.call_Timer1_deInit, HMI.startTimer1, hmi_wire_append, HMI.wire, HmiEvent.wire]

theorem hmi_APP_wrongPassword_wire (h : Hmi) :
    HMI.wire (HMI.APP_wrongPassword h).log = HMI.wire h.log := by
  unfold HMI.APP_wrongPassword
  simp only []
  split_ifs <;>
  simp [HMI.LCD_clearScreen, HMI.LCD_displayStringRowColumn,
    HMI.call_Timer1_deInit, HMI.startTimer1, hmi_wire_append, HMI.wire, HmiEvent.wire]

theorem hmi_compareMatch_wire (h h1 : Hmi) (hc : HMI.compareMatch h = some h1) :
    HMI.wire h1.log = HMI.wire h.log := by
  unfold HMI.compareMatch at hc
  split at hc
  · simp only [Option.some.injEq] at hc
    subst hc
    unfold HMI.TIMER1_COMPA_vect
    cases h.timer.g_callBackPtr with
    | none => rfl
    | some f =>
      cases f with
      | APP_openDoor => exact hmi_APP_openDoor_wire h
      | APP_wrongPassword => exact hmi_APP_wrongPassword_wire h
  · simp at hc

theorem hmi_waitUntil_wire (FINISHED : Nat) (fuel : Nat) : ∀ h : Hmi,
    HMI.wire (HMI.waitUntil FINISHED fuel h).state.log = HMI.wire h.log := by
  induction fuel with
  | zero => intro h; rfl
  | succ fuel ih =>
    intro h
    unfold HMI.waitUntil
    split
    · cases hc : HMI.compareMatch h with
      | none => rfl
      | some h1 =>
        simp only []
        rw [ih h1, hmi_compareMatch_wire h h1 hc]
    · rfl

theorem hmi_gated_of_wire (a b : List HmiEvent) (hw : HMI.wire a = HMI.wire b)
    (hg : HMI.gatedLog b = true) : HMI.gatedLog a = true := by
  unfold HMI.gatedLog at hg ⊢
  rw [hw]; exact hg

theorem hmi_awaitByte_gated (code : Nat) (h : Hmi) (hg : HMI.gatedLog h.log = true) :
    HMI.gatedLog (HMI.awaitByte code h).state.log = true := by
  unfold HMI.awaitByte
  cases dropUntil code h.rx with
  | none =>
    simp only [HmiOutcome.state, HMI.gatedLog, hmi_wire_append, hmi_wire_received]
    exact gated_await _ _ _ _ hg
  | some rest =>
    simp only [HmiOutcome.state, HMI.gatedLog, hmi_wire_append, hmi_wire_received]
    exact gated_await _ _ _ _ hg

/-- A wait for MC2_READY followed by a byte sent keeps the trace gated. -/
theorem hmi_await_send {β : Type} (h : Hmi) (b : Nat) (k : Hmi → HmiOutcome β)
    (hg : HMI.gatedLog h.log = true)
    (hk : ∀ t, HMI.gatedLog t.log = true → HMI.gatedLog (k t).state.log = true) :
    HMI.gatedLog
      ((HMI.awaitByte MC2_READY h).bind fun _ h1 => k (HMI.UART_sendByte b h1)).state.log
        = true := by
  unfold HMI.awaitByte
  cases hd : dropUntil MC2_READY h.rx with
  | none =>
    simp only [HmiOutcome.bind, HmiOutcome.state, HMI.gatedLog, hmi_wire_append,
      hmi_wire_received]
    exact gated_await _ _ _ _ hg
  | some rest =>
    obtain ⟨junk, hj⟩ := dropUntil_readUntil MC2_READY h.rx rest hd
    simp only [HmiOutcome.bind]
    apply hk
    simp only [HMI.UART_sendByte, HMI.gatedLog, hmi_wire_append, hmi_wire_received, hj,
      List.append_assoc]
    exact gated_await_send MC2_READY MC1_READY _ junk b hg

theorem hmi_sendDigits_gated (n : Nat) : ∀ (i : Nat) (p : Buffer) (h : Hmi),
    HMI.gatedLog h.log = true → HMI.gatedLog (HMI.sendDigits n i p h).state.log = true := by
  induction n with
  | zero => intro i p h hg; exact hg
  | succ n ih =>
    intro i p h hg
    unfold HMI.sendDigits
    exact hmi_await_send h (p i) (fun t => HMI.sendDigits n (i + 1) p t) hg
      (fun t ht => ih (i + 1) p t ht)

theorem hmi_ready_receive_gated (h : Hmi) (hg : HMI.gatedLog h.log = true) :
    HMI.gatedLog (HMI.UART_recieveByte (HMI.UART_sendByte MC1_READY h)).state.log = true := by
  have hs : HMI.gatedLog (HMI.UART_sendByte MC1_READY h).log = true := by
    simp only [HMI.UART_sendByte, HMI.gatedLog, hmi_wire_append]
    exact gated_free _ _ _ hg
  unfold HMI.UART_recieveByte
  cases (HMI.UART_sendByte MC1_READY h).rx with
  | nil => exact hs
  | cons b rest =>
    simp only [HmiOutcome.state, HMI.gatedLog, hmi_wire_append]
    exact gated_await _ _ _ [b] hs

theorem hmi_checkPassword_gated (p : Buffer) (h : Hmi) (hg : HMI.gatedLog h.log = true) :
    HMI.gatedLog (HMI.checkPasswordInControlECU p h).state.log = true := by
  unfold HMI.checkPasswordInControlECU
  apply hmi_bind_inv (fun t => HMI.gatedLog t.log = true)
  · exact hmi_sendDigits_gated _ _ _ _ hg
  · intro _ t _ ht
    exact hmi_ready_receive_gated t ht

theorem hmi_checkSame_gated (p1 p2 : Buffer) (h : Hmi) (hg : HMI.gatedLog h.log = true) :
    HMI.gatedLog (HMI.checkSamePasswordsInControlECU p1 p2 h).state.log = true := by
  unfold HMI.checkSamePasswordsInControlECU
  apply hmi_bind_inv (fun t => HMI.gatedLog t.log = true)
  · exact hmi_sendDigits_gated _ _ _ _ hg
  · intro _ t _ ht
    apply hmi_bind_inv (fun t => HMI.gatedLog t.log = true)
    · exact hmi_sendDigits_gated _ _ _ _ ht
    · intro _ t2 _ ht2
      exact hmi_ready_receive_gated t2 ht2

theorem hmi_newPassword_gated (fuel : Nat) : ∀ (l : HmiLocals) (h : Hmi),
    HMI.gatedLog h.log = true → HMI.gatedLog (HMI.newPassword fuel l h).state.log = true := by
  induction fuel with
  | zero => intro l h hg; exact hg
  | succ fuel ih =>
    intro l h hg
    unfold HMI.newPassword
    apply hmi_bind_inv (fun t => HMI.gatedLog t.log = true)
    · exact hmi_gated_of_wire _ _ (hmi_createPassword_wire _ _ h) hg
    · intro p t _ ht
      apply hmi_bind_inv (fun t => HMI.gatedLog t.log = true)
      · exact hmi_checkSame_gated _ _ t ht
      · intro flag t2 _ ht2
        dsimp only
        split
        · exact ih _ t2 ht2
        · exact ht2

theorem hmi_openDoorTrials_gated (fuel n : Nat) : ∀ (l : HmiLocals) (h : Hmi),
    HMI.gatedLog h.log = true →
    HMI.gatedLog (HMI.openDoorTrials fuel n l h).state.log = true := by
  induction n with
  | zero => intro l h hg; exact hg
  | succ n ih =>
    intro l h hg
    unfold HMI.openDoorTrials
    split
    · apply hmi_bind_inv (fun t => HMI.gatedLog t.log = true)
      · exact hmi_gated_of_wire _ _ (hmi_userWritePassword_wire _ h) hg
      · intro p t _ ht
        apply hmi_bind_inv (fun t => HMI.gatedLog t.log = true)
        · exact hmi_checkPassword_gated _ t ht
        · intro flag t2 _ ht2
          dsimp only
          split
          · exact hmi_await_send { t2 with g_ticks_LCD := 0 } OPEN_DOOR
              (fun t3 => (HMI.waitUntil LCD_FINISHED_OPEN_DOOR fuel (HMI.APP_openDoor t3)).bind
                fun _ h4 => .returned { l with doorPassword := p } h4) ht2
              (fun t3 ht3 => by
                apply hmi_bind_inv (fun t => HMI.gatedLog t.log = true)
                · exact hmi_gated_of_wire _ _
                    ((hmi_waitUntil_wire _ _ _).trans (hmi_APP_openDoor_wire t3)) ht3
                · intro _ t4 _ ht4
                  exact ht4)
          · exact ih _ t2 ht2
    · exact hg

theorem hmi_changePasswordTrials_gated (fuel n : Nat) : ∀ (l : HmiLocals) (h : Hmi),
    HMI.gatedLog h.log = true →
    HMI.gatedLog (HMI.changePasswordTrials fuel n l h).state.log = true := by
  induction n with
  | zero => intro l h hg; exact hg
  | succ n ih =>
    intro l h hg
    unfold HMI.changePasswordTrials
    split
    · apply hmi_bind_inv (fun t => HMI.gatedLog t.log = true)
      · exact hmi_gated_of_wire _ _ (hmi_userWritePassword_wire _ h) hg
      · intro p t _ ht
        apply hmi_bind_inv (fun t => HMI.gatedLog t.log = true)
        · exact hmi_checkPassword_gated _ t ht
        · intro flag t2 _ ht2
          dsimp only
          split
          · exact hmi_await_send t2 CHANGE_PASSWORD
              (fun t3 => HMI.newPassword fuel { l with doorPassword := p } t3) ht2
              (fun t3 ht3 => hmi_newPassword_gated fuel _ t3 ht3)
          · exact ih _ t2 ht2
    · exact hg

theorem hmi_lockOut_gated (fuel : Nat) (l : HmiLocals) (h : Hmi)
    (hg : HMI.gatedLog h.log = true) : HMI.gatedLog (HMI.lockOut fuel l h).state.log = true := by
  unfold HMI.lockOut
  split
  · exact hmi_await_send h WRONG_PASSWORD
      (fun t => (HMI.waitUntil LCD_FINISHED_WRONG_PASSWORD fuel
        (HMI.APP_wrongPassword { t with g_ticks_LCD := 0 })).bind fun _ h2 => .returned l h2) hg
      (fun t ht => by
        apply hmi_bind_inv (fun t => HMI.gatedLog t.log = true)
        · exact hmi_gated_of_wire _ _
            ((hmi_waitUntil_wire _ _ _).trans (hmi_APP_wrongPassword_wire _)) ht
        · intro _ t4 _ ht4
          exact ht4)
  · exact hg

theorem hmi_mainRound_gated (fuel : Nat) (l : HmiLocals) (h : Hmi)
    (hg : HMI.gatedLog h.log = true) :
    HMI.gatedLog (HMI.mainRound fuel l h).state.log = true := by
  unfold HMI.mainRound
  apply hmi_bind_inv (fun t => HMI.gatedLog t.log = true)
  · refine hmi_gated_of_wire _ _ ((hmi_pollKeypad_wire _ _).trans ?_) hg
    simp [HMI.LCD_clearScreen, HMI.LCD_displayStringRowColumn, hmi_wire_append, HMI.wire,
      HmiEvent.wire]
  · intro key t _ ht
    dsimp only
    split
    · apply hmi_bind_inv (fun t => HMI.gatedLog t.log = true)
      · exact hmi_openDoorTrials_gated _ _ _ t ht
      · intro l2 t2 _ ht2
        exact hmi_lockOut_gated _ _ t2 ht2
    · split
      · apply hmi_bind_inv (fun t => HMI.gatedLog t.log = true)
        · exact hmi_changePasswordTrials_gated _ _ _ t ht
        · intro l2 t2 _ ht2
          exact hmi_lockOut_gated _ _ t2 ht2
      · exact ht

theorem hmi_mainLoop_gated (fuel rounds : Nat) : ∀ (l : HmiLocals) (h : Hmi),
    HMI.gatedLog h.log = true → HMI.gatedLog (HMI.mainLoop fuel rounds l h).state.log = true := by
  induction rounds with
  | zero => intro l h hg; exact hg
  | succ rounds ih =>
    intro l h hg
    unfold HMI.mainLoop
    apply hmi_bind_inv (fun t => HMI.gatedLog t.log = true)
    · exact hmi_mainRound_gated _ _ h hg
    · intro l1 t _ ht
      exact ih l1 t ht

theorem hmi_main_gated (fuel rounds : Nat) (l : HmiLocals) (h : Hmi)
    (hg : HMI.gatedLog h.log = true) :
    HMI.gatedLog (HMI.main fuel rounds l h).state.log = true := by
  unfold HMI.main
  apply hmi_bind_inv (fun t => HMI.gatedLog t.log = true)
  · exact hmi_newPassword_gated _ _ h hg
  · intro l1 t _ ht
    exact hmi_mainLoop_gated _ _ l1 t ht

/-- Sequencing keeps a property of the state that each part keeps. -/
theorem bind_inv {α β : Type} (Q : Ctrl → Prop) (o : Outcome α)
    (f : α → Ctrl → Outcome β) (ho : Q o.state)
    (hf : ∀ a t, o = .returned a t → Q t → Q (f a t).state) : Q (o.bind f).state := by
  cases o with
  | returned a t => exact hf a t rfl ho
  | blocked t => exact ho
  | spinning t => exact ho
  | outOfFuel t => exact ho

theorem gated_of_wire (a b : List Event) (hw : wire a = wire b)
    (hg : gatedLog b = true) : gatedLog a = true := by
  unfold gatedLog at hg ⊢
  rw [hw]; exact hg

theorem awaitByte_gated (code : Nat) (s : Ctrl) (hg : gatedLog s.log = true) :
    gatedLog (awaitByte code s).state.log = true := by
  unfold awaitByte
  cases dropUntil code s.rx with
  | none =>
    simp only [Outcome.state, gatedLog, wire_append, wire_received]
    exact gated_await _ _ _ _ hg
  | some rest =>
    simp only [Outcome.state, gatedLog, wire_append, wire_received]
    exact gated_await _ _ _ _ hg

/-- A wait for MC1_READY followed by a byte sent keeps the trace gated. -/
theorem await_send {β : Type} (s : Ctrl) (b : Nat) (k : Ctrl → Outcome β)
    (hg : gatedLog s.log = true)
    (hk : ∀ t, gatedLog t.log = true → gatedLog (k t).state.log = true) :
    gatedLog ((awaitByte MC1_READY s).bind fun _ s1 => k (UART_sendByte b s1)).state.log
      = true := by
  unfold awaitByte
  cases hd : dropUntil MC1_READY s.rx with
  | none =>
    simp only [Outcome.bind, Outcome.state, gatedLog, wire_append, wire_received]
    exact gated_await _ _ _ _ hg
  | some rest =>
    obtain ⟨junk, hj⟩ := dropUntil_readUntil MC1_READY s.rx rest hd
    simp only [Outcome.bind]
    apply hk
    simp only [UART_sendByte, gatedLog, wire_append, wire_received, hj, List.append_assoc]
    exact gated_await_send MC1_READY MC2_READY _ junk b hg

theorem ready_receive_gated (s : Ctrl) (hg : gatedLog s.log = true) :
    gatedLog (UART_recieveByte (UART_sendByte MC2_READY s)).state.log = true := by
  have hs : gatedLog (UART_sendByte MC2_READY s).log = true := by
    simp only [UART_sendByte, gatedLog, wire_append]
    exact gated_free _ _ _ hg
  unfold UART_recieveByte
  cases (UART_sendByte MC2_READY s).rx with
  | nil => exact hs
  | cons b rest =>
    simp only [Outcome.state, gatedLog, wire_append]
    exact gated_await _ _ _ [b] hs

theorem receive_loop_gated (n : Nat) : ∀ (i : Nat) (p : Buffer) (s : Ctrl),
    gatedLog s.log = true →
    gatedLog (receivePasswordFrom_HMI_ECU.loop n i p s).state.log = true := by
  induction n with
  | zero => intro i p s hg; exact hg
  | succ n ih =>
    intro i p s hg
    unfold receivePasswordFrom_HMI_ECU.loop
    apply bind_inv (fun t => gatedLog t.log = true)
    · exact ready_receive_gated s hg
    · intro b t _ ht
      exact ih _ _ t ht

theorem receiveTwo_gated (p1 p2 : Buffer) (s : Ctrl) (hg : gatedLog s.log = true) :
    gatedLog (receiveTwoPasswordsFrom_HMI_ECU p1 p2 s).state.log = true := by
  unfold receiveTwoPasswordsFrom_HMI_ECU
  apply bind_inv (fun t => gatedLog t.log = true)
  · exact receive_loop_gated _ _ _ s hg
  · intro q1 t _ ht
    apply bind_inv (fun t => gatedLog t.log = true)
    · exact receive_loop_gated _ _ _ t ht
    · intro q2 t2 _ ht2
      exact ht2

theorem setPassword_loop_gated (fuel : Nat) : ∀ (l : Locals) (s : Ctrl),
    gatedLog s.log = true → gatedLog (setPassword.loop fuel l s).state.log = true := by
  induction fuel with
  | zero => intro l s hg; exact hg
  | succ fuel ih =>
    intro l s hg
    unfold setPassword.loop
    apply bind_inv (fun t => gatedLog t.log = true)
    · split
      · exact await_send s NOT_SAME (fun t => .returned () t) hg (fun t ht => ht)
      · exact hg
    · intro _ t _ ht
      apply bind_inv (fun t => gatedLog t.log = true)
      · exact receiveTwo_gated _ _ t ht
      · intro p t2 _ ht2
        dsimp only
        split
        · exact ih _ t2 ht2
        · exact ht2

theorem setPassword_gated (fuel : Nat) (l : Locals) (s : Ctrl) (hg : gatedLog s.log = true) :
    gatedLog (setPassword fuel l s).state.log = true := by
  unfold setPassword
  apply bind_inv (fun t => gatedLog t.log = true)
  · exact setPassword_loop_gated _ _ s hg
  · intro l1 t _ ht
    exact await_send t SAME
      (fun t2 => .returned l1 (call_savePasswordInEEPROM PASSWORD_ADDRESS l1.firstPassword t2))
      ht
      (fun t2 ht2 => by
        simp only [Outcome.state, call_savePasswordInEEPROM, gatedLog, wire_append]
        simpa [wire, Event.wire, gatedLog] using ht2)

theorem verifyLoop_gated (fuel : Nat) : ∀ (l : Locals) (s : Ctrl),
    gatedLog s.log = true → gatedLog (verifyLoop fuel l s).state.log = true := by
  induction fuel with
  | zero => intro l s hg; exact hg
  | succ fuel ih =>
    intro l s hg
    unfold verifyLoop
    split
    · apply bind_inv (fun t => gatedLog t.log = true)
      · exact receive_loop_gated _ _ _ s hg
      · intro p t _ ht
        have hc : gatedLog (call_checkOnPassword PASSWORD_ADDRESS p t).2.log = true := ht
        dsimp only
        split
        · exact await_send _ MATCHED (fun t2 => .returned { l with doorPassword := p } t2) hc
            (fun t2 ht2 => ht2)
        · exact await_send _ NOT_MATCHED
            (fun t2 => verifyLoop fuel
              { l with doorPassword := p, wrongPasswordCounter := l.wrongPasswordCounter + 1 }
              t2) hc
            (fun t2 ht2 => ih _ t2 ht2)
    · exact hg

theorem APP_buzzer_wire (s : Ctrl) : wire (APP_buzzer s).log = wire s.log := by
  unfold APP_buzzer
  simp only []
  split_ifs <;>
  simp [Buzzer_on, Buzzer_off, call_Timer1_deInit, startTimer1, wire_append, wire, Event.wire]

theorem APP_DcMotor_wire (s : Ctrl) : wire (APP_DcMotor s).log = wire s.log := by
  unfold APP_DcMotor
  simp only []
  split_ifs <;>
  simp [DcMotor_Rotate, call_Timer1_deInit, startTimer1, wire_append, wire, Event.wire]

theorem compareMatch_wire (s s1 : Ctrl) (hc : compareMatch s = some s1) :
    wire s1.log = wire s.log := by
  unfold compareMatch at hc
  split at hc
  · simp only [Option.some.injEq] at hc
    subst hc
    unfold TIMER1_COMPA_vect
    cases s.timer.g_callBackPtr with
    | none => rfl
    | some f =>
      cases f with
      | APP_DcMotor => exact APP_DcMotor_wire s
      | APP_buzzer => exact APP_buzzer_wire s
  · simp at hc

theorem waitUntil_wire (g : Ctrl → Nat) (FINISHED : Nat) (fuel : Nat) : ∀ s : Ctrl,
    wire (waitUntil g FINISHED fuel s).state.log = wire s.log := by
  induction fuel with
  | zero => intro s; rfl
  | succ fuel ih =>
    intro s
    unfold waitUntil
    split
    · cases hc : compareMatch s with
      | none => rfl
      | some s1 =>
        simp only []
        rw [ih s1, compareMatch_wire s s1 hc]
    · rfl

theorem dispatch_gated (fuel : Nat) (l : Locals) (s : Ctrl) (hg : gatedLog s.log = true) :
    gatedLog (dispatch fuel l s).state.log = true := by
  unfold dispatch
  split
  · apply bind_inv (fun t => gatedLog t.log = true)
    · exact ready_receive_gated s hg
    · intro b t _ ht
      dsimp only
      split
      · apply bind_inv (fun t => gatedLog t.log = true)
        · exact gated_of_wire _ _ ((waitUntil_wire _ _ _ _).trans (APP_buzzer_wire _)) ht
        · intro _ t2 _ ht2
          exact ht2
      · exact ht
  · apply bind_inv (fun t => gatedLog t.log = true)
    · exact ready_receive_gated s hg
    · intro b t _ ht
      dsimp only
      split
      · apply bind_inv (fun t => gatedLog t.log = true)
        · exact gated_of_wire _ _ ((waitUntil_wire _ _ _ _).trans (APP_DcMotor_wire _)) ht
        · intro _ t2 _ ht2
          exact ht2
      · split
        · exact setPassword_gated _ _ t ht
        · exact ht

theorem mainRound_gated (fuel : Nat) (l : Locals) (s : Ctrl) (hg : gatedLog s.log = true) :
    gatedLog (mainRound fuel l s).state.log = true := by
  unfold mainRound verifyRound
  apply bind_inv (fun t => gatedLog t.log = true)
  · exact verifyLoop_gated _ _ s hg
  · intro l1 t _ ht
    exact dispatch_gated _ _ t ht

theorem mainLoop_gated (fuel rounds : Nat) : ∀ (l : Locals) (s : Ctrl),
    gatedLog s.log = true → gatedLog (mainLoop fuel rounds l s).state.log = true := by
  induction rounds with
  | zero => intro l s hg; exact hg
  | succ rounds ih =>
    intro l s hg
    unfold mainLoop
    apply bind_inv (fun t => gatedLog t.log = true)
    · exact mainRound_gated _ _ s hg
    · intro l1 t _ ht
      exact ih l1 t ht

theorem main_gated (fuel rounds : Nat) (l : Locals) (s : Ctrl) (hg : gatedLog s.log = true) :
    gatedLog (main fuel rounds l s).state.log = true := by
  unfold main
  apply bind_inv (fun t => gatedLog t.log = true)
  · exact setPassword_gated _ _ _ hg
  · intro l1 t _ ht
    exact mainLoop_gated _ _ l1 t ht

/-- A wait of the HMI node on a stream that holds the byte waited for: the
bytes before it are read and dropped. -/
theorem hmi_awaitByte_append (code : Nat) (junk rest : List Nat) (hj : code ∉ junk) (h : Hmi)
    (hrx : h.rx = junk ++ code :: rest) :
    HMI.awaitByte code h
      = .returned ()
          { h with rx := rest, log := h.log ++ (junk ++ [code]).map .UART_recieveByte } := by
  simp only [HMI.awaitByte, hrx, dropUntil_append code junk rest hj,
    readUntil_append code junk rest hj]

/-- C16: ready-poll gating of every data byte. In every execution of `main` of
the HMI node (any keys, any bytes received, any number of rounds), each byte it
sends other than MC1_READY is sent immediately after it has received MC2_READY;
in every execution of `main` of the control node, each byte it sends other than
MC2_READY (the replies) is sent immediately after it has received MC1_READY.
The wait loops read and drop every byte before the one waited for. -/
theorem ready_poll_gating (fuel rounds : Nat) (lh : HmiLocals) (h : Hmi) (lc : Locals)
    (s : Ctrl) :
    (∀ pre b post,
      HMI.wire (HMI.main fuel rounds lh { h with log := [] }).state.log = pre ++ .tx b :: post →
      b = MC1_READY ∨ ∃ pre1, pre = pre1 ++ [.rx MC2_READY]) ∧
    (∀ pre b post,
      wire (main fuel rounds lc { s with log := [] }).state.log = pre ++ .tx b :: post →
      b = MC2_READY ∨ ∃ pre1, pre = pre1 ++ [.rx MC1_READY]) ∧
    (∀ junk rest, MC2_READY ∉ junk →
      HMI.awaitByte MC2_READY { h with rx := junk ++ MC2_READY :: rest }
        = .returned ()
            { h with
              rx := rest
              log := h.log ++ (junk ++ [MC2_READY]).map .UART_recieveByte }) ∧
    (∀ junk rest, MC1_READY ∉ junk →
      awaitByte MC1_READY { s with rx := junk ++ MC1_READY :: rest }
        = .returned ()
            { s with
              rx := rest
              log := s.log ++ (junk ++ [MC1_READY]).map .UART_recieveByte }) := by
  refine ⟨?_, ?_, ?_, ?_⟩
  · exact gated_spec MC2_READY MC1_READY _
      (hmi_main_gated fuel rounds lh { h with log := [] } rfl)
  · exact gated_spec MC1_READY MC2_READY _
      (main_gated fuel rounds lc { s with log := [] } rfl)
  · intro junk rest hj
    exact hmi_awaitByte_append MC2_READY junk rest hj _ rfl
  · intro junk rest hj
    exact awaitByte_append MC1_READY junk rest hj _ rfl

/-- A run of `main` of the HMI node from reset: the password 1,2,3,4,5 is
entered twice and accepted, then `+` is pressed and the password is entered
again. The link trace shows each digit after an MC2_READY. -/
theorem hmi_main_example :
    HMI.wire
      (HMI.main 2 1 HmiLocals.start
        { HMI.powerOn with
          keys := [1, 2, 3, 4, 5, 13, 1, 2, 3, 4, 5, 13, 43, 1, 2, 3, 4, 5, 13]
          rx := [0x20, 0x20, 0x20, 0x20, 0x20, 0x20, 0x20, 0x20, 0x20, 0x20, 1,
            0x20, 0x20, 0x20] }).state.log
      = [.rx 0x20, .tx 1, .rx 0x20, .tx 2, .rx 0x20, .tx 3, .rx 0x20, .tx 4, .rx 0x20, .tx 5,
         .rx 0x20, .tx 1, .rx 0x20, .tx 2, .rx 0x20, .tx 3, .rx 0x20, .tx 4, .rx 0x20, .tx 5,
         .tx 0x10, .rx 1,
         .rx 0x20, .tx 1, .rx 0x20, .tx 2, .rx 0x20, .tx 3] := by
  decide

/-! ### The two nodes on the link -/

theorem take_snoc (l : List Nat) (k c : Nat) (h : l[k]? = some c) :
    l.take (k + 1) = l.take k ++ [c] := by
  rw [List.take_succ, h]; rfl

theorem chan_send (ys : List Nat) (b n c : Nat) (ch : List Nat) (hc : Chan ys b n ch)
    (hy : ys[n]? = some c) : Chan ys b (n + 1) (ch ++ [c]) := by
  obtain ⟨h1, h2, h3⟩ := hc
  have hlt : n < ys.length := by
    by_contra hh
    rw [List.getElem?_eq_none (by omega)] at hy
    cases hy
  refine ⟨by omega, by omega, ?_⟩
  rw [take_snoc ys n c hy, h3, List.drop_append_of_le_length]
  rw [List.length_take]; omega

theorem chan_receive (ys : List Nat) (b n c : Nat) (ch rest : List Nat) (hc : Chan ys b n ch)
    (hch : ch = c :: rest) :
    b < n ∧ ys.take (b + 1) = ys.take b ++ [c] ∧ Chan ys (b + 1) n rest := by
  obtain ⟨h1, h2, h3⟩ := hc
  rw [hch] at h3
  have hlen : (ys.take n).length = n := by rw [List.length_take]; omega
  have hb : b < n := by
    by_contra hh
    have : (ys.take n).drop b = [] := List.drop_eq_nil_of_le (by omega)
    rw [this] at h3
    cases h3
  have hget : (ys.take n)[b]? = some c := by
    have := congrArg (fun l => l[0]?) h3
    simpa [List.getElem?_drop] using this.symm
  have hy : ys[b]? = some c := by
    rw [List.getElem?_take] at hget
    simpa [hb] using hget
  refine ⟨hb, take_snoc ys b c hy, by omega, h2, ?_⟩
  have := congrArg List.tail h3
  simp only [List.tail_cons, List.tail_drop] at this
  exact this

/-- A move keeps the network on its streams, for nodes that send `hlen` and
`clen` bytes of the streams after receiving a prefix of theirs. -/
theorem follows_step (H C : Node) (xs ys : List Nat) (hlen clen : Nat → Nat)
    (tH : ∀ k, k ≤ xs.length → H.sent (xs.take k) = ys.take (hlen k))
    (tC : ∀ k, k ≤ ys.length → C.sent (ys.take k) = xs.take (clen k))
    (mH : ∀ j k, j ≤ k → hlen j ≤ hlen k) (mC : ∀ j k, j ≤ k → clen j ≤ clen k)
    (n n1 : Net) (m : Move) (hn : n.follows xs ys hlen clen)
    (hs : Net.step H C n m = some n1) : n1.follows xs ys hlen clen := by
  obtain ⟨a, b, hinH, hinC, ha, hb, hnH, hnC, hcC, hcH⟩ := hn
  cases m with
  | hmiSends =>
    simp only [Net.step] at hs
    cases hg : (H.sent n.inH)[n.nH]? with
    | none => rw [hg] at hs; cases hs
    | some c =>
      rw [hg] at hs
      simp only [Option.some.injEq] at hs
      subst hs
      rw [hinH, tH a ha, List.getElem?_take] at hg
      have hlt : n.nH < hlen a := by
        by_contra hh
        rw [if_neg hh] at hg
        cases hg
      rw [if_pos hlt] at hg
      exact ⟨a, b, hinH, hinC, ha, hb, by simpa using hlt, hnC, chan_send ys b n.nH c n.toC hcC hg,
        hcH⟩
  | hmiReceives =>
    simp only [Net.step] at hs
    split at hs
    · rename_i hcond
      cases hto : n.toH with
      | nil => rw [hto] at hs; cases hs
      | cons c rest =>
        rw [hto] at hs
        simp only [Option.some.injEq] at hs
        subst hs
        obtain ⟨h1, h2, h3⟩ := chan_receive xs a n.nC c n.toH rest hcH hto
        have ha1 : a + 1 ≤ xs.length := by
          have := hcH.2.1
          omega
        refine ⟨a + 1, b, ?_, hinC, ha1, hb, ?_, hnC, hcC, h3⟩
        · show n.inH ++ [c] = xs.take (a + 1)
          rw [h2, hinH]
        · exact Nat.le_trans hnH (mH a (a + 1) (by omega))
    · cases hs
  | ctlSends =>
    simp only [Net.step] at hs
    cases hg : (C.sent n.inC)[n.nC]? with
    | none => rw [hg] at hs; cases hs
    | some c =>
      rw [hg] at hs
      simp only [Option.some.injEq] at hs
      subst hs
      rw [hinC, tC b hb, List.getElem?_take] at hg
      have hlt : n.nC < clen b := by
        by_contra hh
        rw [if_neg hh] at hg
        cases hg
      rw [if_pos hlt] at hg
      exact ⟨a, b, hinH, hinC, ha, hb, hnH, by simpa using hlt, hcC,
        chan_send xs a n.nC c n.toH hcH hg⟩
  | ctlReceives =>
    simp only [Net.step] at hs
    split at hs
    · rename_i hcond
      cases hto : n.toC with
      | nil => rw [hto] at hs; cases hs
      | cons c rest =>
        rw [hto] at hs
        simp only [Option.some.injEq] at hs
        subst hs
        obtain ⟨h1, h2, h3⟩ := chan_receive ys b n.nH c n.toC rest hcC hto
        have hb1 : b + 1 ≤ ys.length := by
          have := hcC.2.1
          omega
        refine ⟨a, b + 1, hinH, ?_, ha, hb1, hnH, ?_, h3, hcH⟩
        · show n.inC ++ [c] = ys.take (b + 1)
          rw [h2, hinC]
        · exact Nat.le_trans hnC (mC b (b + 1) (by omega))
    · cases hs

/-- Every interleaving keeps the network on its streams. -/
theorem follows_run (H C : Node) (xs ys : List Nat) (hlen clen : Nat → Nat)
    (tH : ∀ k, k ≤ xs.length → H.sent (xs.take k) = ys.take (hlen k))
    (tC : ∀ k, k ≤ ys.length → C.sent (ys.take k) = xs.take (clen k))
    (mH : ∀ j k, j ≤ k → hlen j ≤ hlen k) (mC : ∀ j k, j ≤ k → clen j ≤ clen k) :
    ∀ (ms : List Move) (n n1 : Net), n.follows xs ys hlen clen →
      Net.run H C ms n = some n1 → n1.follows xs ys hlen clen := by
  intro ms
  induction ms with
  | nil =>
    intro n n1 hn hr
    simp only [Net.run, Option.some.injEq] at hr
    subst hr
    exact hn
  | cons m ms ih =>
    intro n n1 hn hr
    simp only [Net.run] at hr
    cases hs : Net.step H C n m with
    | none => rw [hs] at hr; cases hr
    | some n2 =>
      rw [hs] at hr
      exact ih n2 n1 (follows_step H C xs ys hlen clen tH tC mH mC n n2 m hn hs) hr

theorem follows_start (xs ys : List Nat) (hlen clen : Nat → Nat) :
    Net.start.follows xs ys hlen clen :=
  ⟨0, 0, rfl, rfl, Nat.zero_le _, Nat.zero_le _, Nat.zero_le _, Nat.zero_le _,
    ⟨Nat.le_refl _, Nat.zero_le _, rfl⟩, ⟨Nat.le_refl _, Nat.zero_le _, rfl⟩⟩

/-- On its streams the network holds at most `hlen (clen b) - b` bytes towards
the control node and `clen (hlen a) - a` bytes towards the HMI node. -/
theorem follows_bound (xs ys : List Nat) (hlen clen : Nat → Nat) (k : Nat)
    (mH : ∀ i j, i ≤ j → hlen i ≤ hlen j) (mC : ∀ i j, i ≤ j → clen i ≤ clen j)
    (hH : ∀ b, b ≤ ys.length → hlen (clen b) ≤ b + k)
    (hC : ∀ a, a ≤ xs.length → clen (hlen a) ≤ a + k)
    (n : Net) (hn : n.follows xs ys hlen clen) :
    n.toC.length ≤ k ∧ n.toH.length ≤ k := by
  obtain ⟨a, b, hinH, hinC, ha, hb, hnH, hnC, hcC, hcH⟩ := hn
  obtain ⟨c1, c2, c3⟩ := hcC
  obtain ⟨d1, d2, d3⟩ := hcH
  have e1 : n.toC.length = n.nH - b := by
    rw [c3, List.length_drop, List.length_take]; omega
  have e2 : n.toH.length = n.nC - a := by
    rw [d3, List.length_drop, List.length_take]; omega
  have f1 := mH a (clen b) (by omega)
  have f2 := mC b (hlen a) (by omega)
  have g1 := hH b hb
  have g2 := hC a ha
  omega

/-- What `checkPasswordInControlECU` has sent after each prefix of the bytes of
a trial. -/
theorem hmi_trial_table (p : Buffer) (h : Hmi) (mem : EEPROM) (k : Nat) (hk : k ≤ 6) :
    (hmiNode (HMI.checkPasswordInControlECU p) h).sent ((trialToHmi mem p).take k)
      = (trialToCtl p).take (trialHmiSent k) ∧
    (hmiNode (HMI.checkPasswordInControlECU p) h).waits ((trialToHmi mem p).take k)
      = decide (k < 6) := by
  interval_cases k <;>
  simp +decide [hmiNode, trialToHmi, trialToCtl, trialHmiSent, HMI.checkPasswordInControlECU,
    HMI.sendDigits, HMI.awaitByte, dropUntil, readUntil, HMI.UART_sendByte,
    HMI.UART_recieveByte, HmiOutcome.bind, HmiOutcome.state, HMI.sentBytes, Buffer.bytes,
    PASSWORD_SIZE, List.replicate, List.range, List.range.loop, List.filterMap_append]

/-- The verification loop of `main` is a sequence of trials. -/
theorem verifyLoop_eq_trial (fuel : Nat) (l : Locals) (s : Ctrl) :
    verifyLoop (fuel + 1) l s
      = if l.wrongPasswordCounter < MAX_TRIALS then
          (verifyTrial l s).bind fun r s2 =>
            if MATCHED = r.2 then .returned r.1 s2
            else
              verifyLoop fuel
                { r.1 with wrongPasswordCounter := r.1.wrongPasswordCounter + 1 } s2
        else .returned l s := by
  conv_lhs => rw [verifyLoop]
  unfold verifyTrial
  by_cases hc : l.wrongPasswordCounter < MAX_TRIALS
  · rw [if_pos hc, if_pos hc]
    cases receivePasswordFrom_HMI_ECU l.doorPassword s with
    | returned p s1 =>
      simp only [Outcome.bind]
      by_cases hm : MATCHED = (call_checkOnPassword PASSWORD_ADDRESS p s1).1
      · rw [if_pos hm, if_pos hm]
        cases awaitByte MC1_READY (call_checkOnPassword PASSWORD_ADDRESS p s1).2 with
        | returned u s2 => simp only [Outcome.bind, if_pos hm]
        | blocked s2 => rfl
        | spinning s2 => rfl
        | outOfFuel s2 => rfl
      · rw [if_neg hm, if_neg hm]
        cases awaitByte MC1_READY (call_checkOnPassword PASSWORD_ADDRESS p s1).2 with
        | returned u s2 => simp only [Outcome.bind, if_neg hm]
        | blocked s2 => rfl
        | spinning s2 => rfl
        | outOfFuel s2 => rfl
    | blocked s1 => rfl
    | spinning s1 => rfl
    | outOfFuel s1 => rfl
  · rw [if_neg hc, if_neg hc]

/-- One trial on a stream that starts with the frame of a candidate: the
candidate is in the receive buffer and the reply says whether it agrees with
the stored password. -/
theorem verifyTrial_frame (l : Locals) (s : Ctrl) (c : Buffer) (junk tail : List Nat)
    (hj : MC1_READY ∉ junk) (hrx : s.rx = frame c junk ++ tail) :
    verifyTrial l s
      = .returned ({ l with doorPassword := l.doorPassword.received c }, replyTo s.eeprom c)
          (afterTrial c junk (replyTo s.eeprom c) tail s) := by
  have hrx1 : s.rx = c.bytes ++ (junk ++ MC1_READY :: tail) := by
    simp [hrx, frame]
  have hspec := checkOnPassword_matched_iff s.eeprom PASSWORD_ADDRESS
    (l.doorPassword.received c) (by decide)
  have hnot := checkOnPassword_not_matched_iff s.eeprom PASSWORD_ADDRESS
    (l.doorPassword.received c) (by decide)
  have hm : (checkOnPassword s.eeprom PASSWORD_ADDRESS (l.doorPassword.received c)).2 = MATCHED
      ↔ c.agree (storedPassword s.eeprom) := by
    rw [hspec, ← received_agree l.doorPassword c]
    rfl
  simp only [verifyTrial, receivePassword_frame l.doorPassword c s _ hrx1,
    Outcome.bind, call_checkOnPassword, checkOnPassword_fst]
  by_cases hag : c.agree (storedPassword s.eeprom)
  · have h1 : MATCHED = (checkOnPassword s.eeprom PASSWORD_ADDRESS
        (l.doorPassword.received c)).2 := (hm.mpr hag).symm
    rw [if_pos h1]
    rw [awaitByte_append MC1_READY junk tail hj _ rfl]
    simp [Outcome.bind, afterTrial, UART_sendByte, trialLog, replyTo, hag, ← h1]
  · have h1 : ¬ MATCHED = (checkOnPassword s.eeprom PASSWORD_ADDRESS
        (l.doorPassword.received c)).2 := fun e => hag (hm.mp e.symm)
    have h2 : (checkOnPassword s.eeprom PASSWORD_ADDRESS (l.doorPassword.received c)).2
        = NOT_MATCHED := hnot.mpr (fun e => h1 (hspec.mpr e).symm)
    rw [if_neg h1]
    rw [awaitByte_append MC1_READY junk tail hj _ rfl]
    simp [Outcome.bind, afterTrial, UART_sendByte, trialLog, replyTo, hag, h2]

theorem take_bytes_lt (p : Buffer) (k : Nat) (hk : k ≤ 5) :
    (trialToCtl p).take k = p.bytes.take k := by
  unfold trialToCtl
  rw [List.take_append_of_le_length]
  simp [Buffer.bytes, PASSWORD_SIZE, hk]

/-- The receive loop on fewer bytes than it needs: it waits for a byte, having
sent one MC2_READY more than it has received bytes. -/
theorem receive_loop_short (n : Nat) : ∀ (i : Nat) (q : Buffer) (s : Ctrl),
    s.rx.length < n →
    ∃ t, receivePasswordFrom_HMI_ECU.loop n i q s = .blocked t ∧
      sentBytes t.log = sentBytes s.log ++ List.replicate (s.rx.length + 1) MC2_READY := by
  induction n with
  | zero => intro i q s h; omega
  | succ n ih =>
    intro i q s h
    simp only [receivePasswordFrom_HMI_ECU.loop, UART_recieveByte, UART_sendByte]
    cases hrx : s.rx with
    | nil =>
      refine ⟨_, rfl, ?_⟩
      simp [sentBytes_append, sentBytes]
    | cons b rest =>
      simp only [Outcome.bind]
      rw [hrx] at h
      obtain ⟨t, ht, hs⟩ := ih (i + 1) (q.write i b)
        { s with
          rx := rest
          log := s.log ++ [.UART_sendByte MC2_READY] ++ [.UART_recieveByte b] }
        (by simpa using h)
      refine ⟨t, ht, ?_⟩
      rw [hs]
      simp [sentBytes_append, sentBytes, List.replicate_succ]

/-- What the control node has sent after each prefix of the bytes of a
trial. -/
theorem ctl_trial_table (l : Locals) (s : Ctrl) (p : Buffer) (k : Nat) (hk : k ≤ 6) :
    (ctlNode (verifyTrial l) s).sent ((trialToCtl p).take k)
      = (trialToHmi s.eeprom p).take (trialCtlSent k) ∧
    (ctlNode (verifyTrial l) s).waits ((trialToCtl p).take k) = decide (k < 6) := by
  by_cases h6 : k = 6
  · subst h6
    have hfull : (trialToCtl p).take 6 = frame p [] ++ [] := by
      simp [trialToCtl, frame, Buffer.bytes, PASSWORD_SIZE, List.range, List.range.loop]
    have ht := verifyTrial_frame l { s with rx := (trialToCtl p).take 6, log := [] } p [] []
      (by simp) hfull
    simp only [ctlNode, ht, Outcome.state, afterTrial, List.nil_append, sentBytes_trialLog,
      trialBytes, trialToHmi, trialCtlSent, PASSWORD_SIZE]
    simp
  · have hk5 : k ≤ 5 := by omega
    interval_cases k <;>
    simp +decide [ctlNode, trialToCtl, trialToHmi, trialCtlSent, verifyTrial,
      receivePasswordFrom_HMI_ECU, receivePasswordFrom_HMI_ECU.loop, UART_recieveByte,
      UART_sendByte, Outcome.bind, Outcome.state, awaitByte, dropUntil, readUntil,
      call_checkOnPassword, sentBytes, Buffer.bytes, PASSWORD_SIZE, List.replicate, List.range,
      List.range.loop, List.filterMap_append, apply_ite, Outcome.bind]

/-- The interleaving `trialSchedule` is possible and ends with every byte of
the trial received. -/
theorem trial_complete_run (p : Buffer) (h : Hmi) (l : Locals) (s : Ctrl) :
    Net.run (hmiNode (HMI.checkPasswordInControlECU p) h) (ctlNode (verifyTrial l) s)
        trialSchedule Net.start
      = some
          { inH := trialToHmi s.eeprom p
            inC := trialToCtl p
            nH := 6
            nC := 6
            toC := []
            toH := [] } := by
  have H0 := hmi_trial_table p h s.eeprom 0 (by decide)
  have H1 := hmi_trial_table p h s.eeprom 1 (by decide)
  have H2 := hmi_trial_table p h s.eeprom 2 (by decide)
  have H3 := hmi_trial_table p h s.eeprom 3 (by decide)
  have H4 := hmi_trial_table p h s.eeprom 4 (by decide)
  have H5 := hmi_trial_table p h s.eeprom 5 (by decide)
  have C0 := ctl_trial_table l s p 0 (by decide)
  have C1 := ctl_trial_table l s p 1 (by decide)
  have C2 := ctl_trial_table l s p 2 (by decide)
  have C3 := ctl_trial_table l s p 3 (by decide)
  have C4 := ctl_trial_table l s p 4 (by decide)
  have C5 := ctl_trial_table l s p 5 (by decide)
  have C6 := ctl_trial_table l s p 6 (by decide)
  simp +decide only [trialToHmi, trialToCtl, trialHmiSent, trialCtlSent, Buffer.bytes,
    PASSWORD_SIZE, List.range, List.range.loop, List.map, List.replicate, List.take,
    List.cons_append, List.nil_append, List.append_nil, if_true, if_false,
    Nat.lt_irrefl, reduceIte] at H0 H1 H2 H3 H4 H5 C0 C1 C2 C3 C4 C5 C6
  simp +decide [trialSchedule, Net.run, Net.step, Net.start, H0, H1, H2, H3, H4, H5, C0, C1,
    C2, C3, C4, C5, C6, trialToHmi, trialToCtl, Buffer.bytes, PASSWORD_SIZE, List.range,
    List.range.loop, List.replicate]

theorem trialHmiSent_mono (j k : Nat) (hjk : j ≤ k) : trialHmiSent j ≤ trialHmiSent k := by
  unfold trialHmiSent
  split_ifs <;> omega

theorem trialCtlSent_mono (j k : Nat) (hjk : j ≤ k) : trialCtlSent j ≤ trialCtlSent k := by
  unfold trialCtlSent
  split_ifs <;> omega

theorem trialToHmi_length (mem : EEPROM) (p : Buffer) : (trialToHmi mem p).length = 6 := by
  simp [trialToHmi]

theorem trialToCtl_length (p : Buffer) : (trialToCtl p).length = 6 := by
  simp [trialToCtl, Buffer.bytes, PASSWORD_SIZE]

/-- Every interleaving of a trial keeps the two nodes on the streams of the
trial. -/
theorem trial_follows (p : Buffer) (h : Hmi) (l : Locals) (s : Ctrl) (ms : List Move) (n : Net)
    (hr : Net.run (hmiNode (HMI.checkPasswordInControlECU p) h) (ctlNode (verifyTrial l) s)
      ms Net.start = some n) :
    n.follows (trialToHmi s.eeprom p) (trialToCtl p) trialHmiSent trialCtlSent :=
  follows_run _ _ _ _ _ _
    (fun k hk => (hmi_trial_table p h s.eeprom k (by rw [trialToHmi_length] at hk; exact hk)).1)
    (fun k hk => (ctl_trial_table l s p k (by rw [trialToCtl_length] at hk; exact hk)).1)
    trialHmiSent_mono trialCtlSent_mono ms Net.start n (follows_start _ _ _ _) hr

/-- The call `checkPasswordInControlECU(p)` on the bytes of a trial returns the
reply, having sent the five bytes of `p` and MC1_READY. -/
theorem hmi_trial_returns (p : Buffer) (h : Hmi) (reply : Nat) :
    HMI.checkPasswordInControlECU p
        { h with rx := List.replicate 5 MC2_READY ++ [reply], log := [] }
      = .returned reply
          { h with
            rx := []
            log := [.UART_recieveByte MC2_READY, .UART_sendByte (p 0),
              .UART_recieveByte MC2_READY, .UART_sendByte (p 1),
              .UART_recieveByte MC2_READY, .UART_sendByte (p 2),
              .UART_recieveByte MC2_READY, .UART_sendByte (p 3),
              .UART_recieveByte MC2_READY, .UART_sendByte (p 4),
              .UART_sendByte MC1_READY, .UART_recieveByte reply] } := by
  simp +decide [HMI.checkPasswordInControlECU, HMI.sendDigits, HMI.awaitByte, dropUntil,
    readUntil, HMI.UART_sendByte, HMI.UART_recieveByte, HmiOutcome.bind, PASSWORD_SIZE,
    List.replicate]

/-- C17: password transfer round trip over the link. With the HMI node
running `checkPasswordInControlECU(p)` and the control node running
`receivePasswordFrom_HMI_ECU` followed by its check and reply, connected by two
lossless FIFO channels, for every candidate `p` and every stored password:
there is an interleaving in which every byte sent is received; in every
interleaving each node receives a prefix of the same stream, and a node that
has returned has received all of it; the call of the HMI node then returns the
reply, which is MATCHED exactly when `p` agrees with the stored password on
its five bytes, and the receive buffer of the control node holds `p` byte for
byte. -/
theorem password_round_trip (p : Buffer) (h : Hmi) (l : Locals) (s : Ctrl) :
    Net.run (hmiNode (HMI.checkPasswordInControlECU p) h) (ctlNode (verifyTrial l) s)
        trialSchedule Net.start
      = some
          { inH := trialToHmi s.eeprom p
            inC := trialToCtl p
            nH := 6
            nC := 6
            toC := []
            toH := [] } ∧
    (∀ (ms : List Move) (n : Net),
      Net.run (hmiNode (HMI.checkPasswordInControlECU p) h) (ctlNode (verifyTrial l) s)
          ms Net.start = some n →
      n.inH <+: trialToHmi s.eeprom p ∧ n.inC <+: trialToCtl p ∧
      ((hmiNode (HMI.checkPasswordInControlECU p) h).waits n.inH = false →
        n.inH = trialToHmi s.eeprom p) ∧
      ((ctlNode (verifyTrial l) s).waits n.inC = false → n.inC = trialToCtl p)) ∧
    (∃ t, HMI.checkPasswordInControlECU p { h with rx := trialToHmi s.eeprom p, log := [] }
        = .returned (replyTo s.eeprom p) t ∧ t.rx = []) ∧
    (replyTo s.eeprom p = MATCHED ↔
      ∀ i, i < 5 → p i = s.eeprom ((PASSWORD_ADDRESS + i) % 65536)) ∧
    (∃ t, verifyTrial l { s with rx := trialToCtl p, log := [] }
        = .returned ({ l with doorPassword := l.doorPassword.received p }, replyTo s.eeprom p) t ∧
      t.rx = [] ∧ t.eeprom = s.eeprom) ∧
    (∀ i, i < 5 → (l.doorPassword.received p) i = p i) := by
  refine ⟨trial_complete_run p h l s, ?_, ?_, ?_, ?_, ?_⟩
  · intro ms n hr
    obtain ⟨a, b, hinH, hinC, ha, hb, -, -, -, -⟩ := trial_follows p h l s ms n hr
    rw [trialToHmi_length] at ha
    rw [trialToCtl_length] at hb
    refine ⟨?_, ?_, ?_, ?_⟩
    · rw [hinH]; exact List.take_prefix _ _
    · rw [hinC]; exact List.take_prefix _ _
    · intro hw
      rw [hinH, (hmi_trial_table p h s.eeprom a ha).2] at hw
      have ha6 : a = 6 := by
        have : ¬ a < 6 := by simpa using hw
        omega
      rw [hinH, ha6, ← trialToHmi_length s.eeprom p, List.take_length]
    · intro hw
      rw [hinC, (ctl_trial_table l s p b hb).2] at hw
      have hb6 : b = 6 := by
        have : ¬ b < 6 := by simpa using hw
        omega
      rw [hinC, hb6, ← trialToCtl_length p, List.take_length]
  · exact ⟨_, hmi_trial_returns p h (replyTo s.eeprom p), rfl⟩
  · unfold replyTo
    by_cases hag : p.agree (storedPassword s.eeprom)
    · rw [if_pos hag]
      exact ⟨fun _ => hag, fun _ => rfl⟩
    · rw [if_neg hag]
      constructor
      · intro e; exact absurd e (by decide)
      · intro e; exact absurd e hag
  · have hfull : ({ s with rx := trialToCtl p, log := [] } : Ctrl).rx = frame p [] ++ [] := by
      simp [trialToCtl, frame]
    exact ⟨_, verifyTrial_frame l { s with rx := trialToCtl p, log := [] } p [] []
      (by simp) hfull, rfl, rfl⟩
  · intro i hi
    simp [Buffer.received, PASSWORD_SIZE, hi]

/-! ### Bytes in flight -/

/-- What the HMI node has sent after each prefix of the bytes of a trial and
the poll after it. -/
theorem hmi_poll_table (p : Buffer) (next : Nat) (h : Hmi) (mem : EEPROM) (k : Nat)
    (hk : k ≤ 7) :
    (hmiNode (HMI.trialThenSend p next) h).sent ((pollToHmi mem p).take k)
      = (pollToCtl p next).take (pollHmiSent k) ∧
    (hmiNode (HMI.trialThenSend p next) h).waits ((pollToHmi mem p).take k)
      = decide (k < 7) := by
  interval_cases k <;>
  simp +decide [hmiNode, pollToHmi, pollToCtl, pollHmiSent, HMI.trialThenSend,
    HMI.checkPasswordInControlECU,
    HMI.sendDigits, HMI.awaitByte, dropUntil, readUntil, HMI.UART_sendByte,
    HMI.UART_recieveByte, HmiOutcome.bind, HmiOutcome.state, HMI.sentBytes, Buffer.bytes,
    PASSWORD_SIZE, List.replicate, List.range, List.range.loop, List.filterMap_append]

/-- What the control node has sent after each prefix of the bytes of a trial
and the poll after it. -/
theorem ctl_poll_table (l : Locals) (s : Ctrl) (p : Buffer) (next : Nat) (k : Nat)
    (hk : k ≤ 7) :
    (ctlNode (trialThenPoll l) s).sent ((pollToCtl p next).take k)
      = (pollToHmi s.eeprom p).take (pollCtlSent k) ∧
    (ctlNode (trialThenPoll l) s).waits ((pollToCtl p next).take k) = decide (k < 7) := by
  by_cases h6 : 6 ≤ k
  · have hfull : ∀ tail, ({ s with rx := p.bytes ++ MC1_READY :: tail, log := [] } : Ctrl).rx
        = frame p [] ++ tail := by
      intro tail; simp [frame]
    have hk67 : k = 6 ∨ k = 7 := by omega
    rcases hk67 with rfl | rfl
    · have e : (pollToCtl p next).take 6 = p.bytes ++ MC1_READY :: [] := by
        simp [pollToCtl, Buffer.bytes, PASSWORD_SIZE, List.range, List.range.loop]
      have ht := verifyTrial_frame l { s with rx := p.bytes ++ MC1_READY :: [], log := [] }
        p [] [] (by simp) (hfull [])
      simp only [ctlNode, e, trialThenPoll, ht, Outcome.bind, UART_recieveByte, UART_sendByte,
        afterTrial, Outcome.state, sentBytes_append, sentBytes_trialLog, List.nil_append,
        trialBytes, pollToHmi, pollCtlSent, PASSWORD_SIZE]
      simp [sentBytes]
    · have e : (pollToCtl p next).take 7 = p.bytes ++ MC1_READY :: [next] := by
        simp [pollToCtl, Buffer.bytes, PASSWORD_SIZE, List.range, List.range.loop]
      have ht := verifyTrial_frame l { s with rx := p.bytes ++ MC1_READY :: [next], log := [] }
        p [] [next] (by simp) (hfull [next])
      simp only [ctlNode, e, trialThenPoll, ht, Outcome.bind, UART_recieveByte, UART_sendByte,
        afterTrial, Outcome.state, sentBytes_append, sentBytes_trialLog, List.nil_append,
        trialBytes, pollToHmi, pollCtlSent, PASSWORD_SIZE]
      simp [sentBytes]
  · have hk5 : k ≤ 5 := by omega
    interval_cases k <;>
    simp +decide [ctlNode, pollToCtl, pollToHmi, pollCtlSent, trialThenPoll, verifyTrial,
      receivePasswordFrom_HMI_ECU, receivePasswordFrom_HMI_ECU.loop, UART_recieveByte,
      UART_sendByte, Outcome.bind, Outcome.state, awaitByte, dropUntil, readUntil,
      call_checkOnPassword, sentBytes, Buffer.bytes, PASSWORD_SIZE, List.replicate, List.range,
      List.range.loop, List.filterMap_append, apply_ite, Outcome.bind]

theorem pollHmiSent_mono (j k : Nat) (hjk : j ≤ k) : pollHmiSent j ≤ pollHmiSent k := by
  unfold pollHmiSent
  split_ifs <;> omega

theorem pollCtlSent_mono (j k : Nat) (hjk : j ≤ k) : pollCtlSent j ≤ pollCtlSent k := by
  unfold pollCtlSent
  split_ifs <;> omega

theorem pollToHmi_length (mem : EEPROM) (p : Buffer) : (pollToHmi mem p).length = 7 := by
  simp [pollToHmi]

theorem pollToCtl_length (p : Buffer) (next : Nat) : (pollToCtl p next).length = 7 := by
  simp [pollToCtl, Buffer.bytes, PASSWORD_SIZE]

/-- Every interleaving of a trial and the poll after it keeps the two nodes on
their streams. -/
theorem poll_follows (p : Buffer) (next : Nat) (h : Hmi) (l : Locals) (s : Ctrl)
    (ms : List Move) (n : Net)
    (hr : Net.run (hmiNode (HMI.trialThenSend p next) h) (ctlNode (trialThenPoll l) s)
      ms Net.start = some n) :
    n.follows (pollToHmi s.eeprom p) (pollToCtl p next) pollHmiSent pollCtlSent :=
  follows_run _ _ _ _ _ _
    (fun k hk =>
      (hmi_poll_table p next h s.eeprom k (by rw [pollToHmi_length] at hk; exact hk)).1)
    (fun k hk => (ctl_poll_table l s p next k (by rw [pollToCtl_length] at hk; exact hk)).1)
    pollHmiSent_mono pollCtlSent_mono ms Net.start n (follows_start _ _ _ _) hr

/-- C18 (counterexample): from reset, with the candidate 1,2,3,4,5 and the
command OPEN_DOOR, there is an interleaving after which the link holds two
bytes towards the control node (the last byte of the candidate and MC1_READY),
and one after which it holds two bytes towards the HMI node (the reply and
MC2_READY). -/
theorem lockstep_two_pending :
    (Net.run (hmiNode (HMI.trialThenSend (Buffer.ofList [1, 2, 3, 4, 5]) OPEN_DOOR) HMI.powerOn)
        (ctlNode (trialThenPoll Locals.start) powerOn) aheadSchedule Net.start).map
          (fun n => n.toC)
      = some [5, MC1_READY] ∧
    (Net.run (hmiNode (HMI.trialThenSend (Buffer.ofList [1, 2, 3, 4, 5]) OPEN_DOOR) HMI.powerOn)
        (ctlNode (trialThenPoll Locals.start) powerOn) replySchedule Net.start).map
          (fun n => n.toH)
      = some [NOT_MATCHED, MC2_READY] := by
  constructor <;> decide

/-- The two interleavings `aheadSchedule` and `replySchedule` are possible for
every candidate and every store, and each leaves two bytes in flight. -/
theorem poll_runs (p : Buffer) (next : Nat) (h : Hmi) (l : Locals) (s : Ctrl) :
    Net.run (hmiNode (HMI.trialThenSend p next) h) (ctlNode (trialThenPoll l) s)
        aheadSchedule Net.start
      = some
          { inH := List.replicate 5 MC2_READY
            inC := [p 0, p 1, p 2, p 3]
            nH := 6
            nC := 5
            toC := [p 4, MC1_READY]
            toH := [] } ∧
    Net.run (hmiNode (HMI.trialThenSend p next) h) (ctlNode (trialThenPoll l) s)
        replySchedule Net.start
      = some
          { inH := List.replicate 5 MC2_READY
            inC := [p 0, p 1, p 2, p 3, p 4, MC1_READY]
            nH := 6
            nC := 7
            toC := []
            toH := [replyTo s.eeprom p, MC2_READY] } := by
  have H0 := hmi_poll_table p next h s.eeprom 0 (by decide)
  have H1 := hmi_poll_table p next h s.eeprom 1 (by decide)
  have H2 := hmi_poll_table p next h s.eeprom 2 (by decide)
  have H3 := hmi_poll_table p next h s.eeprom 3 (by decide)
  have H4 := hmi_poll_table p next h s.eeprom 4 (by decide)
  have H5 := hmi_poll_table p next h s.eeprom 5 (by decide)
  have C0 := ctl_poll_table l s p next 0 (by decide)
  have C1 := ctl_poll_table l s p next 1 (by decide)
  have C2 := ctl_poll_table l s p next 2 (by decide)
  have C3 := ctl_poll_table l s p next 3 (by decide)
  have C4 := ctl_poll_table l s p next 4 (by decide)
  have C5 := ctl_poll_table l s p next 5 (by decide)
  have C6 := ctl_poll_table l s p next 6 (by decide)
  simp +decide only [pollToHmi, pollToCtl, pollHmiSent, pollCtlSent, Buffer.bytes,
    PASSWORD_SIZE, List.range, List.range.loop, List.map, List.replicate, List.take,
    List.cons_append, List.nil_append, List.append_nil, if_true, if_false,
    Nat.lt_irrefl, reduceIte] at H0 H1 H2 H3 H4 H5 C0 C1 C2 C3 C4 C5 C6
  constructor
  · simp +decide [aheadSchedule, Net.run, Net.step, Net.start, H0, H1, H2, H3, H4, H5,
      C0, C1, C2, C3, C4, List.replicate]
  · simp +decide [replySchedule, aheadSchedule, Net.run, Net.step, Net.start, H0, H1, H2, H3,
      H4, H5, C0, C1, C2, C3, C4, C5, C6, List.replicate]

/-- C18 (amended): in every interleaving of the HMI node and the control node
connected by FIFO byte channels, at every point of a password transfer, of the
reply and of the poll that follows it (command dispatch or next trial),
neither direction of the link holds more than two bytes that have been sent
and not yet received; two are reached in each direction: the last byte of the
candidate with MC1_READY, and the reply with MC2_READY. -/
theorem lockstep_within_two (p : Buffer) (next : Nat) (h : Hmi) (l : Locals) (s : Ctrl) :
    (∀ (ms : List Move) (n : Net),
      Net.run (hmiNode (HMI.trialThenSend p next) h) (ctlNode (trialThenPoll l) s)
          ms Net.start = some n →
      n.toC.length ≤ 2 ∧ n.toH.length ≤ 2) ∧
    (Net.run (hmiNode (HMI.trialThenSend p next) h) (ctlNode (trialThenPoll l) s)
        aheadSchedule Net.start).map (fun n => n.toC) = some [p 4, MC1_READY] ∧
    (Net.run (hmiNode (HMI.trialThenSend p next) h) (ctlNode (trialThenPoll l) s)
        replySchedule Net.start).map (fun n => n.toH)
      = some [replyTo s.eeprom p, MC2_READY] := by
  have hruns := poll_runs p next h l s
  refine ⟨?_, ?_, ?_⟩
  · intro ms n hr
    refine follows_bound (pollToHmi s.eeprom p) (pollToCtl p next) pollHmiSent pollCtlSent 2
      pollHmiSent_mono pollCtlSent_mono ?_ ?_ n (poll_follows p next h l s ms n hr)
    · intro b hb
      rw [pollToCtl_length] at hb
      interval_cases b <;> decide
    · intro a ha
      rw [pollToHmi_length] at ha
      interval_cases a <;> decide
  · rw [hruns.1]; rfl
  · rw [hruns.2]; rfl

/-! ### Re-arming without disarming -/

/-- The four `CLEAR_BIT` of `Timer1_deInit` keep bits 0, 1, 6 and 7 of an
8-bit TIMSK. -/
theorem deInit_TIMSK (x : Nat) :
    CLEAR_BIT (CLEAR_BIT (CLEAR_BIT (CLEAR_BIT x TOIE1) OCIE1A) OCIE1B) TICIE1 = x &&& 0xC3 := by
  simp only [CLEAR_BIT, TOIE1, OCIE1A, OCIE1B, TICIE1, Nat.and_assoc]
  rfl

/-- Setting OCIE1A again in a TIMSK that `Timer1_deInit` and `Timer1_init`
have left gives what clearing the Timer1 bits first and setting OCIE1A
gives. -/
theorem rearm_TIMSK (x : Nat) :
    (x &&& 0xC3 ||| 1 <<< OCIE1A) ||| 1 <<< OCIE1A
      = ((x &&& 0xC3 ||| 1 <<< OCIE1A) &&& 0xC3) ||| 1 <<< OCIE1A := by
  apply Nat.eq_of_testBit_eq
  intro i
  simp only [Nat.testBit_or, Nat.testBit_and]
  cases Nat.testBit x i <;> cases Nat.testBit 0xC3 i <;> cases Nat.testBit (1 <<< OCIE1A) i <;> rfl

/-- The state after the third invocation of `APP_DcMotor`: the counter is 3 and
the timer holds what `Timer1_deInit` and `Timer1_init` have written, with only
OCIE1A set among the Timer1 bits of TIMSK. -/
theorem door_after_three (s : Ctrl) :
    ∃ z, (compareMatches 2 (APP_DcMotor { s with g_ticks_DCMotor := 0 })).timer
        = { TCCR1A := 12
            TCCR1B := 13
            TCNT1 := 0
            ICR1 := 0
            OCR1A := 23437
            OCR1B := 0
            TIMSK := z &&& 0xC3 ||| 1 <<< OCIE1A
            g_callBackPtr := some .APP_DcMotor } ∧
      (compareMatches 2 (APP_DcMotor { s with g_ticks_DCMotor := 0 })).g_ticks_DCMotor = 3 := by
  refine ⟨(s.timer.TIMSK &&& 0xC3 ||| 1 <<< OCIE1A) &&& 0xC3 ||| 1 <<< OCIE1A, ?_, ?_⟩ <;>
  simp +decide [compareMatches, compareMatch, TIMER1_COMPA_vect, callBack, APP_DcMotor,
    Timer1.armed, startTimer1, call_Timer1_deInit, Timer1_init_eq, Timer1_deInit,
    Timer1_setCallBack, DcMotor_Rotate, Nat.testBit_or, F_CPU_DIVIDE_1024, CTC_OCR1A,
    SET_BIT, deInit_TIMSK, FOC1A, FOC1B]

/-- In a state with the counter at 3 and the timer as the third invocation
leaves it, phase 4 with and without `Timer1_deInit` gives the same state but
for the log. -/
theorem phase4_rearm (t : Ctrl) (z v : Nat) (hg : t.g_ticks_DCMotor = 3)
    (ht : t.timer
      = { TCCR1A := 12
          TCCR1B := 13
          TCNT1 := 0
          ICR1 := 0
          OCR1A := v
          OCR1B := 0
          TIMSK := z &&& 0xC3 ||| 1 <<< OCIE1A
          g_callBackPtr := some .APP_DcMotor }) :
    APP_DcMotor_disarming t
      = { APP_DcMotor t with
          log := t.log ++ [.invoked .APP_DcMotor, .Timer1_deInit,
            .startTimer1 0 62500 F_CPU_DIVIDE_1024 CTC_OCR1A .APP_DcMotor,
            .DcMotor_Rotate .ANTI_CLOCKWISE 100] } ∧
    (APP_DcMotor t).log
      = t.log ++ [.invoked .APP_DcMotor,
          .startTimer1 0 62500 F_CPU_DIVIDE_1024 CTC_OCR1A .APP_DcMotor,
          .DcMotor_Rotate .ANTI_CLOCKWISE 100] ∧
    (APP_DcMotor t).timer
      = { TCCR1A := 12
          TCCR1B := 13
          TCNT1 := 0
          ICR1 := 0
          OCR1A := 62500
          OCR1B := 0
          TIMSK := z &&& 0xC3 ||| 1 <<< OCIE1A
          g_callBackPtr := some .APP_DcMotor } := by
  have hT := rearm_TIMSK z
  have hT2 : (z &&& 0xC3 ||| 1 <<< OCIE1A) ||| 1 <<< OCIE1A = z &&& 0xC3 ||| 1 <<< OCIE1A := by
    rw [Nat.or_assoc, Nat.or_self]
  refine ⟨?_, ?_, ?_⟩
  · simp +decide [APP_DcMotor, APP_DcMotor_disarming, hg, startTimer1, call_Timer1_deInit,
      Timer1_init_eq, Timer1_deInit, Timer1_setCallBack, DcMotor_Rotate, F_CPU_DIVIDE_1024,
      CTC_OCR1A, SET_BIT, deInit_TIMSK, FOC1A, FOC1B, ht, ← hT, hT2]
  · simp +decide [APP_DcMotor, hg, startTimer1, DcMotor_Rotate]
  · simp +decide [APP_DcMotor, hg, startTimer1, Timer1_init_eq, Timer1_setCallBack,
      DcMotor_Rotate, F_CPU_DIVIDE_1024, CTC_OCR1A, SET_BIT, FOC1A, FOC1B, ht, hT2]

/-- Of the Timer1 bits of TIMSK only OCIE1A is set after the timer has been
armed. -/
theorem timer1Bits_rearm (z : Nat) :
    timer1Bits (z &&& 0xC3 ||| 1 <<< OCIE1A) = 1 <<< OCIE1A := by
  unfold timer1Bits
  have hc : (1 <<< TOIE1 ||| 1 <<< OCIE1B ||| 1 <<< OCIE1A ||| 1 <<< TICIE1) = 0x3C := by decide
  rw [hc]
  apply Nat.eq_of_testBit_eq
  intro i
  have h0 : Nat.testBit (0xC3 &&& 0x3C) i = Nat.testBit 0 i := rfl
  have h1 : Nat.testBit (1 <<< OCIE1A &&& 0x3C) i = Nat.testBit (1 <<< OCIE1A) i := rfl
  simp only [Nat.testBit_and, Nat.zero_testBit] at h0 h1
  simp only [Nat.testBit_and, Nat.testBit_or]
  revert h0 h1
  cases Nat.testBit z i <;> cases Nat.testBit 0xC3 i <;> cases Nat.testBit 0x3C i <;>
    cases Nat.testBit (1 <<< OCIE1A) i <;> simp

/-- Clearing the Timer1 bits of an armed TIMSK gives the TIMSK it was armed
from. -/
theorem clear_after_arm (a : Nat) : (a &&& 0xC3 ||| 1 <<< OCIE1A) &&& 0xC3 = a &&& 0xC3 := by
  apply Nat.eq_of_testBit_eq
  intro i
  have h0 : Nat.testBit (1 <<< OCIE1A &&& 0xC3) i = Nat.testBit 0 i := rfl
  simp only [Nat.testBit_and, Nat.zero_testBit] at h0
  simp only [Nat.testBit_and, Nat.testBit_or]
  revert h0
  cases Nat.testBit a i <;> cases Nat.testBit 0xC3 i <;>
    cases Nat.testBit (1 <<< OCIE1A) i <;> simp

theorem arm_twice (a b : Nat) : (a ||| b) ||| b = a ||| b := by
  rw [Nat.or_assoc, Nat.or_self]

/-- C21: re-arming without disarming is equivalent at phase 4 of the door
sequence. Of the five invocations of `APP_DcMotor` that call `startTimer1`,
the fourth is the only one that does not call `Timer1_deInit` first. In the
state reached after the third invocation, the fourth invocation leaves the
timer (TCCR1A, TCCR1B, TCNT1, ICR1, OCR1A, OCR1B, TIMSK and the registered
call-back) as `Timer1_deInit` followed by the same `startTimer1` call would,
and the whole state but for the log; so the door sequence and the sequence
with `Timer1_deInit` in every phase go through the same states. In other
states the two ways of arming differ. -/
theorem rearm_without_disarm (s : Ctrl) :
    timerCalls (compareMatches 5 (APP_DcMotor { s with g_ticks_DCMotor := 0, log := [] })).log
      = [[.Timer1_deInit, .startTimer1 0 62500 F_CPU_DIVIDE_1024 CTC_OCR1A .APP_DcMotor],
         [.Timer1_deInit, .startTimer1 0 54687 F_CPU_DIVIDE_1024 CTC_OCR1A .APP_DcMotor],
         [.Timer1_deInit, .startTimer1 0 23437 F_CPU_DIVIDE_1024 CTC_OCR1A .APP_DcMotor],
         [.startTimer1 0 62500 F_CPU_DIVIDE_1024 CTC_OCR1A .APP_DcMotor],
         [.Timer1_deInit, .startTimer1 0 54687 F_CPU_DIVIDE_1024 CTC_OCR1A .APP_DcMotor],
         [.Timer1_deInit]] ∧
    compareMatches 3 (APP_DcMotor { s with g_ticks_DCMotor := 0 })
      = APP_DcMotor (compareMatches 2 (APP_DcMotor { s with g_ticks_DCMotor := 0 })) ∧
    (APP_DcMotor (compareMatches 2 (APP_DcMotor { s with g_ticks_DCMotor := 0 }))).timer
      = (APP_DcMotor_disarming
          (compareMatches 2 (APP_DcMotor { s with g_ticks_DCMotor := 0 }))).timer ∧
    (startTimer1 0x00 62500 F_CPU_DIVIDE_1024 CTC_OCR1A .APP_DcMotor
        (compareMatches 2 (APP_DcMotor { s with g_ticks_DCMotor := 0 }))).timer
      = (startTimer1 0x00 62500 F_CPU_DIVIDE_1024 CTC_OCR1A .APP_DcMotor
          (call_Timer1_deInit
            (compareMatches 2 (APP_DcMotor { s with g_ticks_DCMotor := 0 })))).timer ∧
    APP_DcMotor_disarming (compareMatches 2 (APP_DcMotor { s with g_ticks_DCMotor := 0 }))
      = { APP_DcMotor (compareMatches 2 (APP_DcMotor { s with g_ticks_DCMotor := 0 })) with
          log := (compareMatches 2 (APP_DcMotor { s with g_ticks_DCMotor := 0 })).log
            ++ [.invoked .APP_DcMotor, .Timer1_deInit,
              .startTimer1 0 62500 F_CPU_DIVIDE_1024 CTC_OCR1A .APP_DcMotor,
              .DcMotor_Rotate .ANTI_CLOCKWISE 100] } ∧
    (∃ TIMSK,
      (APP_DcMotor (compareMatches 2 (APP_DcMotor { s with g_ticks_DCMotor := 0 }))).timer
        = { TCCR1A := 12
            TCCR1B := 13
            TCNT1 := 0
            ICR1 := 0
            OCR1A := 62500
            OCR1B := 0
            TIMSK := TIMSK
            g_callBackPtr := some .APP_DcMotor } ∧
      timer1Bits TIMSK = 1 <<< OCIE1A) ∧
    (∀ k, k ≤ 6 →
      (APP_DcMotor_disarming^[k] { s with g_ticks_DCMotor := 0 }).timer
        = (APP_DcMotor^[k] { s with g_ticks_DCMotor := 0 }).timer ∧
      (APP_DcMotor_disarming^[k] { s with g_ticks_DCMotor := 0 }).g_ticks_DCMotor
        = (APP_DcMotor^[k] { s with g_ticks_DCMotor := 0 }).g_ticks_DCMotor ∧
      (APP_DcMotor_disarming^[k] { s with g_ticks_DCMotor := 0 }).motorPin1
        = (APP_DcMotor^[k] { s with g_ticks_DCMotor := 0 }).motorPin1 ∧
      (APP_DcMotor_disarming^[k] { s with g_ticks_DCMotor := 0 }).motorPin2
        = (APP_DcMotor^[k] { s with g_ticks_DCMotor := 0 }).motorPin2) ∧
    (startTimer1 0x00 62500 F_CPU_DIVIDE_1024 CTC_OCR1A .APP_DcMotor
        { powerOn with timer := { powerOn.timer with ICR1 := 1 } }).timer
      ≠ (startTimer1 0x00 62500 F_CPU_DIVIDE_1024 CTC_OCR1A .APP_DcMotor
          (call_Timer1_deInit { powerOn with timer := { powerOn.timer with ICR1 := 1 } })).timer := by
  obtain ⟨z, hz, hg⟩ := door_after_three s
  have hp := phase4_rearm _ z 23437 hg hz
  refine ⟨?_, ?_, ?_, ?_, hp.1, ⟨_, hp.2.2, timer1Bits_rearm z⟩, ?_, by decide⟩
  · simp +decide [timerCalls, invocations, splitInvocations, Event.isTimer,
      compareMatches, compareMatch, TIMER1_COMPA_vect, callBack, APP_DcMotor,
      Timer1.armed, startTimer1, call_Timer1_deInit, Timer1_init_eq, Timer1_deInit,
      Timer1_setCallBack, DcMotor_Rotate, Nat.testBit_or, OCIE1A, F_CPU_DIVIDE_1024, CTC_OCR1A,
      SET_BIT]
  · simp +decide [compareMatches, compareMatch, TIMER1_COMPA_vect, callBack, APP_DcMotor,
      Timer1.armed, startTimer1, call_Timer1_deInit, Timer1_init_eq, Timer1_deInit,
      Timer1_setCallBack, DcMotor_Rotate, Nat.testBit_or, OCIE1A, F_CPU_DIVIDE_1024, CTC_OCR1A,
      SET_BIT]
  · rw [hp.1]
  · simp only [startTimer1, call_Timer1_deInit, Timer1_init_eq, Timer1_deInit,
      Timer1_setCallBack, hz, deInit_TIMSK, clear_after_arm, arm_twice]
    rfl
  · intro k hk
    interval_cases k <;>
    simp +decide [Function.iterate_succ, Function.iterate_zero, APP_DcMotor,
      APP_DcMotor_disarming, startTimer1, call_Timer1_deInit, Timer1_init_eq, Timer1_deInit,
      Timer1_setCallBack, DcMotor_Rotate, F_CPU_DIVIDE_1024, CTC_OCR1A,
      SET_BIT, deInit_TIMSK, clear_after_arm, arm_twice]

end DoorLocker
